import Mathlib

/-!
A shallow embedding of the adaptive multigrid mesh of `PIV/multiGrid.py`
(classes `MultiGrid`, `GridCell`, `Grid`), together with proofs about its
construction, split protocol, tier refinement, leaf enumeration and
adaptive refinement pass.

Modelling conventions:
* `CorrWindow` (class `PIV.corr_window.CorrWindow`) is not part of the
  sources; it is modelled from the spec as an opaque value object
  `create(x, y, window_size)` holding its position and window size
  (the displacement fields `u`/`v` play no role in the structural claims).
* All point and cell references are indices into the append-only lists
  `MultiGrid.windows` / `MultiGrid.cells`, mirroring the identity-by-index
  semantics of the Python object lists (objects are aliased, the lists only
  grow, hence indices are stable identities).
* Coordinates are rationals: Python computes midpoints with float `/ 2`;
  every coordinate ever produced is a dyadic rational, represented exactly.
* Python exceptions are modelled by an error component `Option Err`; a
  failing operation returns the state as mutated up to the raise point,
  exactly mirroring the partial mutation a propagating Python exception
  leaves behind.
* One deliberate deviation: Python appends the four child cells to
  `multigrid.cells` at the very end of `split`, while here they are
  appended at creation time so that they have definite indices.  For any
  history of completed splits the resulting `cells` list is identical
  (same order); the two differ only in whether the children of a split
  that failed at the `new_tier` check are members of the `cells` list,
  which no modelled observable other than the list itself reads (leaf
  enumeration follows `children` references, as in Python).
* The recursive neighbour-balancing cascade of `split` is fuelled; the
  public `split` supplies fuel `cells.length + 1`, which strictly exceeds
  the tier of any cell and hence the cascade depth of any Python run.
-/

/-- Modelled from the spec: the sample-point entity (`CorrWindow`) of the
missing `PIV.corr_window` module — `create(x, y, window_size) → point`
owning its position and assigned window size. -/
structure CorrWindow where
  x : ℚ
  y : ℚ
  WS : ℚ
deriving DecidableEq

instance : Inhabited CorrWindow := ⟨⟨0, 0, 0⟩⟩

/-- The `children` map of a `GridCell`: exactly four children keyed
bl/br/tl/tr (Python dict with fixed key set, insertion order
bl, br, tl, tr).  Values are indices into `MultiGrid.cells`. -/
structure Children where
  bl : Nat
  br : Nat
  tl : Nat
  tr : Nat
deriving DecidableEq

/-- A quadtree cell (`class GridCell`): indices of its four corner windows,
tier, bottom-left grid indices `ix`/`iy` in the tier's coordinate space,
optional parent, optional children, four nullable same-tier neighbours. -/
structure GridCell where
  id_bl : Nat
  id_br : Nat
  id_tl : Nat
  id_tr : Nat
  tier : Nat
  ix : Nat
  iy : Nat
  parent : Option Nat
  children : Option Children
  north : Option Nat
  east : Option Nat
  south : Option Nat
  west : Option Nat
deriving DecidableEq

instance : Inhabited GridCell :=
  ⟨{ id_bl := 0, id_br := 0, id_tl := 0, id_tr := 0, tier := 0, ix := 0,
     iy := 0, parent := none, children := none, north := none, east := none,
     south := none, west := none }⟩

/-- `len(np.arange(0, dim, s))`, i.e. `⌈dim / s⌉` for `s > 0`.  (Python
raises for `s = 0`; no modelled operation is invoked with spacing 0.) -/
def numPts (dim s : Nat) : Nat := (dim + s - 1) / s

/-- A per-tier sample grid (`class Grid`): dense row/column table of
optional window indices at the tier's regular spacing. -/
structure Grid where
  img_dim : Nat × Nat
  spacing : Nat
  arr : List (List (Option Nat))
deriving DecidableEq

/-- `Grid.__init__`: an initially empty `ny × nx` table (`_array`). -/
def mkGrid (img_dim : Nat × Nat) (s : Nat) : Grid :=
  { img_dim := img_dim, spacing := s,
    arr := (List.range (numPts img_dim.1 s)).map
      (fun _ => (List.range (numPts img_dim.2 s)).map (fun _ => none)) }

/-- The mesh (`class MultiGrid`): the append-only window and cell lists,
the per-tier grids, the maximum tier, and the number of tier-0 cells. -/
structure MultiGrid where
  img_dim : Nat × Nat
  spacing : Nat
  windows : List CorrWindow
  grids : List Grid
  cells : List GridCell
  max_tier : Nat
  cells_in_top_tier : Nat
deriving DecidableEq

/-- Python exceptions arising in the modelled operations. -/
inductive Err where
  /-- `ValueError("This cell has already been split")` -/
  | alreadySplit
  /-- `ValueError("Grid refinement not possible")` raised by `new_tier` -/
  | refinement
  /-- `AttributeError` from dereferencing a `None` parent in
  `split_neighbs_if_needed` -/
  | noParent
  /-- `IndexError` from a cell index outside `cells` -/
  | badIndex
  /-- recursion fuel exhausted (never occurs with the fuel supplied by
  `split`; kept so the cascade is total) -/
  | fuel
deriving DecidableEq

def MultiGrid.nx (mg : MultiGrid) : Nat := numPts mg.img_dim.2 mg.spacing

def MultiGrid.ny (mg : MultiGrid) : Nat := numPts mg.img_dim.1 mg.spacing

/-- number of cells per row at tier 0 (`n_cc`). -/
def MultiGrid.n_cc (mg : MultiGrid) : Nat := mg.nx - 1

/-- number of cell rows at tier 0 (`n_rc`). -/
def MultiGrid.n_rc (mg : MultiGrid) : Nat := mg.ny - 1

def cellAt (mg : MultiGrid) (i : Nat) : GridCell := mg.cells.getD i default

def winAt (mg : MultiGrid) (i : Nat) : CorrWindow := mg.windows.getD i default

def setCell (mg : MultiGrid) (i : Nat) (c : GridCell) : MultiGrid :=
  { mg with cells := mg.cells.set i c }

def modCell (mg : MultiGrid) (i : Nat) (f : GridCell → GridCell) : MultiGrid :=
  setCell mg i (f (cellAt mg i))

/-- `self.cw_list.append(win)`; returns the new window's index
(`self.multigrid.n_windows - 1` after the append). -/
def appendWin (mg : MultiGrid) (w : CorrWindow) : MultiGrid × Nat :=
  ({ mg with windows := mg.windows ++ [w] }, mg.windows.length)

/-- The tier-0 cell at cell-row `rr`, cell-column `cc` as wired by
`MultiGrid.__init__` (corner ids by row-major index arithmetic over the
`nx`-wide window grid, neighbours by index arithmetic over the `n_cc`-wide
cell grid, borders get `None`). -/
def topCell (nx n_cc n_rc rr cc : Nat) : GridCell :=
  { id_bl := rr * nx + cc
    id_br := rr * nx + cc + 1
    id_tl := rr * nx + cc + nx
    id_tr := rr * nx + cc + nx + 1
    tier := 0
    ix := cc
    iy := rr
    parent := none
    children := none
    north := if rr = n_rc - 1 then none else some (rr * n_cc + cc + n_cc)
    east := if cc = n_cc - 1 then none else some (rr * n_cc + cc + 1)
    south := if rr = 0 then none else some (rr * n_cc + cc - n_cc)
    west := if cc = 0 then none else some (rr * n_cc + cc - 1) }

/-- `MultiGrid.__init__(img_dim, spacing, WS)`: the regular window grid
(row-major), the filled tier-0 `Grid`, one cell per 2×2 block of adjacent
grid points, neighbours wired by index arithmetic.  (Python performs no
validation: degenerate dimensions simply yield zero cells.) -/
def construct (img_dim : Nat × Nat) (spacing : Nat) (WS : ℚ) : MultiGrid :=
  let nx := numPts img_dim.2 spacing
  let ny := numPts img_dim.1 spacing
  let n_cc := nx - 1
  let n_rc := ny - 1
  { img_dim := img_dim
    spacing := spacing
    windows := (List.range (ny * nx)).map
      (fun k => ⟨((k % nx) * spacing : Nat), ((k / nx) * spacing : Nat), WS⟩)
    grids := [{ mkGrid img_dim spacing with
      arr := (List.range ny).map
        (fun ii => (List.range nx).map (fun jj => some (ii * nx + jj))) }]
    cells := (List.range (n_rc * n_cc)).map
      (fun k => topCell nx n_cc n_rc (k / n_cc) (k % n_cc))
    max_tier := 0
    cells_in_top_tier := n_rc * n_cc }

/-- `MultiGrid.new_tier()`: current deepest spacing is
`int(spacing / 2**max_tier)`; succeeds (incrementing `max_tier` and
appending a fresh empty `Grid` at the halved spacing) exactly when the
halved spacing is an exact integer, else raises
`ValueError("Grid refinement not possible")` having mutated nothing. -/
def new_tier (mg : MultiGrid) : MultiGrid × Option Err :=
  let h_curr := mg.spacing / 2 ^ mg.max_tier
  if h_curr % 2 = 0 then
    ({ mg with max_tier := mg.max_tier + 1,
               grids := mg.grids ++ [mkGrid mg.img_dim (h_curr / 2)] }, none)
  else
    (mg, some .refinement)

/-- the reused window id of the `check left` branch of
`create_new_corrWindows` (`west.children['br'].id_tr`), when the west
neighbour exists and has children. -/
def reuseWest (mg : MultiGrid) (c : GridCell) : Option Nat :=
  match c.west with
  | some w =>
    match (cellAt mg w).children with
    | some q => some ((cellAt mg q.br).id_tr)
    | none => none
  | none => none

/-- `check down`: `south.children['tl'].id_tr`. -/
def reuseSouth (mg : MultiGrid) (c : GridCell) : Option Nat :=
  match c.south with
  | some s =>
    match (cellAt mg s).children with
    | some q => some ((cellAt mg q.tl).id_tr)
    | none => none
  | none => none

/-- `check up`: `north.children['br'].id_bl`. -/
def reuseNorth (mg : MultiGrid) (c : GridCell) : Option Nat :=
  match c.north with
  | some nb =>
    match (cellAt mg nb).children with
    | some q => some ((cellAt mg q.br).id_bl)
    | none => none
  | none => none

/-- `check right`: `east.children['bl'].id_tl`. -/
def reuseEast (mg : MultiGrid) (c : GridCell) : Option Nat :=
  match c.east with
  | some e =>
    match (cellAt mg e).children with
    | some q => some ((cellAt mg q.bl).id_tl)
    | none => none
  | none => none

/-- reuse an existing window id, or append the given fresh window. -/
def reuseOrNew (mg : MultiGrid) (r : Option Nat) (w : CorrWindow) :
    MultiGrid × Nat :=
  match r with
  | some k => (mg, k)
  | none => appendWin mg w

/-- the midpoint `(a + b) / 2` of two rationals, computed on raw
numerators/denominators so that it evaluates inside the kernel
(`Rat.add` and `Rat.mul` are irreducible); `midQ_eq_half` proves it
equal to `(a + b) / 2`. -/
def midQ (a b : ℚ) : ℚ :=
  Rat.divInt (a.num * b.den + b.num * a.den) (2 * (a.den * b.den))

/-- `GridCell.create_new_corrWindows` on cell `ci`: the five window ids
(left_mid, ctr_btm, ctr_mid, ctr_top, right_mid), each either reused from
an already-split neighbour's child or freshly appended with the window
size of the cell's bottom-left corner window; `ctr_mid` is always fresh. -/
def create_new_corrWindows (mg0 : MultiGrid) (ci : Nat) :
    MultiGrid × Nat × Nat × Nat × Nat × Nat :=
  let c := cellAt mg0 ci
  let blw := winAt mg0 c.id_bl
  let ctr_x := midQ blw.x (winAt mg0 c.id_br).x
  let ctr_y := midQ blw.y (winAt mg0 c.id_tl).y
  let r1 := reuseOrNew mg0 (reuseWest mg0 c) ⟨blw.x, ctr_y, blw.WS⟩
  let r2 := reuseOrNew r1.1 (reuseSouth mg0 c) ⟨ctr_x, blw.y, blw.WS⟩
  let r3 := appendWin r2.1 ⟨ctr_x, ctr_y, blw.WS⟩
  let r4 := reuseOrNew r3.1 (reuseNorth mg0 c)
    ⟨ctr_x, (winAt mg0 c.id_tl).y, blw.WS⟩
  let r5 := reuseOrNew r4.1 (reuseEast mg0 c)
    ⟨(winAt mg0 c.id_br).x, ctr_y, blw.WS⟩
  (r5.1, r1.2, r2.2, r3.2, r4.2, r5.2)

/-- The cell-creation block of `GridCell.split`: builds the four children
at tier+1 (with parent back-reference, doubled-plus-offset grid indices,
no neighbours yet), records them in the parent's `children` map.  The
children receive the next four indices of the cell list. -/
def makeChildren (mg : MultiGrid) (ci lm cb cm ct rm : Nat) :
    MultiGrid × Children :=
  let c := cellAt mg ci
  let m := mg.cells.length
  let base : GridCell :=
    { id_bl := 0, id_br := 0, id_tl := 0, id_tr := 0, tier := c.tier + 1,
      ix := 0, iy := 0, parent := some ci, children := none,
      north := none, east := none, south := none, west := none }
  let blc := { base with id_bl := c.id_bl, id_br := cb, id_tl := lm,
                         id_tr := cm, ix := 2 * c.ix, iy := 2 * c.iy }
  let brc := { base with id_bl := cb, id_br := c.id_br, id_tl := cm,
                         id_tr := rm, ix := 2 * c.ix + 1, iy := 2 * c.iy }
  let tlc := { base with id_bl := lm, id_br := cm, id_tl := c.id_tl,
                         id_tr := ct, ix := 2 * c.ix, iy := 2 * c.iy + 1 }
  let trc := { base with id_bl := cm, id_br := rm, id_tl := ct,
                         id_tr := c.id_tr, ix := 2 * c.ix + 1,
                         iy := 2 * c.iy + 1 }
  let q : Children := ⟨m, m + 1, m + 2, m + 3⟩
  (setCell { mg with cells := mg.cells ++ [blc, brc, tlc, trc] } ci
     { c with children := some q }, q)

/-- write `v` at row `r`, column `c` of a grid table (out-of-range writes
cannot occur on meshes built by `construct`; `List.set` ignores them). -/
def set2 (a : List (List (Option Nat))) (r c : Nat) (v : Option Nat) :
    List (List (Option Nat)) :=
  a.set r ((a.getD r []).set c v)

/-- The grid-registration block of `GridCell.split`: records the five new
window ids in the `_array` of the children's tier. -/
def registerGrid (mg : MultiGrid) (ci lm cb cm ct rm : Nat) : MultiGrid :=
  let c := cellAt mg ci
  let t := c.tier + 1
  let ixb := 2 * c.ix
  let iyb := 2 * c.iy
  let g := mg.grids.getD t (mkGrid mg.img_dim 1)
  let a0 := g.arr
  let a1 := set2 a0 (iyb + 1) ixb (some lm)
  let a2 := set2 a1 iyb (ixb + 1) (some cb)
  let a3 := set2 a2 (iyb + 1) (ixb + 1) (some cm)
  let a4 := set2 a3 (iyb + 2) (ixb + 1) (some ct)
  let a5 := set2 a4 (iyb + 1) (ixb + 2) (some rm)
  { mg with grids := mg.grids.set t { g with arr := a5 } }

/-- establish the mutual north/south link between cell `i` and the cell
`j` directly to its north (`i.north = j`, `j.south = i`). -/
def linkNS (mg : MultiGrid) (i j : Nat) : MultiGrid :=
  modCell (modCell mg i (fun c => { c with north := some j })) j
    (fun c => { c with south := some i })

/-- establish the mutual east/west link between cell `i` and the cell
`j` directly to its east (`i.east = j`, `j.west = i`). -/
def linkEW (mg : MultiGrid) (i j : Nat) : MultiGrid :=
  modCell (modCell mg i (fun c => { c with east := some j })) j
    (fun c => { c with west := some i })

/-- The known-neighbour block of `GridCell.split`: mutual neighbour links
among the four fresh children (`bl.north = tl`, `bl.east = br`,
`br.north = tr`, `br.west = bl`, `tl.south = bl`, `tl.east = tr`,
`tr.south = br`, `tr.west = tl`).  The Python source assigns the same
eight distinct (cell, field) pairs, so the resulting state is
identical. -/
def siblingLinks (mg : MultiGrid) (q : Children) : MultiGrid :=
  linkEW (linkEW (linkNS (linkNS mg q.bl q.tl) q.br q.tr) q.bl q.br) q.tl q.tr

/-- `GridCell.update_child_neighbours`: stitches the fresh children of
cell `ci` to the children of each already-split neighbour of `ci` across
the shared edge, in both directions. -/
def update_child_neighbours (mg : MultiGrid) (ci : Nat) : MultiGrid :=
  match (cellAt mg ci).children with
  | none => mg
  | some q =>
    let mgN :=
      match (cellAt mg ci).north with
      | some nb =>
        match (cellAt mg nb).children with
        | some qn => linkNS (linkNS mg q.tl qn.bl) q.tr qn.br
        | none => mg
      | none => mg
    let mgE :=
      match (cellAt mgN ci).east with
      | some nb =>
        match (cellAt mgN nb).children with
        | some qe => linkEW (linkEW mgN q.br qe.bl) q.tr qe.tl
        | none => mgN
      | none => mgN
    let mgS :=
      match (cellAt mgE ci).south with
      | some nb =>
        match (cellAt mgE nb).children with
        | some qs => linkNS (linkNS mgE qs.tl q.bl) qs.tr q.br
        | none => mgE
      | none => mgE
    match (cellAt mgS ci).west with
    | some nb =>
      match (cellAt mgS nb).children with
      | some qw => linkEW (linkEW mgS qw.br q.bl) qw.tr q.tl
      | none => mgS
    | none => mgS

/-- One direction of `GridCell.split_neighbs_if_needed`: if the cell's
neighbour in direction `getDir` is absent, force the parent's neighbour
in that direction (if any) to split first. -/
def splitNeighbDir (recur : MultiGrid → Nat → MultiGrid × Option Err)
    (mg : MultiGrid) (ci : Nat) (getDir : GridCell → Option Nat) :
    MultiGrid × Option Err :=
  match getDir (cellAt mg ci) with
  | some _ => (mg, none)
  | none =>
    match (cellAt mg ci).parent with
    | none => (mg, some .noParent)
    | some p =>
      match getDir (cellAt mg p) with
      | none => (mg, none)
      | some pn => recur mg pn

/-- `GridCell.split_neighbs_if_needed`: the four directional checks in
source order (north, east, south, west), re-reading the cell's links
after each potential cascade, aborting on the first propagated error. -/
def split_neighbs_if_needed (recur : MultiGrid → Nat → MultiGrid × Option Err)
    (mg : MultiGrid) (ci : Nat) : MultiGrid × Option Err :=
  match splitNeighbDir recur mg ci (fun c => c.north) with
  | (mgN, some e) => (mgN, some e)
  | (mgN, none) =>
    match splitNeighbDir recur mgN ci (fun c => c.east) with
    | (mgE, some e) => (mgE, some e)
    | (mgE, none) =>
      match splitNeighbDir recur mgE ci (fun c => c.south) with
      | (mgS, some e) => (mgS, some e)
      | (mgS, none) => splitNeighbDir recur mgS ci (fun c => c.west)

/-- The non-recursive remainder of `GridCell.split` after the
neighbour-balancing cascade: window creation, child creation, the
`new_tier` check (whose failure aborts with the windows appended and the
children created but unstitched), grid registration, sibling links,
stitching to neighbours' children. -/
def splitTail (mg1 : MultiGrid) (ci : Nat) : MultiGrid × Option Err :=
  match create_new_corrWindows mg1 ci with
  | (mg2, lm, cb, cm, ct, rm) =>
    match makeChildren mg2 ci lm cb cm ct rm with
    | (mg3, q) =>
      match (if mg3.max_tier < (cellAt mg3 q.bl).tier
             then new_tier mg3 else (mg3, none)) with
      | (mg4, some e) => (mg4, some e)
      | (mg4, none) =>
        let mg5 := registerGrid mg4 ci lm cb cm ct rm
        let mg6 := siblingLinks mg5 q
        (update_child_neighbours mg6 ci, none)

/-- The body of `GridCell.split` on cell `ci`, with the recursive
neighbour cascade abstracted as `recur`: already-split guard, neighbour
balancing (tier > 0 only), then `splitTail`. -/
def splitBody (recur : MultiGrid → Nat → MultiGrid × Option Err)
    (mg : MultiGrid) (ci : Nat) : MultiGrid × Option Err :=
  if ci < mg.cells.length then
    if (cellAt mg ci).children.isSome then (mg, some .alreadySplit)
    else
      match (if 0 < (cellAt mg ci).tier
             then split_neighbs_if_needed recur mg ci else (mg, none)) with
      | (mg1, some e) => (mg1, some e)
      | (mg1, none) => splitTail mg1 ci
  else (mg, some .badIndex)

/-- `GridCell.split` with explicit recursion fuel for the neighbour
cascade (each cascade step targets a strictly lower tier). -/
def splitFuel : Nat → MultiGrid → Nat → MultiGrid × Option Err
  | 0, mg, _ => (mg, some .fuel)
  | fuel + 1, mg, ci => splitBody (splitFuel fuel) mg ci

/-- `GridCell.split` on cell `ci`.  The fuel `cells.length + 1` strictly
exceeds the tier of every cell, hence every cascade a Python run performs
is fully simulated. -/
def split (mg : MultiGrid) (ci : Nat) : MultiGrid × Option Err :=
  splitFuel (mg.cells.length + 1) mg ci

/-- `MultiGrid.split_all_cells`: split cells `0 .. n-1` where `n` is the
cell count at entry; a propagating exception aborts the loop. -/
def splitAllAux : List Nat → MultiGrid → MultiGrid × Option Err
  | [], mg => (mg, none)
  | i :: rest, mg =>
    match split mg i with
    | (mg1, some e) => (mg1, some e)
    | (mg1, none) => splitAllAux rest mg1

def split_all_cells (mg : MultiGrid) : MultiGrid × Option Err :=
  splitAllAux (List.range mg.cells.length) mg

/-- The recursive `add_children` helper of `MultiGrid.get_all_leaf_cells`:
leaf descendants of cell `i`, children visited in bl/br/tl/tr order.
Fuelled; child indices strictly exceed their parent's, so fuel
`cells.length` always suffices. -/
def leafDescD (cs : List GridCell) : Nat → Nat → List Nat
  | 0, _ => []
  | fuel + 1, i =>
    match (cs.getD i default).children with
    | none => [i]
    | some q =>
      leafDescD cs fuel q.bl ++ leafDescD cs fuel q.br ++
      leafDescD cs fuel q.tl ++ leafDescD cs fuel q.tr

/-- `MultiGrid.get_all_leaf_cells`: descend from each tier-0 cell
(`cells[0:cells_in_top_tier]`) collecting childless cells. -/
def get_all_leaf_cells (mg : MultiGrid) : List Nat :=
  (List.range mg.cells_in_top_tier).flatMap
    (leafDescD mg.cells mg.cells.length)

/-- Peak of the objective field over a cell's pixel rectangle,
`obj_func[bl[1]:tr[1], bl[0]:tr[0]]` (bottom-left inclusive, top-right
exclusive; `np.max` of the slice). -/
def peak_value (mg : MultiGrid) (obj : Nat → Nat → ℚ) (ci : Nat) : ℚ :=
  let c := cellAt mg ci
  let bl := winAt mg c.id_bl
  let tr := winAt mg c.id_tr
  let x0 := (Int.floor bl.x).toNat
  let y0 := (Int.floor bl.y).toNat
  let x1 := (Int.floor tr.x).toNat
  let y1 := (Int.floor tr.y).toNat
  ((List.range' y0 (y1 - y0)).flatMap
    (fun y => (List.range' x0 (x1 - x0)).map (fun x => obj y x))).foldl
    max (obj y0 x0)

/-- stable ascending insertion by second component (`np.argsort`; the
subsequent `[::-1]` reversal yields the descending ranking). -/
def insertAsc (p : Nat × ℚ) : List (Nat × ℚ) → List (Nat × ℚ)
  | [] => [p]
  | q :: t => if p.2 < q.2 then p :: q :: t else q :: insertAsc p t

/-- The candidate order of `adaptive_split_peak_value_cells`: leaf cells
ranked by peak objective value, descending. -/
def adaptiveOrder (mg : MultiGrid) (obj : Nat → Nat → ℚ) : List Nat :=
  let leaves := get_all_leaf_cells mg
  let pairs := leaves.map (fun i => (i, peak_value mg obj i))
  ((pairs.foldr insertAsc []).reverse).map (fun p => p.1)

/-- The ranked-splitting loop of `adaptive_split_peak_value_cells`:
`try: cell.split(); split_counter += 1; break at == max_splits
except: continue`.  The second component is the number of successful
splits (the loop's `split_counter`, exposed for specification). -/
def adaptLoop : List Nat → Nat → Nat → MultiGrid → MultiGrid × Nat
  | [], cnt, _, mg => (mg, cnt)
  | i :: rest, cnt, maxS, mg =>
    match split mg i with
    | (mg1, some _) => adaptLoop rest cnt maxS mg1
    | (mg1, none) =>
      if cnt + 1 = maxS then (mg1, cnt + 1)
      else adaptLoop rest (cnt + 1) maxS mg1

/-- `MultiGrid.adaptive_split_peak_value_cells(obj_func)` with
`max_splits = len(I) // 2`. -/
def adaptive_split_peak_value_cells (mg : MultiGrid)
    (obj : Nat → Nat → ℚ) : MultiGrid × Nat :=
  let order := adaptiveOrder mg obj
  adaptLoop order 0 (order.length / 2) mg

/- ------------------------------------------------------------------
Concrete scenario states used by counterexamples and witnesses.
------------------------------------------------------------------- -/

instance : Inhabited Children := ⟨⟨0, 0, 0, 0⟩⟩

/-- half-open containment of a point in a cell's corner rectangle
(bottom-left corner inclusive, top-right corner exclusive). -/
def cellRectContains (mg : MultiGrid) (i : Nat) (px py : ℚ) : Prop :=
  (winAt mg (cellAt mg i).id_bl).x ≤ px
  ∧ px < (winAt mg (cellAt mg i).id_tr).x
  ∧ (winAt mg (cellAt mg i).id_bl).y ≤ py
  ∧ py < (winAt mg (cellAt mg i).id_tr).y

instance (mg : MultiGrid) (i : Nat) (px py : ℚ) :
    Decidable (cellRectContains mg i px py) := by
  unfold cellRectContains; infer_instance

/-- closed containment of a point in a cell's corner rectangle. -/
def cellRectContainsClosed (mg : MultiGrid) (i : Nat) (px py : ℚ) : Prop :=
  (winAt mg (cellAt mg i).id_bl).x ≤ px
  ∧ px ≤ (winAt mg (cellAt mg i).id_tr).x
  ∧ (winAt mg (cellAt mg i).id_bl).y ≤ py
  ∧ py ≤ (winAt mg (cellAt mg i).id_tr).y

instance (mg : MultiGrid) (i : Nat) (px py : ℚ) :
    Decidable (cellRectContainsClosed mg i px py) := by
  unfold cellRectContainsClosed; infer_instance

/-- a 4×4 image at spacing 2: a single tier-0 cell spanning [0,2]². -/
def mesh44 : MultiGrid := construct (4, 4) 2 5

/-- `mesh44` after one successful split of its only cell. -/
def mesh44s : MultiGrid := (split mesh44 0).1

/-- a 4×4 image at spacing 3: a single tier-0 cell; every split fails at
the `new_tier` check because 3 cannot be halved to an integer. -/
def dupM0 : MultiGrid := construct (4, 4) 3 5

/-- `dupM0` after the (failing, partially mutating) split of cell 0. -/
def dupM1 : MultiGrid := (split dupM0 0).1

/-- `dupM1` after the failing split of the bottom-left broken child. -/
def dupM2 : MultiGrid := (split dupM1 1).1

/-- `dupM2` after the failing split of the bottom-right broken child:
this split allocates a duplicate of window 13 at (3/2, 3/4). -/
def dupM3 : MultiGrid := (split dupM2 2).1

/-- a 9×9 image at spacing 4: 3×3 grid points, 2×2 tier-0 cells. -/
def cascM0 : MultiGrid := construct (9, 9) 4 5

/-- `cascM0` after splitting tier-0 cell 0 (children are cells 4..7). -/
def cascM1 : MultiGrid := (split cascM0 0).1

/-- a 7×7 image at spacing 6: used for the spacing-6 `add_tier` scenario. -/
def tier6M : MultiGrid := construct (7, 7) 6 16

/-- a 9×9 image at spacing 8: used for the spacing-8 `add_tier` scenario. -/
def tier8M : MultiGrid := construct (9, 9) 8 16

/-- a 7×7 image at spacing 2: 4×4 grid points, 9 tier-0 cells. -/
def mesh77 : MultiGrid := construct (7, 7) 2 5

/- ------------------------------------------------------------------
The structural well-formedness invariant.
------------------------------------------------------------------- -/

/-- tier spacing: `spacing / 2^tier`, as an exact rational. -/
def hQ (s t : Nat) : ℚ := (s : ℚ) / 2 ^ t

/-- the child of `q` selected by the parities of a grid position. -/
def childSlot (q : Children) (dx dy : Nat) : Nat :=
  if dy = 0 then (if dx = 0 then q.bl else q.br)
  else (if dx = 0 then q.tl else q.tr)

/-- the fields of a cell that are fixed at creation and never mutated
(everything except the neighbour links and the children map). -/
def staticEq (c d : GridCell) : Prop :=
  c.tier = d.tier ∧ c.ix = d.ix ∧ c.iy = d.iy ∧ c.parent = d.parent
  ∧ c.id_bl = d.id_bl ∧ c.id_br = d.id_br ∧ c.id_tl = d.id_tl
  ∧ c.id_tr = d.id_tr

/-- Structural well-formedness of a mesh, the inductive invariant of
construction and splitting:
* neighbour links are in range and connect cells of the same tier at
  grid-adjacent positions;
* neighbour links are symmetric;
* a (tier, ix, iy) position determines the cell (uniqueness);
* every cell of positive tier is a child of its parent, recorded in the
  parent's `children` map at the slot given by its position parities;
* a `children` map holds the four consecutively-indexed cells created by
  the split, at the four doubled-plus-offset positions, with back
  references to the parent;
* the four corner window ids are in range and the corner coordinates are
  exactly the position times the tier spacing;
* the first `cells_in_top_tier` cells are the tier-0 row-major grid and
  no later cell has tier 0. -/
structure WF (mg : MultiGrid) : Prop where
  link_north : ∀ i, i < mg.cells.length → ∀ j, (cellAt mg i).north = some j →
    j < mg.cells.length ∧ (cellAt mg j).tier = (cellAt mg i).tier
    ∧ (cellAt mg j).ix = (cellAt mg i).ix
    ∧ (cellAt mg j).iy = (cellAt mg i).iy + 1
  link_south : ∀ i, i < mg.cells.length → ∀ j, (cellAt mg i).south = some j →
    j < mg.cells.length ∧ (cellAt mg j).tier = (cellAt mg i).tier
    ∧ (cellAt mg j).ix = (cellAt mg i).ix
    ∧ (cellAt mg i).iy = (cellAt mg j).iy + 1
  link_east : ∀ i, i < mg.cells.length → ∀ j, (cellAt mg i).east = some j →
    j < mg.cells.length ∧ (cellAt mg j).tier = (cellAt mg i).tier
    ∧ (cellAt mg j).ix = (cellAt mg i).ix + 1
    ∧ (cellAt mg j).iy = (cellAt mg i).iy
  link_west : ∀ i, i < mg.cells.length → ∀ j, (cellAt mg i).west = some j →
    j < mg.cells.length ∧ (cellAt mg j).tier = (cellAt mg i).tier
    ∧ (cellAt mg i).ix = (cellAt mg j).ix + 1
    ∧ (cellAt mg j).iy = (cellAt mg i).iy
  sym_north : ∀ i, i < mg.cells.length → ∀ j, (cellAt mg i).north = some j →
    (cellAt mg j).south = some i
  sym_south : ∀ i, i < mg.cells.length → ∀ j, (cellAt mg i).south = some j →
    (cellAt mg j).north = some i
  sym_east : ∀ i, i < mg.cells.length → ∀ j, (cellAt mg i).east = some j →
    (cellAt mg j).west = some i
  sym_west : ∀ i, i < mg.cells.length → ∀ j, (cellAt mg i).west = some j →
    (cellAt mg j).east = some i
  uniq : ∀ i j, i < mg.cells.length → j < mg.cells.length →
    (cellAt mg i).tier = (cellAt mg j).tier →
    (cellAt mg i).ix = (cellAt mg j).ix →
    (cellAt mg i).iy = (cellAt mg j).iy → i = j
  parent_of : ∀ i, i < mg.cells.length → 0 < (cellAt mg i).tier →
    ∃ p, (cellAt mg i).parent = some p ∧ p < i
      ∧ (cellAt mg p).tier + 1 = (cellAt mg i).tier
      ∧ (cellAt mg p).ix = (cellAt mg i).ix / 2
      ∧ (cellAt mg p).iy = (cellAt mg i).iy / 2
      ∧ ∃ q, (cellAt mg p).children = some q
        ∧ childSlot q ((cellAt mg i).ix % 2) ((cellAt mg i).iy % 2) = i
  children_ok : ∀ i, i < mg.cells.length → ∀ q,
    (cellAt mg i).children = some q →
    i < q.bl ∧ q.br = q.bl + 1 ∧ q.tl = q.bl + 2 ∧ q.tr = q.bl + 3
    ∧ q.bl + 3 < mg.cells.length
    ∧ ((cellAt mg q.bl).tier = (cellAt mg i).tier + 1
      ∧ (cellAt mg q.bl).ix = 2 * (cellAt mg i).ix
      ∧ (cellAt mg q.bl).iy = 2 * (cellAt mg i).iy
      ∧ (cellAt mg q.bl).parent = some i)
    ∧ ((cellAt mg q.br).tier = (cellAt mg i).tier + 1
      ∧ (cellAt mg q.br).ix = 2 * (cellAt mg i).ix + 1
      ∧ (cellAt mg q.br).iy = 2 * (cellAt mg i).iy
      ∧ (cellAt mg q.br).parent = some i)
    ∧ ((cellAt mg q.tl).tier = (cellAt mg i).tier + 1
      ∧ (cellAt mg q.tl).ix = 2 * (cellAt mg i).ix
      ∧ (cellAt mg q.tl).iy = 2 * (cellAt mg i).iy + 1
      ∧ (cellAt mg q.tl).parent = some i)
    ∧ ((cellAt mg q.tr).tier = (cellAt mg i).tier + 1
      ∧ (cellAt mg q.tr).ix = 2 * (cellAt mg i).ix + 1
      ∧ (cellAt mg q.tr).iy = 2 * (cellAt mg i).iy + 1
      ∧ (cellAt mg q.tr).parent = some i)
  corners : ∀ i, i < mg.cells.length →
    ((cellAt mg i).id_bl < mg.windows.length
      ∧ (cellAt mg i).id_br < mg.windows.length
      ∧ (cellAt mg i).id_tl < mg.windows.length
      ∧ (cellAt mg i).id_tr < mg.windows.length)
    ∧ ((winAt mg (cellAt mg i).id_bl).x
        = ((cellAt mg i).ix : ℚ) * hQ mg.spacing (cellAt mg i).tier
      ∧ (winAt mg (cellAt mg i).id_bl).y
        = ((cellAt mg i).iy : ℚ) * hQ mg.spacing (cellAt mg i).tier)
    ∧ ((winAt mg (cellAt mg i).id_br).x
        = (((cellAt mg i).ix : ℚ) + 1) * hQ mg.spacing (cellAt mg i).tier
      ∧ (winAt mg (cellAt mg i).id_br).y
        = ((cellAt mg i).iy : ℚ) * hQ mg.spacing (cellAt mg i).tier)
    ∧ ((winAt mg (cellAt mg i).id_tl).x
        = ((cellAt mg i).ix : ℚ) * hQ mg.spacing (cellAt mg i).tier
      ∧ (winAt mg (cellAt mg i).id_tl).y
        = (((cellAt mg i).iy : ℚ) + 1) * hQ mg.spacing (cellAt mg i).tier)
    ∧ ((winAt mg (cellAt mg i).id_tr).x
        = (((cellAt mg i).ix : ℚ) + 1) * hQ mg.spacing (cellAt mg i).tier
      ∧ (winAt mg (cellAt mg i).id_tr).y
        = (((cellAt mg i).iy : ℚ) + 1) * hQ mg.spacing (cellAt mg i).tier)
  top_count : mg.cells_in_top_tier = mg.n_rc * mg.n_cc
  top_le : mg.cells_in_top_tier ≤ mg.cells.length
  top_cells : ∀ k, k < mg.cells_in_top_tier →
    (cellAt mg k).tier = 0 ∧ (cellAt mg k).ix = k % mg.n_cc
    ∧ (cellAt mg k).iy = k / mg.n_cc
  tier0_top : ∀ i, i < mg.cells.length → (cellAt mg i).tier = 0 →
    i < mg.cells_in_top_tier

/-- What one `split` call guarantees relative to its pre-state, when the
target cell (if it exists) has tier `t`: well-formedness is preserved,
the mesh only grows, the identity-style fields (`img_dim`, `spacing`,
`cells_in_top_tier`) are untouched, pre-existing cells keep their static
fields, a `children` map is never unset, and a childless cell of tier
greater than `t` stays childless (the cascade only ever splits cells of
tier at most `t`). -/
def SplitOK (mg r : MultiGrid) (t : Nat) : Prop :=
  WF r
  ∧ mg.cells.length ≤ r.cells.length
  ∧ mg.windows.length ≤ r.windows.length
  ∧ r.spacing = mg.spacing ∧ r.img_dim = mg.img_dim
  ∧ r.cells_in_top_tier = mg.cells_in_top_tier
  ∧ mg.max_tier ≤ r.max_tier
  ∧ (∀ j, j < mg.windows.length → winAt r j = winAt mg j)
  ∧ (∀ j, j < mg.cells.length → staticEq (cellAt r j) (cellAt mg j))
  ∧ (∀ j, j < mg.cells.length → ∀ q, (cellAt mg j).children = some q →
      (cellAt r j).children = some q)
  ∧ (∀ j, j < mg.cells.length → (cellAt mg j).children = none →
      t < (cellAt mg j).tier → (cellAt r j).children = none)

/-- one direction of the neighbour-balancing precondition: the cell has
a neighbour in that direction, or its parent has none (so the cascade in
that direction does nothing). -/
def dirClearB (mg : MultiGrid) (ci : Nat)
    (getDir : GridCell → Option Nat) : Bool :=
  match getDir (cellAt mg ci) with
  | some _ => true
  | none =>
    match (cellAt mg ci).parent with
    | none => false
    | some p => (getDir (cellAt mg p)).isNone

/-- the split of `ci` triggers no cascading neighbour splits: either it
is a tier-0 cell (the cascade is skipped entirely) or every direction is
clear. -/
def noCascadeB (mg : MultiGrid) (ci : Nat) : Bool :=
  (cellAt mg ci).tier == 0
  || (dirClearB mg ci (fun c => c.north) && dirClearB mg ci (fun c => c.east)
      && dirClearB mg ci (fun c => c.south)
      && dirClearB mg ci (fun c => c.west))

/-- The meshes reachable from a constructed mesh by any sequence of
`split` calls (with any fuel, hence including every prefix of a real
cascade and every partially-mutated state a swallowed exception leaves
behind) and direct `new_tier` calls. -/
inductive Reachable : MultiGrid → Prop where
  | base (img_dim : Nat × Nat) (spacing : Nat) (WS : ℚ) :
      Reachable (construct img_dim spacing WS)
  | step_split (mg : MultiGrid) (fuel ci : Nat) :
      Reachable mg → Reachable (splitFuel fuel mg ci).1
  | step_new_tier (mg : MultiGrid) :
      Reachable mg → Reachable (new_tier mg).1

/-- the state change common to every linking step: the cell list keeps
its length and every cell its static fields and children map; windows
and the scalar fields are untouched. -/
def PreservesCells (mg r : MultiGrid) : Prop :=
  r.cells.length = mg.cells.length
  ∧ r.windows = mg.windows
  ∧ r.spacing = mg.spacing
  ∧ r.img_dim = mg.img_dim
  ∧ r.cells_in_top_tier = mg.cells_in_top_tier
  ∧ r.max_tier = mg.max_tier
  ∧ (∀ k, staticEq (cellAt r k) (cellAt mg k)
      ∧ (cellAt r k).children = (cellAt mg k).children)

/-- the north block of `update_child_neighbours` in isolation. -/
def ucnN (mg : MultiGrid) (ci : Nat) (q : Children) : MultiGrid :=
  match (cellAt mg ci).north with
  | some nb =>
    match (cellAt mg nb).children with
    | some qn => linkNS (linkNS mg q.tl qn.bl) q.tr qn.br
    | none => mg
  | none => mg

/-- the east block of `update_child_neighbours` in isolation. -/
def ucnE (mg : MultiGrid) (ci : Nat) (q : Children) : MultiGrid :=
  match (cellAt mg ci).east with
  | some nb =>
    match (cellAt mg nb).children with
    | some qe => linkEW (linkEW mg q.br qe.bl) q.tr qe.tl
    | none => mg
  | none => mg

/-- the south block of `update_child_neighbours` in isolation. -/
def ucnS (mg : MultiGrid) (ci : Nat) (q : Children) : MultiGrid :=
  match (cellAt mg ci).south with
  | some nb =>
    match (cellAt mg nb).children with
    | some qs => linkNS (linkNS mg qs.tl q.bl) qs.tr q.br
    | none => mg
  | none => mg

/-- the west block of `update_child_neighbours` in isolation. -/
def ucnW (mg : MultiGrid) (ci : Nat) (q : Children) : MultiGrid :=
  match (cellAt mg ci).west with
  | some nb =>
    match (cellAt mg nb).children with
    | some qw => linkEW (linkEW mg qw.br q.bl) qw.tr q.tl
    | none => mg
  | none => mg

/-- `j` lies in the subtree of cell `k` of the children forest (fuelled;
each descent step moves to a strictly larger index, so fuel
`cells.length` always suffices on a well-formed mesh). -/
def descB (cs : List GridCell) : Nat → Nat → Nat → Bool
  | 0, _, _ => false
  | fuel + 1, k, j =>
    (j == k) ||
      match (cs.getD k default).children with
      | none => false
      | some q =>
        descB cs fuel q.bl j || descB cs fuel q.br j
          || descB cs fuel q.tl j || descB cs fuel q.tr j

/- ------------------------------------------------------------------
Basic lemmas about the window-creation step.
------------------------------------------------------------------- -/

theorem reuseOrNew_fst (mg : MultiGrid) (r : Option Nat) (w : CorrWindow) :
    (reuseOrNew mg r w).1 =
      { mg with windows := mg.windows ++ if r.isSome then [] else [w] } := by
  cases r <;> simp [reuseOrNew, appendWin]

theorem reuseOrNew_cells (mg : MultiGrid) (r : Option Nat) (w : CorrWindow) :
    (reuseOrNew mg r w).1.cells = mg.cells := by
  rw [reuseOrNew_fst]

theorem reuseOrNew_windows (mg : MultiGrid) (r : Option Nat) (w : CorrWindow) :
    (reuseOrNew mg r w).1.windows =
      mg.windows ++ if r.isSome then [] else [w] := by
  rw [reuseOrNew_fst]

theorem midQ_eq_half (a b : ℚ) : midQ a b = (a + b) / 2 := by
  have had : ((a.den : ℚ)) ≠ 0 := by
    exact_mod_cast a.den_nz
  have hbd : ((b.den : ℚ)) ≠ 0 := by
    exact_mod_cast b.den_nz
  unfold midQ
  rw [Rat.divInt_eq_div]
  push_cast
  conv_rhs => rw [← Rat.num_div_den a, ← Rat.num_div_den b]
  field_simp
  ring_nf
  exact Or.inl trivial
theorem create_new_corrWindows_fst (mg : MultiGrid) (ci : Nat) :
    (create_new_corrWindows mg ci).1 =
      { mg with windows := mg.windows ++
        ((if (reuseWest mg (cellAt mg ci)).isSome then []
          else [⟨(winAt mg (cellAt mg ci).id_bl).x,
                 midQ (winAt mg (cellAt mg ci).id_bl).y
                   (winAt mg (cellAt mg ci).id_tl).y,
                 (winAt mg (cellAt mg ci).id_bl).WS⟩])
        ++ ((if (reuseSouth mg (cellAt mg ci)).isSome then []
          else [⟨midQ (winAt mg (cellAt mg ci).id_bl).x
                   (winAt mg (cellAt mg ci).id_br).x,
                 (winAt mg (cellAt mg ci).id_bl).y,
                 (winAt mg (cellAt mg ci).id_bl).WS⟩])
        ++ ([⟨midQ (winAt mg (cellAt mg ci).id_bl).x
                (winAt mg (cellAt mg ci).id_br).x,
              midQ (winAt mg (cellAt mg ci).id_bl).y
                (winAt mg (cellAt mg ci).id_tl).y,
              (winAt mg (cellAt mg ci).id_bl).WS⟩]
        ++ ((if (reuseNorth mg (cellAt mg ci)).isSome then []
          else [⟨midQ (winAt mg (cellAt mg ci).id_bl).x
                   (winAt mg (cellAt mg ci).id_br).x,
                 (winAt mg (cellAt mg ci).id_tl).y,
                 (winAt mg (cellAt mg ci).id_bl).WS⟩])
        ++ (if (reuseEast mg (cellAt mg ci)).isSome then []
          else [⟨(winAt mg (cellAt mg ci).id_br).x,
                 midQ (winAt mg (cellAt mg ci).id_bl).y
                   (winAt mg (cellAt mg ci).id_tl).y,
                 (winAt mg (cellAt mg ci).id_bl).WS⟩]))))) } := by
  simp only [create_new_corrWindows, reuseOrNew_fst, appendWin,
    List.append_assoc]

/-- Claim C10: every sample point newly allocated by
`create_new_corrWindows` (the edge midpoints and the centre) is created
with the window size of the splitting cell's bottom-left corner window
`bl_win.WS`, regardless of the window sizes of the other three corners. -/
theorem c10_new_windows_inherit_bl_ws (mg : MultiGrid) (ci : Nat) :
    (((create_new_corrWindows mg ci).1.windows.drop mg.windows.length).all
      (fun w => w.WS == (winAt mg (cellAt mg ci).id_bl).WS)) = true := by
  rw [create_new_corrWindows_fst]
  simp only [List.drop_left, List.all_append, List.all_cons, List.all_nil]
  cases (reuseWest mg (cellAt mg ci)) <;>
    cases (reuseSouth mg (cellAt mg ci)) <;>
      cases (reuseNorth mg (cellAt mg ci)) <;>
        cases (reuseEast mg (cellAt mg ci)) <;> simp

/- ------------------------------------------------------------------
Claim C2: point deduplication (code bug).
------------------------------------------------------------------- -/

/-- Claim C2: the claimed invariant — a sample point is created at most
once per physical location, two split cells sharing an edge share the
edge-midpoint entry by index — is violated by the code in a reachable
state.  Starting from a 4×4 image with spacing 3 (one cell), three
`split` calls each raise the refinement error *after* having appended
windows and created children (the partial mutation a Python exception
leaves behind; `adaptive_split_peak_value_cells` swallows exactly such
errors).  The two broken children (cells 1 and 2) are edge-adjacent,
share their corner window 5, and both end up split, yet cell 1's
right-edge midpoint is window 13 while cell 2's left-edge midpoint is
the freshly allocated window 14 — two distinct entries with identical
coordinates (3/2, 3/4). -/
theorem c2_point_dedup_failure_eval :
    ((split dupM0 0).2 = some Err.refinement
      ∧ (split dupM1 1).2 = some Err.refinement
      ∧ (split dupM2 2).2 = some Err.refinement)
    ∧ ((cellAt dupM3 1).tier = 1 ∧ (cellAt dupM3 2).tier = 1
      ∧ (cellAt dupM3 2).ix = (cellAt dupM3 1).ix + 1
      ∧ (cellAt dupM3 2).iy = (cellAt dupM3 1).iy
      ∧ (cellAt dupM3 1).id_br = (cellAt dupM3 2).id_bl
      ∧ (cellAt dupM3 1).id_tr = (cellAt dupM3 2).id_tl
      ∧ (cellAt dupM3 1).children = some ⟨5, 6, 7, 8⟩
      ∧ (cellAt dupM3 2).children = some ⟨9, 10, 11, 12⟩)
    ∧ ((cellAt dupM3 6).id_tr = 13
      ∧ (cellAt dupM3 9).id_tl = 14
      ∧ dupM3.windows.length = 19
      ∧ winAt dupM3 13 = winAt dupM3 14
      ∧ (winAt dupM3 13).x = mkRat 3 2 ∧ (winAt dupM3 13).y = mkRat 3 4) := by
  decide

/- ------------------------------------------------------------------
Claim C3: counterexample to coverage of the full image domain.
------------------------------------------------------------------- -/

/-- Claim C3 (counterexample): for the mesh constructed on a 4×4 image
with spacing 2, the point (3, 3) lies inside the image domain
(0 ≤ 3 < 4 in both axes) but inside no leaf cell's corner rectangle,
even taking the rectangles as closed: the union of the leaf rectangles
does not cover the full image domain. -/
theorem c3_full_domain_counterexample :
    ((0:ℚ) ≤ 3 ∧ (3:ℚ) < (mesh44.img_dim.2 : ℚ)
      ∧ (3:ℚ) < (mesh44.img_dim.1 : ℚ))
    ∧ ∀ i ∈ get_all_leaf_cells mesh44,
        ¬ cellRectContainsClosed mesh44 i 3 3 := by
  decide

/- ------------------------------------------------------------------
Claim C4: counterexample to the growth law for cascading splits.
------------------------------------------------------------------- -/

/-- Claim C4 (counterexample): on a 9×9 image with spacing 4 (2×2 tier-0
cells), after splitting cell 0, one further `split` performed on the
tier-1 leaf cell 7 triggers the neighbour-balancing cascade (cells 2 and
1 are split as a side effect) and completes successfully, increasing the
leaf-cell count by 9 (not exactly 3) and the point count by 13 (not
between 1 and 5). -/
theorem c4_growth_law_counterexample :
    (cellAt cascM1 7).children = none
    ∧ (split cascM1 7).2 = none
    ∧ (get_all_leaf_cells (split cascM1 7).1).length
        = (get_all_leaf_cells cascM1).length + 9
    ∧ (split cascM1 7).1.windows.length = cascM1.windows.length + 13 := by
  decide

/- ------------------------------------------------------------------
Claim C5: counterexample for split_all_cells after prior refinement.
------------------------------------------------------------------- -/

/-- Claim C5 (counterexample): `split_all_cells` iterates over *all*
cells created so far, not over the current leaves.  On a valid mesh with
prior refinement (a 4×4 image, spacing 2, whose single cell was already
split once) the pass immediately re-attempts the already-split cell 0
and propagates the already-split error instead of succeeding. -/
theorem c5_split_all_counterexample :
    (split mesh44 0).2 = none
    ∧ (split_all_cells mesh44s).2 = some Err.alreadySplit := by
  decide

/- ------------------------------------------------------------------
Claim C6: the adaptive pass quota.
------------------------------------------------------------------- -/

/-- Claim C6 (counterexample): `adaptive_split_peak_value_cells` does
not perform exactly `floor(n/2)` successful splits.  On a mesh with a
single leaf (n = 1, quota 0) the loop's quota check (`==`, tested only
after an increment) never fires and the pass performs 1 successful
split. -/
theorem c6_adaptive_quota_counterexample :
    (get_all_leaf_cells mesh44).length / 2 = 0
    ∧ (adaptive_split_peak_value_cells mesh44 (fun _ _ => 0)).2 = 1
    ∧ (adaptive_split_peak_value_cells mesh44 (fun _ _ => 0)).1.cells.length
        = 5 := by
  decide

theorem adaptLoop_counter_le (l : List Nat) :
    ∀ (cnt maxS : Nat) (mg : MultiGrid), cnt < maxS →
      (adaptLoop l cnt maxS mg).2 ≤ maxS := by
  induction l with
  | nil =>
    intro cnt maxS mg h
    simpa [adaptLoop] using Nat.le_of_lt h
  | cons i rest ih =>
    intro cnt maxS mg h
    simp only [adaptLoop]
    rcases hs : split mg i with ⟨mg1, e⟩
    cases e with
    | some e => exact ih cnt maxS mg1 h
    | none =>
      by_cases he : cnt + 1 = maxS
      · simp [he]
      · have hlt : cnt + 1 < maxS := Nat.lt_of_le_of_ne h he
        simp only [he, if_false]
        exact ih (cnt + 1) maxS mg1 hlt

theorem insertAsc_length (p : Nat × ℚ) (l : List (Nat × ℚ)) :
    (insertAsc p l).length = l.length + 1 := by
  induction l with
  | nil => rfl
  | cons q t ih =>
    simp only [insertAsc]
    split
    · simp
    · simp [ih]

theorem foldr_insertAsc_length (l : List (Nat × ℚ)) :
    (l.foldr insertAsc []).length = l.length := by
  induction l with
  | nil => rfl
  | cons p t ih => simp [List.foldr, insertAsc_length, ih]

theorem adaptiveOrder_length (mg : MultiGrid) (obj : Nat → Nat → ℚ) :
    (adaptiveOrder mg obj).length = (get_all_leaf_cells mg).length := by
  simp [adaptiveOrder, foldr_insertAsc_length]

/-- Claim C6 (amended): the ranked-splitting pass performs at most
`floor(n_leaves / 2)` successful splits whenever that quota is at least
one, stopping once the quota is reached; a candidate whose split fails
is skipped and the pass continues (when the quota is zero, i.e. a
single leaf, the quota check never fires and every candidate is
attempted). -/
theorem c6_adaptive_quota_amended (mg : MultiGrid) (obj : Nat → Nat → ℚ)
    (h : 1 ≤ (get_all_leaf_cells mg).length / 2) :
    (adaptive_split_peak_value_cells mg obj).2
      ≤ (get_all_leaf_cells mg).length / 2 := by
  show (adaptLoop (adaptiveOrder mg obj) 0
    ((adaptiveOrder mg obj).length / 2) mg).2 ≤ _
  rw [adaptiveOrder_length]
  exact adaptLoop_counter_le _ 0 _ mg (Nat.lt_of_lt_of_le Nat.zero_lt_one h)

/-- witness for the amended C6 theorem at a concrete mesh (7×7 image,
spacing 2: nine leaves, quota 4). -/
theorem c6_adaptive_quota_amended_witness :
    (adaptive_split_peak_value_cells mesh77 (fun _ _ => 0)).2
      ≤ (get_all_leaf_cells mesh77).length / 2 :=
  c6_adaptive_quota_amended mesh77 (fun _ _ => 0) (by decide)

/- ------------------------------------------------------------------
Claim C7: new_tier / add_tier.
------------------------------------------------------------------- -/

/-- Claim C7: `new_tier` succeeds exactly when half of the current
deepest-tier spacing (`int(spacing / 2**max_tier)`) is an exact integer,
in which case it increments the maximum tier and appends one new empty
grid at the halved spacing; otherwise it raises the refinement error and
leaves the mesh unchanged.  Concretely, from base spacing 6 it succeeds
once (spacing 3) and fails on the next attempt; from base spacing 8 it
succeeds three times (4, 2, 1) and fails on the fourth. -/
theorem c7_new_tier_correct :
    (∀ mg : MultiGrid,
      (((new_tier mg).2 = none) ↔ (mg.spacing / 2 ^ mg.max_tier) % 2 = 0)
      ∧ ((mg.spacing / 2 ^ mg.max_tier) % 2 = 0 →
          (new_tier mg).1 = { mg with
            max_tier := mg.max_tier + 1,
            grids := mg.grids ++
              [mkGrid mg.img_dim (mg.spacing / 2 ^ mg.max_tier / 2)] })
      ∧ ((mg.spacing / 2 ^ mg.max_tier) % 2 ≠ 0 →
          (new_tier mg).1 = mg ∧ (new_tier mg).2 = some Err.refinement))
    ∧ ((new_tier tier6M).2 = none
      ∧ (new_tier tier6M).1.max_tier = 1
      ∧ (new_tier tier6M).1.grids.length = 2
      ∧ (new_tier (new_tier tier6M).1).2 = some Err.refinement
      ∧ (new_tier (new_tier tier6M).1).1 = (new_tier tier6M).1)
    ∧ ((new_tier tier8M).2 = none
      ∧ (new_tier (new_tier tier8M).1).2 = none
      ∧ (new_tier (new_tier (new_tier tier8M).1).1).2 = none
      ∧ (new_tier (new_tier (new_tier (new_tier tier8M).1).1).1).2
          = some Err.refinement
      ∧ (new_tier (new_tier (new_tier (new_tier tier8M).1).1).1).1
          = (new_tier (new_tier (new_tier tier8M).1).1).1
      ∧ ((new_tier (new_tier (new_tier tier8M).1).1).1.grids.map
          Grid.spacing) = [8, 4, 2, 1]) := by
  refine ⟨fun mg => ⟨?_, ?_, ?_⟩, by decide, by decide⟩
  · unfold new_tier
    constructor
    · intro h
      by_contra hc
      simp [hc] at h
    · intro h
      simp [h]
  · intro h
    simp [new_tier, h]
  · intro h
    simp [new_tier, h]

/-- witness for C7: the success branch applied to the concrete
spacing-6 mesh. -/
theorem c7_new_tier_correct_witness :
    (new_tier tier6M).1 = { tier6M with
      max_tier := tier6M.max_tier + 1,
      grids := tier6M.grids ++
        [mkGrid tier6M.img_dim (tier6M.spacing / 2 ^ tier6M.max_tier / 2)] } :=
  (c7_new_tier_correct.1 tier6M).2.1 (by decide)

/- ------------------------------------------------------------------
Claim C8: degenerate construction.
------------------------------------------------------------------- -/

/-- Claim C8 (counterexample): constructing a mesh whose dimensions and
spacing admit only a single grid point per axis (image 2×2, spacing 4)
raises no error: `MultiGrid.__init__` performs no validation and simply
produces a mesh with one window and zero cells. -/
theorem c8_degenerate_counterexample :
    (construct (2, 2) 4 5).cells = []
    ∧ (construct (2, 2) 4 5).windows.length = 1
    ∧ (construct (2, 2) 4 5).cells_in_top_tier = 0 := by
  decide

/-- Claim C8 (amended): construction never fails; whenever the given
image dimensions and spacing cannot form at least one cell in each axis
(fewer than two grid points in some direction) it returns a mesh with
zero cells instead of raising. -/
theorem c8_degenerate_amended (H W s : Nat) (WS : ℚ)
    (h : numPts W s ≤ 1 ∨ numPts H s ≤ 1) :
    (construct (H, W) s WS).cells = []
    ∧ (construct (H, W) s WS).cells_in_top_tier = 0 := by
  have hz : (numPts H s - 1) * (numPts W s - 1) = 0 := by
    rcases h with h | h
    · have : numPts W s - 1 = 0 := Nat.sub_eq_zero_of_le h
      simp [this]
    · have : numPts H s - 1 = 0 := Nat.sub_eq_zero_of_le h
      simp [this]
  constructor
  · show ((List.range ((numPts H s - 1) * (numPts W s - 1))).map _) = []
    rw [hz]
    rfl
  · show (numPts H s - 1) * (numPts W s - 1) = 0
    exact hz

/-- witness for the amended C8 theorem: a 9×3 image with spacing 5 has a
single grid column, hence zero cells and no error. -/
theorem c8_degenerate_amended_witness :
    (construct (9, 3) 5 7).cells = []
    ∧ (construct (9, 3) 5 7).cells_in_top_tier = 0 :=
  c8_degenerate_amended 9 3 5 7 (by decide)

/- ------------------------------------------------------------------
List access lemmas.
------------------------------------------------------------------- -/

theorem gdAppendLeft {α : Type} [Inhabited α] (l1 l2 : List α) :
    ∀ i, i < l1.length → (l1 ++ l2).getD i default = l1.getD i default := by
  induction l1 with
  | nil => intro i h; simp at h
  | cons a t ih =>
    intro i h
    cases i with
    | zero => rfl
    | succ n =>
      have : n < t.length := by simpa using h
      simpa [List.getD_cons_succ] using ih n this

theorem gdAppendRight {α : Type} [Inhabited α] (l1 l2 : List α) :
    ∀ i, l1.length ≤ i →
      (l1 ++ l2).getD i default = l2.getD (i - l1.length) default := by
  induction l1 with
  | nil => intro i _; simp
  | cons a t ih =>
    intro i h
    cases i with
    | zero => simp at h
    | succ n =>
      have : t.length ≤ n := by simpa using h
      simpa [List.getD_cons_succ, Nat.succ_sub_succ] using ih n this

theorem gdSetEq {α : Type} [Inhabited α] (l : List α) (a : α) :
    ∀ i, i < l.length → (l.set i a).getD i default = a := by
  induction l with
  | nil => intro i h; simp at h
  | cons b t ih =>
    intro i h
    cases i with
    | zero => rfl
    | succ n =>
      have : n < t.length := by simpa using h
      simpa [List.set, List.getD_cons_succ] using ih n this

theorem gdSetNe {α : Type} [Inhabited α] (l : List α) (a : α) :
    ∀ i j, i ≠ j → (l.set i a).getD j default = l.getD j default := by
  induction l with
  | nil => intro i j _; simp [List.set]
  | cons b t ih =>
    intro i j hne
    cases i with
    | zero =>
      cases j with
      | zero => exact absurd rfl hne
      | succ m => rfl
    | succ n =>
      cases j with
      | zero => rfl
      | succ m =>
        have : n ≠ m := fun h => hne (by rw [h])
        simpa [List.set, List.getD_cons_succ] using ih n m this

theorem gdMapRange {α : Type} [Inhabited α] (n : Nat) (f : Nat → α) :
    ∀ i, i < n → ((List.range n).map f).getD i default = f i := by
  intro i h
  rw [List.getD_eq_getElem?_getD, List.getElem?_map, List.getElem?_range h]
  rfl

theorem lenSet {α : Type} (l : List α) (i : Nat) (a : α) :
    (l.set i a).length = l.length := List.length_set l i a

/- ------------------------------------------------------------------
State-transformer descriptions.
------------------------------------------------------------------- -/

theorem modCell_fields (mg : MultiGrid) (i : Nat) (f : GridCell → GridCell) :
    (modCell mg i f).windows = mg.windows
    ∧ (modCell mg i f).spacing = mg.spacing
    ∧ (modCell mg i f).img_dim = mg.img_dim
    ∧ (modCell mg i f).cells_in_top_tier = mg.cells_in_top_tier
    ∧ (modCell mg i f).max_tier = mg.max_tier
    ∧ (modCell mg i f).grids = mg.grids
    ∧ (modCell mg i f).cells.length = mg.cells.length :=
  ⟨rfl, rfl, rfl, rfl, rfl, rfl, lenSet _ _ _⟩

theorem cellAt_modCell_self (mg : MultiGrid) (i : Nat)
    (f : GridCell → GridCell) (h : i < mg.cells.length) :
    cellAt (modCell mg i f) i = f (cellAt mg i) := by
  unfold cellAt modCell setCell
  exact gdSetEq _ _ i h

theorem cellAt_modCell_ne (mg : MultiGrid) (i j : Nat)
    (f : GridCell → GridCell) (h : i ≠ j) :
    cellAt (modCell mg i f) j = cellAt mg j := by
  unfold cellAt modCell setCell
  exact gdSetNe _ _ i j h

theorem linkNS_fields (mg : MultiGrid) (i j : Nat) :
    (linkNS mg i j).windows = mg.windows
    ∧ (linkNS mg i j).spacing = mg.spacing
    ∧ (linkNS mg i j).img_dim = mg.img_dim
    ∧ (linkNS mg i j).cells_in_top_tier = mg.cells_in_top_tier
    ∧ (linkNS mg i j).max_tier = mg.max_tier
    ∧ (linkNS mg i j).grids = mg.grids
    ∧ (linkNS mg i j).cells.length = mg.cells.length := by
  unfold linkNS
  refine ⟨rfl, rfl, rfl, rfl, rfl, rfl, ?_⟩
  simp [modCell, setCell]

theorem linkEW_fields (mg : MultiGrid) (i j : Nat) :
    (linkEW mg i j).windows = mg.windows
    ∧ (linkEW mg i j).spacing = mg.spacing
    ∧ (linkEW mg i j).img_dim = mg.img_dim
    ∧ (linkEW mg i j).cells_in_top_tier = mg.cells_in_top_tier
    ∧ (linkEW mg i j).max_tier = mg.max_tier
    ∧ (linkEW mg i j).grids = mg.grids
    ∧ (linkEW mg i j).cells.length = mg.cells.length := by
  unfold linkEW
  refine ⟨rfl, rfl, rfl, rfl, rfl, rfl, ?_⟩
  simp [modCell, setCell]

theorem cellAt_linkNS (mg : MultiGrid) (i j : Nat) (hne : i ≠ j)
    (hi : i < mg.cells.length) (hj : j < mg.cells.length) (k : Nat) :
    cellAt (linkNS mg i j) k =
      if k = i then { cellAt mg i with north := some j }
      else if k = j then { cellAt mg j with south := some i }
      else cellAt mg k := by
  unfold linkNS
  have hlen := (modCell_fields mg i
    (fun c => { c with north := some j })).2.2.2.2.2.2
  by_cases hki : k = i
  · subst hki
    rw [cellAt_modCell_ne _ _ _ _ (fun h => hne h.symm),
        cellAt_modCell_self _ _ _ hi]
    simp [hne]
  · by_cases hkj : k = j
    · subst hkj
      rw [cellAt_modCell_self _ _ _ (by rw [hlen]; exact hj),
          cellAt_modCell_ne _ _ _ _ hne]
      simp [hki]
    · rw [cellAt_modCell_ne _ _ _ _ (fun h => hkj h.symm),
          cellAt_modCell_ne _ _ _ _ (fun h => hki h.symm)]
      simp [hki, hkj]

theorem cellAt_linkEW (mg : MultiGrid) (i j : Nat) (hne : i ≠ j)
    (hi : i < mg.cells.length) (hj : j < mg.cells.length) (k : Nat) :
    cellAt (linkEW mg i j) k =
      if k = i then { cellAt mg i with east := some j }
      else if k = j then { cellAt mg j with west := some i }
      else cellAt mg k := by
  unfold linkEW
  have hlen := (modCell_fields mg i
    (fun c => { c with east := some j })).2.2.2.2.2.2
  by_cases hki : k = i
  · subst hki
    rw [cellAt_modCell_ne _ _ _ _ (fun h => hne h.symm),
        cellAt_modCell_self _ _ _ hi]
    simp [hne]
  · by_cases hkj : k = j
    · subst hkj
      rw [cellAt_modCell_self _ _ _ (by rw [hlen]; exact hj),
          cellAt_modCell_ne _ _ _ _ hne]
      simp [hki]
    · rw [cellAt_modCell_ne _ _ _ _ (fun h => hkj h.symm),
          cellAt_modCell_ne _ _ _ _ (fun h => hki h.symm)]
      simp [hki, hkj]

/- ------------------------------------------------------------------
WF transport lemmas.
------------------------------------------------------------------- -/

theorem wf_congr (mg mg' : MultiGrid) (hc : mg'.cells = mg.cells)
    (hw : mg'.windows = mg.windows) (hs : mg'.spacing = mg.spacing)
    (hd : mg'.img_dim = mg.img_dim)
    (ht : mg'.cells_in_top_tier = mg.cells_in_top_tier)
    (h : WF mg) : WF mg' := by
  have e1 : mg'.cells.length = mg.cells.length := by rw [hc]
  have e3 : ∀ i, cellAt mg' i = cellAt mg i := by
    intro i; unfold cellAt; rw [hc]
  have e4 : ∀ i, winAt mg' i = winAt mg i := by
    intro i; unfold winAt; rw [hw]
  have e2 : mg'.windows.length = mg.windows.length := by rw [hw]
  have e5 : mg'.n_cc = mg.n_cc := by
    unfold MultiGrid.n_cc MultiGrid.nx; rw [hd, hs]
  have e6 : mg'.n_rc = mg.n_rc := by
    unfold MultiGrid.n_rc MultiGrid.ny; rw [hd, hs]
  refine ⟨?_, ?_, ?_, ?_, ?_, ?_, ?_, ?_, ?_, ?_, ?_, ?_, ?_, ?_, ?_, ?_⟩ <;>
    simp only [e1, e2, e3, e4, e5, e6, hs, ht] <;>
    first
      | exact h.link_north
      | exact h.link_south
      | exact h.link_east
      | exact h.link_west
      | exact h.sym_north
      | exact h.sym_south
      | exact h.sym_east
      | exact h.sym_west
      | exact h.uniq
      | exact h.parent_of
      | exact h.children_ok
      | exact h.corners
      | exact h.top_count
      | exact h.top_le
      | exact h.top_cells
      | exact h.tier0_top

theorem wf_windows_append (mg : MultiGrid) (l : List CorrWindow)
    (h : WF mg) : WF { mg with windows := mg.windows ++ l } := by
  set mg' : MultiGrid := { mg with windows := mg.windows ++ l } with hmg
  have e3 : ∀ i, cellAt mg' i = cellAt mg i := fun _ => rfl
  have e4 : ∀ j, j < mg.windows.length → winAt mg' j = winAt mg j := by
    intro j hj
    show (mg.windows ++ l).getD j default = mg.windows.getD j default
    exact gdAppendLeft _ _ j hj
  have e2 : mg.windows.length ≤ mg'.windows.length := by
    show mg.windows.length ≤ (mg.windows ++ l).length
    simp
  refine ⟨?_, ?_, ?_, ?_, ?_, ?_, ?_, ?_, ?_, ?_, ?_, ?_, ?_, ?_, ?_, ?_⟩ <;>
    simp only [e3] <;>
    try first
      | exact h.link_north
      | exact h.link_south
      | exact h.link_east
      | exact h.link_west
      | exact h.sym_north
      | exact h.sym_south
      | exact h.sym_east
      | exact h.sym_west
      | exact h.uniq
      | exact h.parent_of
      | exact h.children_ok
      | exact h.top_count
      | exact h.top_le
      | exact h.top_cells
      | exact h.tier0_top
  -- remaining: corners
  intro i hi
  obtain ⟨⟨b1, b2, b3, b4⟩, hbl, hbr, htl, htr⟩ :=
    h.corners i (by simpa using hi)
  refine ⟨⟨?_, ?_, ?_, ?_⟩, ?_, ?_, ?_, ?_⟩
  · exact Nat.lt_of_lt_of_le b1 e2
  · exact Nat.lt_of_lt_of_le b2 e2
  · exact Nat.lt_of_lt_of_le b3 e2
  · exact Nat.lt_of_lt_of_le b4 e2
  · rw [e4 _ b1]; exact hbl
  · rw [e4 _ b2]; exact hbr
  · rw [e4 _ b3]; exact htl
  · rw [e4 _ b4]; exact htr

/- ------------------------------------------------------------------
create_new_corrWindows: state facts.
------------------------------------------------------------------- -/

theorem crw_cells (mg : MultiGrid) (ci : Nat) :
    (create_new_corrWindows mg ci).1.cells = mg.cells := by
  rw [create_new_corrWindows_fst]

theorem crw_fields (mg : MultiGrid) (ci : Nat) :
    (create_new_corrWindows mg ci).1.spacing = mg.spacing
    ∧ (create_new_corrWindows mg ci).1.img_dim = mg.img_dim
    ∧ (create_new_corrWindows mg ci).1.cells_in_top_tier
        = mg.cells_in_top_tier
    ∧ (create_new_corrWindows mg ci).1.max_tier = mg.max_tier
    ∧ (create_new_corrWindows mg ci).1.grids = mg.grids := by
  rw [create_new_corrWindows_fst]
  exact ⟨rfl, rfl, rfl, rfl, rfl⟩

theorem crw_windows_bounds (mg : MultiGrid) (ci : Nat) :
    mg.windows.length + 1 ≤ (create_new_corrWindows mg ci).1.windows.length
    ∧ (create_new_corrWindows mg ci).1.windows.length
        ≤ mg.windows.length + 5 := by
  rw [create_new_corrWindows_fst]
  simp only [List.length_append, List.length_cons, List.length_nil]
  constructor <;> (split <;> split <;> split <;> split <;> simp <;> omega)

theorem crw_winAt_prefix (mg : MultiGrid) (ci : Nat) (j : Nat)
    (hj : j < mg.windows.length) :
    winAt (create_new_corrWindows mg ci).1 j = winAt mg j := by
  rw [create_new_corrWindows_fst]
  show (mg.windows ++ _).getD j default = mg.windows.getD j default
  exact gdAppendLeft _ _ j hj

theorem wf_crw (mg : MultiGrid) (ci : Nat) (h : WF mg) :
    WF (create_new_corrWindows mg ci).1 := by
  rw [create_new_corrWindows_fst]
  exact wf_windows_append mg _ h

theorem crw_cm_fresh (mg : MultiGrid) (ci : Nat) :
    mg.windows.length ≤ (create_new_corrWindows mg ci).2.2.2.1 := by
  simp only [create_new_corrWindows, appendWin, reuseOrNew_fst]
  simp only [List.length_append]
  omega

/- ------------------------------------------------------------------
makeChildren: state facts.
------------------------------------------------------------------- -/

theorem makeChildren_snd (mg : MultiGrid) (ci lm cb cm ct rm : Nat) :
    (makeChildren mg ci lm cb cm ct rm).2 =
      ⟨mg.cells.length, mg.cells.length + 1,
       mg.cells.length + 2, mg.cells.length + 3⟩ := rfl

theorem makeChildren_fields (mg : MultiGrid) (ci lm cb cm ct rm : Nat) :
    (makeChildren mg ci lm cb cm ct rm).1.windows = mg.windows
    ∧ (makeChildren mg ci lm cb cm ct rm).1.spacing = mg.spacing
    ∧ (makeChildren mg ci lm cb cm ct rm).1.img_dim = mg.img_dim
    ∧ (makeChildren mg ci lm cb cm ct rm).1.cells_in_top_tier
        = mg.cells_in_top_tier
    ∧ (makeChildren mg ci lm cb cm ct rm).1.max_tier = mg.max_tier
    ∧ (makeChildren mg ci lm cb cm ct rm).1.grids = mg.grids
    ∧ (makeChildren mg ci lm cb cm ct rm).1.cells.length
        = mg.cells.length + 4 := by
  refine ⟨rfl, rfl, rfl, rfl, rfl, rfl, ?_⟩
  show ((mg.cells ++ _).set ci _).length = _
  rw [lenSet]
  simp

theorem cellAt_makeChildren_ci (mg : MultiGrid) (ci lm cb cm ct rm : Nat)
    (hci : ci < mg.cells.length) :
    cellAt (makeChildren mg ci lm cb cm ct rm).1 ci =
      { cellAt mg ci with
          children := some (Children.mk mg.cells.length (mg.cells.length + 1)
              (mg.cells.length + 2) (mg.cells.length + 3)) } := by
  show ((mg.cells ++ _).set ci _).getD ci default = _
  rw [gdSetEq]
  simp
  omega

theorem cellAt_makeChildren_old (mg : MultiGrid) (ci lm cb cm ct rm k : Nat)
    (hk : k ≠ ci) (hlt : k < mg.cells.length) :
    cellAt (makeChildren mg ci lm cb cm ct rm).1 k = cellAt mg k := by
  show ((mg.cells ++ _).set ci _).getD k default = _
  rw [gdSetNe _ _ _ _ (fun h => hk h.symm)]
  exact gdAppendLeft _ _ k hlt

theorem cellAt_makeChildren_bl (mg : MultiGrid) (ci lm cb cm ct rm : Nat)
    (hci : ci < mg.cells.length) :
    cellAt (makeChildren mg ci lm cb cm ct rm).1 mg.cells.length =
      { id_bl := (cellAt mg ci).id_bl, id_br := cb, id_tl := lm, id_tr := cm,
        tier := (cellAt mg ci).tier + 1,
        ix := 2 * (cellAt mg ci).ix, iy := 2 * (cellAt mg ci).iy,
        parent := some ci, children := none,
        north := none, east := none, south := none, west := none } := by
  show ((mg.cells ++ _).set ci _).getD mg.cells.length default = _
  rw [gdSetNe _ _ _ _ (by omega), gdAppendRight _ _ _ (Nat.le_refl _)]
  simp

theorem cellAt_makeChildren_br (mg : MultiGrid) (ci lm cb cm ct rm : Nat)
    (hci : ci < mg.cells.length) :
    cellAt (makeChildren mg ci lm cb cm ct rm).1 (mg.cells.length + 1) =
      { id_bl := cb, id_br := (cellAt mg ci).id_br, id_tl := cm, id_tr := rm,
        tier := (cellAt mg ci).tier + 1,
        ix := 2 * (cellAt mg ci).ix + 1, iy := 2 * (cellAt mg ci).iy,
        parent := some ci, children := none,
        north := none, east := none, south := none, west := none } := by
  show ((mg.cells ++ _).set ci _).getD (mg.cells.length + 1) default = _
  rw [gdSetNe _ _ _ _ (by omega),
      gdAppendRight _ _ _ (by omega)]
  simp

theorem cellAt_makeChildren_tl (mg : MultiGrid) (ci lm cb cm ct rm : Nat)
    (hci : ci < mg.cells.length) :
    cellAt (makeChildren mg ci lm cb cm ct rm).1 (mg.cells.length + 2) =
      { id_bl := lm, id_br := cm, id_tl := (cellAt mg ci).id_tl, id_tr := ct,
        tier := (cellAt mg ci).tier + 1,
        ix := 2 * (cellAt mg ci).ix, iy := 2 * (cellAt mg ci).iy + 1,
        parent := some ci, children := none,
        north := none, east := none, south := none, west := none } := by
  show ((mg.cells ++ _).set ci _).getD (mg.cells.length + 2) default = _
  rw [gdSetNe _ _ _ _ (by omega),
      gdAppendRight _ _ _ (by omega)]
  have : mg.cells.length + 2 - mg.cells.length = 2 := by omega
  rw [this]
  simp

theorem cellAt_makeChildren_tr (mg : MultiGrid) (ci lm cb cm ct rm : Nat)
    (hci : ci < mg.cells.length) :
    cellAt (makeChildren mg ci lm cb cm ct rm).1 (mg.cells.length + 3) =
      { id_bl := cm, id_br := rm, id_tl := ct, id_tr := (cellAt mg ci).id_tr,
        tier := (cellAt mg ci).tier + 1,
        ix := 2 * (cellAt mg ci).ix + 1, iy := 2 * (cellAt mg ci).iy + 1,
        parent := some ci, children := none,
        north := none, east := none, south := none, west := none } := by
  show ((mg.cells ++ _).set ci _).getD (mg.cells.length + 3) default = _
  rw [gdSetNe _ _ _ _ (by omega),
      gdAppendRight _ _ _ (by omega)]
  have : mg.cells.length + 3 - mg.cells.length = 3 := by omega
  rw [this]
  simp

/- ------------------------------------------------------------------
new_tier / registerGrid: state facts.
------------------------------------------------------------------- -/

theorem new_tier_fields (mg : MultiGrid) :
    (new_tier mg).1.cells = mg.cells
    ∧ (new_tier mg).1.windows = mg.windows
    ∧ (new_tier mg).1.spacing = mg.spacing
    ∧ (new_tier mg).1.img_dim = mg.img_dim
    ∧ (new_tier mg).1.cells_in_top_tier = mg.cells_in_top_tier
    ∧ mg.max_tier ≤ (new_tier mg).1.max_tier := by
  unfold new_tier
  dsimp only
  split <;> simp

theorem registerGrid_fields (mg : MultiGrid) (ci lm cb cm ct rm : Nat) :
    (registerGrid mg ci lm cb cm ct rm).cells = mg.cells
    ∧ (registerGrid mg ci lm cb cm ct rm).windows = mg.windows
    ∧ (registerGrid mg ci lm cb cm ct rm).spacing = mg.spacing
    ∧ (registerGrid mg ci lm cb cm ct rm).img_dim = mg.img_dim
    ∧ (registerGrid mg ci lm cb cm ct rm).cells_in_top_tier
        = mg.cells_in_top_tier
    ∧ (registerGrid mg ci lm cb cm ct rm).max_tier = mg.max_tier :=
  ⟨rfl, rfl, rfl, rfl, rfl, rfl⟩

/- ------------------------------------------------------------------
Spacing algebra.
------------------------------------------------------------------- -/

theorem hQ_succ (s t : Nat) : hQ s t = 2 * hQ s (t + 1) := by
  unfold hQ
  have h : ((2:ℚ)) ^ t ≠ 0 := pow_ne_zero t two_ne_zero
  rw [pow_succ]
  field_simp
  ring

theorem midQ_scale (u hh : ℚ) :
    midQ (u * (2 * hh)) ((u + 1) * (2 * hh)) = (2 * u + 1) * hh := by
  rw [midQ_eq_half]
  ring

/- ------------------------------------------------------------------
WF preservation by a mutual link (north/south).
------------------------------------------------------------------- -/

theorem wf_linkNS (mg : MultiGrid) (i j : Nat) (h : WF mg)
    (hi : i < mg.cells.length) (hj : j < mg.cells.length)
    (ht : (cellAt mg j).tier = (cellAt mg i).tier)
    (hx : (cellAt mg j).ix = (cellAt mg i).ix)
    (hy : (cellAt mg j).iy = (cellAt mg i).iy + 1)
    (hn : (cellAt mg i).north = none)
    (hs : (cellAt mg j).south = none) :
    WF (linkNS mg i j) := by
  have hne : i ≠ j := by
    intro e
    rw [e] at hy
    omega
  have D := cellAt_linkNS mg i j hne hi hj
  have hlen : (linkNS mg i j).cells.length = mg.cells.length :=
    (linkNS_fields mg i j).2.2.2.2.2.2
  have hwin : ∀ x, winAt (linkNS mg i j) x = winAt mg x := fun _ => rfl
  have htier : ∀ k, (cellAt (linkNS mg i j) k).tier = (cellAt mg k).tier := by
    intro k
    rw [D k]
    split_ifs with e1 e2
    · subst e1; rfl
    · subst e2; rfl
    · rfl
  have hix : ∀ k, (cellAt (linkNS mg i j) k).ix = (cellAt mg k).ix := by
    intro k
    rw [D k]
    split_ifs with e1 e2
    · subst e1; rfl
    · subst e2; rfl
    · rfl
  have hiy : ∀ k, (cellAt (linkNS mg i j) k).iy = (cellAt mg k).iy := by
    intro k
    rw [D k]
    split_ifs with e1 e2
    · subst e1; rfl
    · subst e2; rfl
    · rfl
  have hparent : ∀ k, (cellAt (linkNS mg i j) k).parent
      = (cellAt mg k).parent := by
    intro k
    rw [D k]
    split_ifs with e1 e2
    · subst e1; rfl
    · subst e2; rfl
    · rfl
  have hchildren : ∀ k, (cellAt (linkNS mg i j) k).children
      = (cellAt mg k).children := by
    intro k
    rw [D k]
    split_ifs with e1 e2
    · subst e1; rfl
    · subst e2; rfl
    · rfl
  have hidbl : ∀ k, (cellAt (linkNS mg i j) k).id_bl
      = (cellAt mg k).id_bl := by
    intro k
    rw [D k]
    split_ifs with e1 e2
    · subst e1; rfl
    · subst e2; rfl
    · rfl
  have hidbr : ∀ k, (cellAt (linkNS mg i j) k).id_br
      = (cellAt mg k).id_br := by
    intro k
    rw [D k]
    split_ifs with e1 e2
    · subst e1; rfl
    · subst e2; rfl
    · rfl
  have hidtl : ∀ k, (cellAt (linkNS mg i j) k).id_tl
      = (cellAt mg k).id_tl := by
    intro k
    rw [D k]
    split_ifs with e1 e2
    · subst e1; rfl
    · subst e2; rfl
    · rfl
  have hidtr : ∀ k, (cellAt (linkNS mg i j) k).id_tr
      = (cellAt mg k).id_tr := by
    intro k
    rw [D k]
    split_ifs with e1 e2
    · subst e1; rfl
    · subst e2; rfl
    · rfl
  have heast : ∀ k, (cellAt (linkNS mg i j) k).east = (cellAt mg k).east := by
    intro k
    rw [D k]
    split_ifs with e1 e2
    · subst e1; rfl
    · subst e2; rfl
    · rfl
  have hwest : ∀ k, (cellAt (linkNS mg i j) k).west = (cellAt mg k).west := by
    intro k
    rw [D k]
    split_ifs with e1 e2
    · subst e1; rfl
    · subst e2; rfl
    · rfl
  have hnorth : ∀ k, (cellAt (linkNS mg i j) k).north
      = if k = i then some j else (cellAt mg k).north := by
    intro k
    rw [D k]
    split_ifs with e1 e2
    · subst e1; rfl
    · subst e2; rfl
    · rfl
  have hsouth : ∀ k, (cellAt (linkNS mg i j) k).south
      = if k = j then some i else (cellAt mg k).south := by
    intro k
    rw [D k]
    by_cases e1 : k = i
    · subst e1
      simp [hne]
    · by_cases e2 : k = j
      · subst e2
        simp [e1]
      · simp [e1, e2]
  refine ⟨?_, ?_, ?_, ?_, ?_, ?_, ?_, ?_, ?_, ?_, ?_, ?_, ?_, ?_, ?_, ?_⟩
  -- link_north
  · intro k hk m hm
    rw [hnorth k] at hm
    simp only [hlen, htier, hix, hiy] at *
    by_cases ek : k = i
    · rw [if_pos ek] at hm
      injection hm with hm'
      subst hm'
      subst ek
      exact ⟨hj, ht, hx, hy⟩
    · rw [if_neg ek] at hm
      exact h.link_north k hk m hm
  -- link_south
  · intro k hk m hm
    rw [hsouth k] at hm
    simp only [hlen, htier, hix, hiy] at *
    by_cases ek : k = j
    · rw [if_pos ek] at hm
      injection hm with hm'
      subst hm'
      subst ek
      exact ⟨hi, ht.symm, hx.symm, hy⟩
    · rw [if_neg ek] at hm
      exact h.link_south k hk m hm
  -- link_east
  · intro k hk m hm
    rw [heast k] at hm
    simp only [hlen, htier, hix, hiy] at *
    exact h.link_east k hk m hm
  -- link_west
  · intro k hk m hm
    rw [hwest k] at hm
    simp only [hlen, htier, hix, hiy] at *
    exact h.link_west k hk m hm
  -- sym_north
  · intro k hk m hm
    rw [hnorth k] at hm
    rw [hsouth m]
    simp only [hlen] at hk
    by_cases ek : k = i
    · subst ek
      rw [if_pos rfl] at hm
      injection hm with hm'
      subst hm'
      rw [if_pos rfl]
    · rw [if_neg ek] at hm
      have old := h.sym_north k hk m hm
      by_cases em : m = j
      · exfalso
        subst em
        rw [hs] at old
        exact Option.noConfusion old
      · rw [if_neg em]
        exact old
  -- sym_south
  · intro k hk m hm
    rw [hsouth k] at hm
    rw [hnorth m]
    simp only [hlen] at hk
    by_cases ek : k = j
    · subst ek
      rw [if_pos rfl] at hm
      injection hm with hm'
      subst hm'
      rw [if_pos rfl]
    · rw [if_neg ek] at hm
      have old := h.sym_south k hk m hm
      by_cases em : m = i
      · exfalso
        subst em
        rw [hn] at old
        exact Option.noConfusion old
      · rw [if_neg em]
        exact old
  -- sym_east
  · intro k hk m hm
    rw [heast k] at hm
    rw [hwest m]
    simp only [hlen] at hk
    exact h.sym_east k hk m hm
  -- sym_west
  · intro k hk m hm
    rw [hwest k] at hm
    rw [heast m]
    simp only [hlen] at hk
    exact h.sym_west k hk m hm
  -- uniq
  · intro a b ha hb e1 e2 e3
    simp only [hlen] at ha hb
    rw [htier a, htier b] at e1
    rw [hix a, hix b] at e2
    rw [hiy a, hiy b] at e3
    exact h.uniq a b ha hb e1 e2 e3
  -- parent_of
  · intro k hk hkt
    simp only [hlen] at hk
    rw [htier k] at hkt
    obtain ⟨p, hp1, hp2, hp3, hp4, hp5, q, hq1, hq2⟩ := h.parent_of k hk hkt
    refine ⟨p, ?_, hp2, ?_, ?_, ?_, q, ?_, ?_⟩
    · rw [hparent k]; exact hp1
    · rw [htier p, htier k]; exact hp3
    · rw [hix p, hix k]; exact hp4
    · rw [hiy p, hiy k]; exact hp5
    · rw [hchildren p]; exact hq1
    · rw [hix k, hiy k]; exact hq2
  -- children_ok
  · intro k hk q hq
    simp only [hlen] at hk
    rw [hchildren k] at hq
    simp only [htier, hix, hiy, hparent, hchildren, hlen]
    exact h.children_ok k hk q hq
  -- corners
  · intro k hk
    simp only [hlen] at hk
    simp only [hidbl, hidbr, hidtl, hidtr, hwin, htier, hix, hiy]
    show _ ∧ _
    have e2 : (linkNS mg i j).windows.length = mg.windows.length := rfl
    have e5 : (linkNS mg i j).spacing = mg.spacing := rfl
    rw [e2, e5]
    exact h.corners k hk
  -- top_count
  · have e5 : (linkNS mg i j).spacing = mg.spacing := rfl
    have e6 : (linkNS mg i j).img_dim = mg.img_dim := rfl
    have e7 : (linkNS mg i j).cells_in_top_tier = mg.cells_in_top_tier := rfl
    show (linkNS mg i j).cells_in_top_tier = _
    rw [e7, h.top_count]
    unfold MultiGrid.n_rc MultiGrid.n_cc MultiGrid.nx MultiGrid.ny
    rw [e5, e6]
  -- top_le
  · show (linkNS mg i j).cells_in_top_tier ≤ _
    rw [hlen]
    exact h.top_le
  -- top_cells
  · intro k hk
    have e7 : (linkNS mg i j).cells_in_top_tier = mg.cells_in_top_tier := rfl
    rw [e7] at hk
    obtain ⟨t1, t2, t3⟩ := h.top_cells k hk
    have e5 : (linkNS mg i j).n_cc = mg.n_cc := rfl
    refine ⟨?_, ?_, ?_⟩
    · rw [htier k]; exact t1
    · rw [hix k, e5]; exact t2
    · rw [hiy k, e5]; exact t3
  -- tier0_top
  · intro k hk hk0
    simp only [hlen] at hk
    rw [htier k] at hk0
    have e7 : (linkNS mg i j).cells_in_top_tier = mg.cells_in_top_tier := rfl
    rw [e7]
    exact h.tier0_top k hk hk0

/- ------------------------------------------------------------------
WF preservation by a mutual link (east/west).
------------------------------------------------------------------- -/

theorem wf_linkEW (mg : MultiGrid) (i j : Nat) (h : WF mg)
    (hi : i < mg.cells.length) (hj : j < mg.cells.length)
    (ht : (cellAt mg j).tier = (cellAt mg i).tier)
    (hx : (cellAt mg j).ix = (cellAt mg i).ix + 1)
    (hy : (cellAt mg j).iy = (cellAt mg i).iy)
    (hn : (cellAt mg i).east = none)
    (hs : (cellAt mg j).west = none) :
    WF (linkEW mg i j) := by
  have hne : i ≠ j := by
    intro e
    rw [e] at hx
    omega
  have D := cellAt_linkEW mg i j hne hi hj
  have hlen : (linkEW mg i j).cells.length = mg.cells.length :=
    (linkEW_fields mg i j).2.2.2.2.2.2
  have hwin : ∀ x, winAt (linkEW mg i j) x = winAt mg x := fun _ => rfl
  have htier : ∀ k, (cellAt (linkEW mg i j) k).tier = (cellAt mg k).tier := by
    intro k
    rw [D k]
    split_ifs with e1 e2
    · subst e1; rfl
    · subst e2; rfl
    · rfl
  have hix : ∀ k, (cellAt (linkEW mg i j) k).ix = (cellAt mg k).ix := by
    intro k
    rw [D k]
    split_ifs with e1 e2
    · subst e1; rfl
    · subst e2; rfl
    · rfl
  have hiy : ∀ k, (cellAt (linkEW mg i j) k).iy = (cellAt mg k).iy := by
    intro k
    rw [D k]
    split_ifs with e1 e2
    · subst e1; rfl
    · subst e2; rfl
    · rfl
  have hparent : ∀ k, (cellAt (linkEW mg i j) k).parent
      = (cellAt mg k).parent := by
    intro k
    rw [D k]
    split_ifs with e1 e2
    · subst e1; rfl
    · subst e2; rfl
    · rfl
  have hchildren : ∀ k, (cellAt (linkEW mg i j) k).children
      = (cellAt mg k).children := by
    intro k
    rw [D k]
    split_ifs with e1 e2
    · subst e1; rfl
    · subst e2; rfl
    · rfl
  have hidbl : ∀ k, (cellAt (linkEW mg i j) k).id_bl
      = (cellAt mg k).id_bl := by
    intro k
    rw [D k]
    split_ifs with e1 e2
    · subst e1; rfl
    · subst e2; rfl
    · rfl
  have hidbr : ∀ k, (cellAt (linkEW mg i j) k).id_br
      = (cellAt mg k).id_br := by
    intro k
    rw [D k]
    split_ifs with e1 e2
    · subst e1; rfl
    · subst e2; rfl
    · rfl
  have hidtl : ∀ k, (cellAt (linkEW mg i j) k).id_tl
      = (cellAt mg k).id_tl := by
    intro k
    rw [D k]
    split_ifs with e1 e2
    · subst e1; rfl
    · subst e2; rfl
    · rfl
  have hidtr : ∀ k, (cellAt (linkEW mg i j) k).id_tr
      = (cellAt mg k).id_tr := by
    intro k
    rw [D k]
    split_ifs with e1 e2
    · subst e1; rfl
    · subst e2; rfl
    · rfl
  have hnorth : ∀ k, (cellAt (linkEW mg i j) k).north
      = (cellAt mg k).north := by
    intro k
    rw [D k]
    split_ifs with e1 e2
    · subst e1; rfl
    · subst e2; rfl
    · rfl
  have hsouth : ∀ k, (cellAt (linkEW mg i j) k).south
      = (cellAt mg k).south := by
    intro k
    rw [D k]
    split_ifs with e1 e2
    · subst e1; rfl
    · subst e2; rfl
    · rfl
  have heast : ∀ k, (cellAt (linkEW mg i j) k).east
      = if k = i then some j else (cellAt mg k).east := by
    intro k
    rw [D k]
    split_ifs with e1 e2
    · subst e1; rfl
    · subst e2; rfl
    · rfl
  have hwest : ∀ k, (cellAt (linkEW mg i j) k).west
      = if k = j then some i else (cellAt mg k).west := by
    intro k
    rw [D k]
    by_cases e1 : k = i
    · subst e1
      simp [hne]
    · by_cases e2 : k = j
      · subst e2
        simp [e1]
      · simp [e1, e2]
  refine ⟨?_, ?_, ?_, ?_, ?_, ?_, ?_, ?_, ?_, ?_, ?_, ?_, ?_, ?_, ?_, ?_⟩
  -- link_north
  · intro k hk m hm
    rw [hnorth k] at hm
    simp only [hlen, htier, hix, hiy] at *
    exact h.link_north k hk m hm
  -- link_south
  · intro k hk m hm
    rw [hsouth k] at hm
    simp only [hlen, htier, hix, hiy] at *
    exact h.link_south k hk m hm
  -- link_east
  · intro k hk m hm
    rw [heast k] at hm
    simp only [hlen, htier, hix, hiy] at *
    by_cases ek : k = i
    · rw [if_pos ek] at hm
      injection hm with hm'
      subst hm'
      subst ek
      exact ⟨hj, ht, hx, hy⟩
    · rw [if_neg ek] at hm
      exact h.link_east k hk m hm
  -- link_west
  · intro k hk m hm
    rw [hwest k] at hm
    simp only [hlen, htier, hix, hiy] at *
    by_cases ek : k = j
    · rw [if_pos ek] at hm
      injection hm with hm'
      subst hm'
      subst ek
      exact ⟨hi, ht.symm, hx, hy.symm⟩
    · rw [if_neg ek] at hm
      exact h.link_west k hk m hm
  -- sym_north
  · intro k hk m hm
    rw [hnorth k] at hm
    rw [hsouth m]
    simp only [hlen] at hk
    exact h.sym_north k hk m hm
  -- sym_south
  · intro k hk m hm
    rw [hsouth k] at hm
    rw [hnorth m]
    simp only [hlen] at hk
    exact h.sym_south k hk m hm
  -- sym_east
  · intro k hk m hm
    rw [heast k] at hm
    rw [hwest m]
    simp only [hlen] at hk
    by_cases ek : k = i
    · subst ek
      rw [if_pos rfl] at hm
      injection hm with hm'
      subst hm'
      rw [if_pos rfl]
    · rw [if_neg ek] at hm
      have old := h.sym_east k hk m hm
      by_cases em : m = j
      · exfalso
        subst em
        rw [hs] at old
        exact Option.noConfusion old
      · rw [if_neg em]
        exact old
  -- sym_west
  · intro k hk m hm
    rw [hwest k] at hm
    rw [heast m]
    simp only [hlen] at hk
    by_cases ek : k = j
    · subst ek
      rw [if_pos rfl] at hm
      injection hm with hm'
      subst hm'
      rw [if_pos rfl]
    · rw [if_neg ek] at hm
      have old := h.sym_west k hk m hm
      by_cases em : m = i
      · exfalso
        subst em
        rw [hn] at old
        exact Option.noConfusion old
      · rw [if_neg em]
        exact old
  -- uniq
  · intro a b ha hb e1 e2 e3
    simp only [hlen] at ha hb
    rw [htier a, htier b] at e1
    rw [hix a, hix b] at e2
    rw [hiy a, hiy b] at e3
    exact h.uniq a b ha hb e1 e2 e3
  -- parent_of
  · intro k hk hkt
    simp only [hlen] at hk
    rw [htier k] at hkt
    obtain ⟨p, hp1, hp2, hp3, hp4, hp5, q, hq1, hq2⟩ := h.parent_of k hk hkt
    refine ⟨p, ?_, hp2, ?_, ?_, ?_, q, ?_, ?_⟩
    · rw [hparent k]; exact hp1
    · rw [htier p, htier k]; exact hp3
    · rw [hix p, hix k]; exact hp4
    · rw [hiy p, hiy k]; exact hp5
    · rw [hchildren p]; exact hq1
    · rw [hix k, hiy k]; exact hq2
  -- children_ok
  · intro k hk q hq
    simp only [hlen] at hk
    rw [hchildren k] at hq
    simp only [htier, hix, hiy, hparent, hchildren, hlen]
    exact h.children_ok k hk q hq
  -- corners
  · intro k hk
    simp only [hlen] at hk
    simp only [hidbl, hidbr, hidtl, hidtr, hwin, htier, hix, hiy]
    show _ ∧ _
    have e2 : (linkEW mg i j).windows.length = mg.windows.length := rfl
    have e5 : (linkEW mg i j).spacing = mg.spacing := rfl
    rw [e2, e5]
    exact h.corners k hk
  -- top_count
  · have e5 : (linkEW mg i j).spacing = mg.spacing := rfl
    have e6 : (linkEW mg i j).img_dim = mg.img_dim := rfl
    have e7 : (linkEW mg i j).cells_in_top_tier = mg.cells_in_top_tier := rfl
    show (linkEW mg i j).cells_in_top_tier = _
    rw [e7, h.top_count]
    unfold MultiGrid.n_rc MultiGrid.n_cc MultiGrid.nx MultiGrid.ny
    rw [e5, e6]
  -- top_le
  · show (linkEW mg i j).cells_in_top_tier ≤ _
    rw [hlen]
    exact h.top_le
  -- top_cells
  · intro k hk
    have e7 : (linkEW mg i j).cells_in_top_tier = mg.cells_in_top_tier := rfl
    rw [e7] at hk
    obtain ⟨t1, t2, t3⟩ := h.top_cells k hk
    have e5 : (linkEW mg i j).n_cc = mg.n_cc := rfl
    refine ⟨?_, ?_, ?_⟩
    · rw [htier k]; exact t1
    · rw [hix k, e5]; exact t2
    · rw [hiy k, e5]; exact t3
  -- tier0_top
  · intro k hk hk0
    simp only [hlen] at hk
    rw [htier k] at hk0
    have e7 : (linkEW mg i j).cells_in_top_tier = mg.cells_in_top_tier := rfl
    rw [e7]
    exact h.tier0_top k hk hk0

/- ------------------------------------------------------------------
reuseOrNew stage lemmas and reuse-option inversions.
------------------------------------------------------------------- -/

theorem ron_some (mg : MultiGrid) (v : Nat) (w : CorrWindow) :
    reuseOrNew mg (some v) w = (mg, v) := rfl

theorem ron_none (mg : MultiGrid) (w : CorrWindow) :
    (reuseOrNew mg none w).2 = mg.windows.length
    ∧ (reuseOrNew mg none w).1.windows = mg.windows ++ [w]
    ∧ winAt (reuseOrNew mg none w).1 mg.windows.length = w
    ∧ (reuseOrNew mg none w).2 < (reuseOrNew mg none w).1.windows.length := by
  refine ⟨rfl, rfl, ?_, ?_⟩
  · show (mg.windows ++ [w]).getD mg.windows.length default = w
    rw [gdAppendRight _ _ _ (Nat.le_refl _), Nat.sub_self]
    rfl
  · show mg.windows.length < (mg.windows ++ [w]).length
    simp

theorem ron_prefix (mg : MultiGrid) (r : Option Nat) (w : CorrWindow) :
    (∀ j, j < mg.windows.length →
      winAt (reuseOrNew mg r w).1 j = winAt mg j)
    ∧ mg.windows.length ≤ (reuseOrNew mg r w).1.windows.length := by
  cases r with
  | some v => exact ⟨fun j _ => rfl, Nat.le_refl _⟩
  | none =>
    constructor
    · intro j hj
      show (mg.windows ++ [w]).getD j default = mg.windows.getD j default
      exact gdAppendLeft _ _ j hj
    · show mg.windows.length ≤ (mg.windows ++ [w]).length
      simp

theorem reuseWest_inv (mg : MultiGrid) (c : GridCell) (v : Nat)
    (h : reuseWest mg c = some v) :
    ∃ w qw, c.west = some w ∧ (cellAt mg w).children = some qw
      ∧ v = (cellAt mg qw.br).id_tr := by
  cases hw : c.west with
  | none =>
    simp only [reuseWest, hw] at h
    exact Option.noConfusion h
  | some w =>
    cases hq : (cellAt mg w).children with
    | none =>
      simp only [reuseWest, hw, hq] at h
      exact Option.noConfusion h
    | some qw =>
      simp only [reuseWest, hw, hq, Option.some.injEq] at h
      exact ⟨w, qw, rfl, hq, h.symm⟩

theorem reuseSouth_inv (mg : MultiGrid) (c : GridCell) (v : Nat)
    (h : reuseSouth mg c = some v) :
    ∃ sb qs, c.south = some sb ∧ (cellAt mg sb).children = some qs
      ∧ v = (cellAt mg qs.tl).id_tr := by
  cases hw : c.south with
  | none =>
    simp only [reuseSouth, hw] at h
    exact Option.noConfusion h
  | some sb =>
    cases hq : (cellAt mg sb).children with
    | none =>
      simp only [reuseSouth, hw, hq] at h
      exact Option.noConfusion h
    | some qs =>
      simp only [reuseSouth, hw, hq, Option.some.injEq] at h
      exact ⟨sb, qs, rfl, hq, h.symm⟩

theorem reuseNorth_inv (mg : MultiGrid) (c : GridCell) (v : Nat)
    (h : reuseNorth mg c = some v) :
    ∃ nb qn, c.north = some nb ∧ (cellAt mg nb).children = some qn
      ∧ v = (cellAt mg qn.br).id_bl := by
  cases hw : c.north with
  | none =>
    simp only [reuseNorth, hw] at h
    exact Option.noConfusion h
  | some nb =>
    cases hq : (cellAt mg nb).children with
    | none =>
      simp only [reuseNorth, hw, hq] at h
      exact Option.noConfusion h
    | some qn =>
      simp only [reuseNorth, hw, hq, Option.some.injEq] at h
      exact ⟨nb, qn, rfl, hq, h.symm⟩

theorem reuseEast_inv (mg : MultiGrid) (c : GridCell) (v : Nat)
    (h : reuseEast mg c = some v) :
    ∃ eb qe, c.east = some eb ∧ (cellAt mg eb).children = some qe
      ∧ v = (cellAt mg qe.bl).id_tl := by
  cases hw : c.east with
  | none =>
    simp only [reuseEast, hw] at h
    exact Option.noConfusion h
  | some eb =>
    cases hq : (cellAt mg eb).children with
    | none =>
      simp only [reuseEast, hw, hq] at h
      exact Option.noConfusion h
    | some qe =>
      simp only [reuseEast, hw, hq, Option.some.injEq] at h
      exact ⟨eb, qe, rfl, hq, h.symm⟩

/-- In a well-formed mesh there is no cell at any child position of a
childless cell (such a cell's parent would have to be the childless cell
itself). -/
theorem no_cell_at_child_pos (mg : MultiGrid) (h : WF mg) (ci : Nat)
    (hci : ci < mg.cells.length) (hcn : (cellAt mg ci).children = none)
    (k : Nat) (hk : k < mg.cells.length)
    (ht : (cellAt mg k).tier = (cellAt mg ci).tier + 1)
    (hx : (cellAt mg k).ix / 2 = (cellAt mg ci).ix)
    (hy : (cellAt mg k).iy / 2 = (cellAt mg ci).iy) : False := by
  obtain ⟨p, hp1, hplt, hp3, hp4, hp5, q, hq1, _⟩ :=
    h.parent_of k hk (by omega)
  have hpt : (cellAt mg p).tier = (cellAt mg ci).tier := by omega
  have hpx : (cellAt mg p).ix = (cellAt mg ci).ix := by rw [hp4, hx]
  have hpy : (cellAt mg p).iy = (cellAt mg ci).iy := by rw [hp5, hy]
  have hpn : p < mg.cells.length := by omega
  have := h.uniq p ci hpn hci hpt hpx hpy
  rw [this, hcn] at hq1
  exact Option.noConfusion hq1

/- ------------------------------------------------------------------
The five window ids returned by create_new_corrWindows: in range, with
the coordinates of the cell's edge midpoints and centre at the child
tier spacing.
------------------------------------------------------------------- -/

theorem crw_spec (mg : MultiGrid) (ci : Nat) (h : WF mg)
    (hci : ci < mg.cells.length) :
    ((create_new_corrWindows mg ci).2.1
        < (create_new_corrWindows mg ci).1.windows.length
      ∧ (winAt (create_new_corrWindows mg ci).1
          (create_new_corrWindows mg ci).2.1).x
        = ((2 * (cellAt mg ci).ix : Nat) : ℚ)
            * hQ mg.spacing ((cellAt mg ci).tier + 1)
      ∧ (winAt (create_new_corrWindows mg ci).1
          (create_new_corrWindows mg ci).2.1).y
        = ((2 * (cellAt mg ci).iy + 1 : Nat) : ℚ)
            * hQ mg.spacing ((cellAt mg ci).tier + 1))
    ∧ ((create_new_corrWindows mg ci).2.2.1
        < (create_new_corrWindows mg ci).1.windows.length
      ∧ (winAt (create_new_corrWindows mg ci).1
          (create_new_corrWindows mg ci).2.2.1).x
        = ((2 * (cellAt mg ci).ix + 1 : Nat) : ℚ)
            * hQ mg.spacing ((cellAt mg ci).tier + 1)
      ∧ (winAt (create_new_corrWindows mg ci).1
          (create_new_corrWindows mg ci).2.2.1).y
        = ((2 * (cellAt mg ci).iy : Nat) : ℚ)
            * hQ mg.spacing ((cellAt mg ci).tier + 1))
    ∧ ((create_new_corrWindows mg ci).2.2.2.1
        < (create_new_corrWindows mg ci).1.windows.length
      ∧ (winAt (create_new_corrWindows mg ci).1
          (create_new_corrWindows mg ci).2.2.2.1).x
        = ((2 * (cellAt mg ci).ix + 1 : Nat) : ℚ)
            * hQ mg.spacing ((cellAt mg ci).tier + 1)
      ∧ (winAt (create_new_corrWindows mg ci).1
          (create_new_corrWindows mg ci).2.2.2.1).y
        = ((2 * (cellAt mg ci).iy + 1 : Nat) : ℚ)
            * hQ mg.spacing ((cellAt mg ci).tier + 1))
    ∧ ((create_new_corrWindows mg ci).2.2.2.2.1
        < (create_new_corrWindows mg ci).1.windows.length
      ∧ (winAt (create_new_corrWindows mg ci).1
          (create_new_corrWindows mg ci).2.2.2.2.1).x
        = ((2 * (cellAt mg ci).ix + 1 : Nat) : ℚ)
            * hQ mg.spacing ((cellAt mg ci).tier + 1)
      ∧ (winAt (create_new_corrWindows mg ci).1
          (create_new_corrWindows mg ci).2.2.2.2.1).y
        = ((2 * (cellAt mg ci).iy + 2 : Nat) : ℚ)
            * hQ mg.spacing ((cellAt mg ci).tier + 1))
    ∧ ((create_new_corrWindows mg ci).2.2.2.2.2
        < (create_new_corrWindows mg ci).1.windows.length
      ∧ (winAt (create_new_corrWindows mg ci).1
          (create_new_corrWindows mg ci).2.2.2.2.2).x
        = ((2 * (cellAt mg ci).ix + 2 : Nat) : ℚ)
            * hQ mg.spacing ((cellAt mg ci).tier + 1)
      ∧ (winAt (create_new_corrWindows mg ci).1
          (create_new_corrWindows mg ci).2.2.2.2.2).y
        = ((2 * (cellAt mg ci).iy + 1 : Nat) : ℚ)
            * hQ mg.spacing ((cellAt mg ci).tier + 1)) := by
  obtain ⟨⟨b1, b2, b3, b4⟩, ⟨xbl, ybl⟩, ⟨xbr, ybr⟩, ⟨xtl, ytl⟩, ⟨xtr, ytr⟩⟩ :=
    h.corners ci hci
  have hsucc := hQ_succ mg.spacing (cellAt mg ci).tier
  -- abbreviations
  set c := cellAt mg ci with hc
  set t := c.tier with htdef
  set hh := hQ mg.spacing (t + 1) with hhdef
  -- coordinate values of the cell corners at child-tier spacing
  have hblx : (winAt mg c.id_bl).x = ((2 * c.ix : Nat) : ℚ) * hh := by
    rw [xbl, hsucc]
    push_cast
    ring
  have hbly : (winAt mg c.id_bl).y = ((2 * c.iy : Nat) : ℚ) * hh := by
    rw [ybl, hsucc]
    push_cast
    ring
  have hbrx : (winAt mg c.id_br).x = ((2 * c.ix + 2 : Nat) : ℚ) * hh := by
    rw [xbr, hsucc]
    push_cast
    ring
  have htly : (winAt mg c.id_tl).y = ((2 * c.iy + 2 : Nat) : ℚ) * hh := by
    rw [ytl, hsucc]
    push_cast
    ring
  have hctrx : midQ (winAt mg c.id_bl).x (winAt mg c.id_br).x
      = ((2 * c.ix + 1 : Nat) : ℚ) * hh := by
    rw [xbl, xbr, hsucc, midQ_scale]
    push_cast
    ring
  have hctry : midQ (winAt mg c.id_bl).y (winAt mg c.id_tl).y
      = ((2 * c.iy + 1 : Nat) : ℚ) * hh := by
    rw [ybl, ytl, hsucc, midQ_scale]
    push_cast
    ring
  -- reused-id coordinate facts, one per direction
  have westSpec : ∀ v, reuseWest mg c = some v →
      v < mg.windows.length
      ∧ (winAt mg v).x = ((2 * c.ix : Nat) : ℚ) * hh
      ∧ (winAt mg v).y = ((2 * c.iy + 1 : Nat) : ℚ) * hh := by
    intro v hv
    obtain ⟨w, qw, hw, hwq, hvv⟩ := reuseWest_inv mg c v hv
    obtain ⟨hwn, hwt, hwx, hwy⟩ := h.link_west ci hci w hw
    obtain ⟨_, _, _, _, hqn, _, ⟨brt, brx, bry, _⟩, _, _⟩ :=
      h.children_ok w hwn qw hwq
    have hbrn : qw.br < mg.cells.length := by
      obtain ⟨o1, o2, o3, o4, o5, _⟩ := h.children_ok w hwn qw hwq
      omega
    obtain ⟨⟨_, _, _, c4⟩, _, _, _, ⟨cx, cy⟩⟩ := h.corners qw.br hbrn
    subst hvv
    refine ⟨c4, ?_, ?_⟩
    · rw [cx, brt, brx, hwt, hwx]
      push_cast
      ring
    · rw [cy, brt, bry, hwt, hwy]
      push_cast
      ring
  have southSpec : ∀ v, reuseSouth mg c = some v →
      v < mg.windows.length
      ∧ (winAt mg v).x = ((2 * c.ix + 1 : Nat) : ℚ) * hh
      ∧ (winAt mg v).y = ((2 * c.iy : Nat) : ℚ) * hh := by
    intro v hv
    obtain ⟨sb, qs, hw, hwq, hvv⟩ := reuseSouth_inv mg c v hv
    obtain ⟨hwn, hwt, hwx, hwy⟩ := h.link_south ci hci sb hw
    obtain ⟨_, _, _, _, hqn, _, _, ⟨tlt, tlx, tly, _⟩, _⟩ :=
      h.children_ok sb hwn qs hwq
    have htln : qs.tl < mg.cells.length := by
      obtain ⟨o1, o2, o3, o4, o5, _⟩ := h.children_ok sb hwn qs hwq
      omega
    obtain ⟨⟨_, _, _, c4⟩, _, _, _, ⟨cx, cy⟩⟩ := h.corners qs.tl htln
    subst hvv
    refine ⟨c4, ?_, ?_⟩
    · rw [cx, tlt, tlx, hwt, hwx]
      push_cast
      ring
    · rw [cy, tlt, tly, hwt]
      have : c.iy = (cellAt mg sb).iy + 1 := hwy
      rw [this]
      push_cast
      ring
  have northSpec : ∀ v, reuseNorth mg c = some v →
      v < mg.windows.length
      ∧ (winAt mg v).x = ((2 * c.ix + 1 : Nat) : ℚ) * hh
      ∧ (winAt mg v).y = ((2 * c.iy + 2 : Nat) : ℚ) * hh := by
    intro v hv
    obtain ⟨nb, qn, hw, hwq, hvv⟩ := reuseNorth_inv mg c v hv
    obtain ⟨hwn, hwt, hwx, hwy⟩ := h.link_north ci hci nb hw
    obtain ⟨_, _, _, _, hqn, _, ⟨brt, brx, bry, _⟩, _, _⟩ :=
      h.children_ok nb hwn qn hwq
    have hbrn : qn.br < mg.cells.length := by
      obtain ⟨o1, o2, o3, o4, o5, _⟩ := h.children_ok nb hwn qn hwq
      omega
    obtain ⟨⟨c1, _, _, _⟩, ⟨cx, cy⟩, _, _, _⟩ := h.corners qn.br hbrn
    subst hvv
    refine ⟨c1, ?_, ?_⟩
    · rw [cx, brt, brx, hwt, hwx]
    · rw [cy, brt, bry, hwt, hwy]
      push_cast
      ring
  have eastSpec : ∀ v, reuseEast mg c = some v →
      v < mg.windows.length
      ∧ (winAt mg v).x = ((2 * c.ix + 2 : Nat) : ℚ) * hh
      ∧ (winAt mg v).y = ((2 * c.iy + 1 : Nat) : ℚ) * hh := by
    intro v hv
    obtain ⟨eb, qe, hw, hwq, hvv⟩ := reuseEast_inv mg c v hv
    obtain ⟨hwn, hwt, hwx, hwy⟩ := h.link_east ci hci eb hw
    obtain ⟨_, _, _, _, hqn, ⟨blt, blx, bly, _⟩, _, _, _⟩ :=
      h.children_ok eb hwn qe hwq
    have hbln : qe.bl < mg.cells.length := by
      obtain ⟨o1, o2, o3, o4, o5, _⟩ := h.children_ok eb hwn qe hwq
      omega
    obtain ⟨⟨_, _, c3, _⟩, _, _, ⟨cx, cy⟩, _⟩ := h.corners qe.bl hbln
    subst hvv
    refine ⟨c3, ?_, ?_⟩
    · rw [cx, blt, blx, hwt, hwx]
      push_cast
      ring
    · rw [cy, blt, bly, hwt, hwy]
      push_cast
      ring
  -- the five stages
  simp only [create_new_corrWindows]
  rw [← hc]
  set w1 : CorrWindow :=
    ⟨(winAt mg c.id_bl).x, midQ (winAt mg c.id_bl).y (winAt mg c.id_tl).y,
     (winAt mg c.id_bl).WS⟩ with hw1
  set w2 : CorrWindow :=
    ⟨midQ (winAt mg c.id_bl).x (winAt mg c.id_br).x, (winAt mg c.id_bl).y,
     (winAt mg c.id_bl).WS⟩ with hw2
  set w3 : CorrWindow :=
    ⟨midQ (winAt mg c.id_bl).x (winAt mg c.id_br).x,
     midQ (winAt mg c.id_bl).y (winAt mg c.id_tl).y,
     (winAt mg c.id_bl).WS⟩ with hw3
  set w4 : CorrWindow :=
    ⟨midQ (winAt mg c.id_bl).x (winAt mg c.id_br).x, (winAt mg c.id_tl).y,
     (winAt mg c.id_bl).WS⟩ with hw4
  set w5 : CorrWindow :=
    ⟨(winAt mg c.id_br).x, midQ (winAt mg c.id_bl).y (winAt mg c.id_tl).y,
     (winAt mg c.id_bl).WS⟩ with hw5
  set m1 := reuseOrNew mg (reuseWest mg c) w1 with hm1
  set m2 := reuseOrNew m1.1 (reuseSouth mg c) w2 with hm2
  set m3 := appendWin m2.1 w3 with hm3
  set m4 := reuseOrNew m3.1 (reuseNorth mg c) w4 with hm4
  set m5 := reuseOrNew m4.1 (reuseEast mg c) w5 with hm5
  have p1 := ron_prefix mg (reuseWest mg c) w1
  have p2 := ron_prefix m1.1 (reuseSouth mg c) w2
  have p3 := ron_prefix m2.1 (none : Option Nat) w3
  have p4 := ron_prefix m3.1 (reuseNorth mg c) w4
  have p5 := ron_prefix m4.1 (reuseEast mg c) w5
  have p3' : (∀ j, j < m2.1.windows.length → winAt m3.1 j = winAt m2.1 j)
      ∧ m2.1.windows.length ≤ m3.1.windows.length := p3
  -- a helper to lift facts about earlier stages to m5
  have lift2 : ∀ v, v < m1.1.windows.length →
      winAt m5.1 v = winAt m1.1 v ∧ v < m5.1.windows.length := by
    intro v hv
    have h2 := p2.1 v hv
    have hv2 : v < m2.1.windows.length := Nat.lt_of_lt_of_le hv p2.2
    have h3 := p3'.1 v hv2
    have hv3 : v < m3.1.windows.length := Nat.lt_of_lt_of_le hv2 p3'.2
    have h4 := p4.1 v hv3
    have hv4 : v < m4.1.windows.length := Nat.lt_of_lt_of_le hv3 p4.2
    have h5 := p5.1 v hv4
    have hv5 : v < m5.1.windows.length := Nat.lt_of_lt_of_le hv4 p5.2
    exact ⟨by rw [h5, h4, h3, h2], hv5⟩
  have lift0 : ∀ v, v < mg.windows.length →
      winAt m5.1 v = winAt mg v ∧ v < m5.1.windows.length := by
    intro v hv
    have h1 := p1.1 v hv
    have hv1 : v < m1.1.windows.length := Nat.lt_of_lt_of_le hv p1.2
    obtain ⟨e, hb⟩ := lift2 v hv1
    exact ⟨by rw [e, h1], hb⟩
  have lift3 : ∀ v, v < m3.1.windows.length →
      winAt m5.1 v = winAt m3.1 v ∧ v < m5.1.windows.length := by
    intro v hv3
    have h4 := p4.1 v hv3
    have hv4 : v < m4.1.windows.length := Nat.lt_of_lt_of_le hv3 p4.2
    have h5 := p5.1 v hv4
    have hv5 : v < m5.1.windows.length := Nat.lt_of_lt_of_le hv4 p5.2
    exact ⟨by rw [h5, h4], hv5⟩
  refine ⟨?_, ?_, ?_, ?_, ?_⟩
  -- lm
  · cases hW : reuseWest mg c with
    | some v =>
      obtain ⟨hvb, hvx, hvy⟩ := westSpec v hW
      have hm1e : m1 = (mg, v) := by rw [hm1, hW]; rfl
      obtain ⟨he, hb⟩ := lift0 v hvb
      rw [hm1e]
      exact ⟨hb, by rw [he]; exact hvx, by rw [he]; exact hvy⟩
    | none =>
      obtain ⟨hidx, hwins, hwv, hbnd⟩ := ron_none mg w1
      have hm1n : m1 = reuseOrNew mg none w1 := by rw [hm1, hW]
      have hv1 : m1.2 < m1.1.windows.length := by rw [hm1n]; exact hbnd
      have hv1' : m1.2 = mg.windows.length := by rw [hm1n]; exact hidx
      obtain ⟨he, hb⟩ := lift2 m1.2 hv1
      refine ⟨hb, ?_, ?_⟩
      · rw [he, hv1']
        have : winAt m1.1 mg.windows.length = w1 := by rw [hm1n]; exact hwv
        rw [this]
        exact hblx
      · rw [he, hv1']
        have : winAt m1.1 mg.windows.length = w1 := by rw [hm1n]; exact hwv
        rw [this]
        exact hctry
  -- cb
  · cases hS : reuseSouth mg c with
    | some v =>
      obtain ⟨hvb, hvx, hvy⟩ := southSpec v hS
      have hm2e : m2 = (m1.1, v) := by rw [hm2, hS]; rfl
      obtain ⟨he, hb⟩ := lift0 v hvb
      rw [hm2e]
      exact ⟨hb, by rw [he]; exact hvx, by rw [he]; exact hvy⟩
    | none =>
      obtain ⟨hidx, hwins, hwv, hbnd⟩ := ron_none m1.1 w2
      have hm2n : m2 = reuseOrNew m1.1 none w2 := by rw [hm2, hS]
      have hv2 : m2.2 < m2.1.windows.length := by rw [hm2n]; exact hbnd
      have hv2' : m2.2 = m1.1.windows.length := by rw [hm2n]; exact hidx
      have hwv2 : winAt m2.1 m2.2 = w2 := by rw [hm2n, hidx]; exact hwv
      have hv3 : m2.2 < m3.1.windows.length := Nat.lt_of_lt_of_le hv2 p3'.2
      have he3 : winAt m3.1 m2.2 = w2 := by rw [p3'.1 m2.2 hv2, hwv2]
      obtain ⟨he, hb⟩ := lift3 m2.2 hv3
      refine ⟨hb, ?_, ?_⟩
      · rw [he, he3]
        exact hctrx
      · rw [he, he3]
        exact hbly
  -- cm
  · have hidx : m3.2 = m2.1.windows.length := rfl
    have hbnd : m3.2 < m3.1.windows.length := by
      rw [hidx]
      show m2.1.windows.length < (m2.1.windows ++ [w3]).length
      simp
    have hwv : winAt m3.1 m3.2 = w3 := by
      rw [hidx]
      show (m2.1.windows ++ [w3]).getD m2.1.windows.length default = w3
      rw [gdAppendRight _ _ _ (Nat.le_refl _), Nat.sub_self]
      rfl
    obtain ⟨he, hb⟩ := lift3 m3.2 hbnd
    refine ⟨hb, ?_, ?_⟩
    · rw [he, hwv]
      exact hctrx
    · rw [he, hwv]
      exact hctry
  -- ct
  · cases hN : reuseNorth mg c with
    | some v =>
      obtain ⟨hvb, hvx, hvy⟩ := northSpec v hN
      have hm4e : m4 = (m3.1, v) := by rw [hm4, hN]; rfl
      obtain ⟨he, hb⟩ := lift0 v hvb
      rw [hm4e]
      exact ⟨hb, by rw [he]; exact hvx, by rw [he]; exact hvy⟩
    | none =>
      obtain ⟨hidx, hwins, hwv, hbnd⟩ := ron_none m3.1 w4
      have hm4n : m4 = reuseOrNew m3.1 none w4 := by rw [hm4, hN]
      have hv4 : m4.2 < m4.1.windows.length := by rw [hm4n]; exact hbnd
      have hwv4 : winAt m4.1 m4.2 = w4 := by rw [hm4n, hidx]; exact hwv
      have h5 := p5.1 m4.2 hv4
      have hv5 : m4.2 < m5.1.windows.length := Nat.lt_of_lt_of_le hv4 p5.2
      refine ⟨hv5, ?_, ?_⟩
      · rw [h5, hwv4]
        exact hctrx
      · rw [h5, hwv4]
        exact htly
  -- rm
  · cases hE : reuseEast mg c with
    | some v =>
      obtain ⟨hvb, hvx, hvy⟩ := eastSpec v hE
      have hm5e : m5.2 = v := by rw [hm5, hE]; rfl
      obtain ⟨he, hb⟩ := lift0 v hvb
      rw [hm5e]
      exact ⟨hb, by rw [he]; exact hvx, by rw [he]; exact hvy⟩
    | none =>
      obtain ⟨hidx, hwins, hwv, hbnd⟩ := ron_none m4.1 w5
      have hm5n : m5 = reuseOrNew m4.1 none w5 := by rw [hm5, hE]
      have hv5 : m5.2 < m5.1.windows.length := by rw [hm5n]; exact hbnd
      have hwv5 : winAt m5.1 m5.2 = w5 := by rw [hm5n, hidx]; exact hwv
      refine ⟨hv5, ?_, ?_⟩
      · rw [hwv5]
        exact hbrx
      · rw [hwv5]
        exact hctry


/- ------------------------------------------------------------------
WF is preserved by the child-creation step, given window ids carrying
the edge-midpoint and centre coordinates of the split cell (exactly
what create_new_corrWindows returns, by crw_spec).
------------------------------------------------------------------- -/

theorem wf_makeChildren (mg : MultiGrid) (ci lm cb cm ct rm : Nat)
    (h : WF mg) (hci : ci < mg.cells.length)
    (hcn : (cellAt mg ci).children = none)
    (hlm : lm < mg.windows.length
      ∧ (winAt mg lm).x = ((2 * (cellAt mg ci).ix : Nat) : ℚ)
          * hQ mg.spacing ((cellAt mg ci).tier + 1)
      ∧ (winAt mg lm).y = ((2 * (cellAt mg ci).iy + 1 : Nat) : ℚ)
          * hQ mg.spacing ((cellAt mg ci).tier + 1))
    (hcb : cb < mg.windows.length
      ∧ (winAt mg cb).x = ((2 * (cellAt mg ci).ix + 1 : Nat) : ℚ)
          * hQ mg.spacing ((cellAt mg ci).tier + 1)
      ∧ (winAt mg cb).y = ((2 * (cellAt mg ci).iy : Nat) : ℚ)
          * hQ mg.spacing ((cellAt mg ci).tier + 1))
    (hcm : cm < mg.windows.length
      ∧ (winAt mg cm).x = ((2 * (cellAt mg ci).ix + 1 : Nat) : ℚ)
          * hQ mg.spacing ((cellAt mg ci).tier + 1)
      ∧ (winAt mg cm).y = ((2 * (cellAt mg ci).iy + 1 : Nat) : ℚ)
          * hQ mg.spacing ((cellAt mg ci).tier + 1))
    (hct : ct < mg.windows.length
      ∧ (winAt mg ct).x = ((2 * (cellAt mg ci).ix + 1 : Nat) : ℚ)
          * hQ mg.spacing ((cellAt mg ci).tier + 1)
      ∧ (winAt mg ct).y = ((2 * (cellAt mg ci).iy + 2 : Nat) : ℚ)
          * hQ mg.spacing ((cellAt mg ci).tier + 1))
    (hrm : rm < mg.windows.length
      ∧ (winAt mg rm).x = ((2 * (cellAt mg ci).ix + 2 : Nat) : ℚ)
          * hQ mg.spacing ((cellAt mg ci).tier + 1)
      ∧ (winAt mg rm).y = ((2 * (cellAt mg ci).iy + 1 : Nat) : ℚ)
          * hQ mg.spacing ((cellAt mg ci).tier + 1)) :
    WF (makeChildren mg ci lm cb cm ct rm).1 := by
  set M := (makeChildren mg ci lm cb cm ct rm).1 with hM
  have hlen : M.cells.length = mg.cells.length + 4 := by
    rw [hM]; exact (makeChildren_fields mg ci lm cb cm ct rm).2.2.2.2.2.2
  have hwM : M.windows = mg.windows := by
    rw [hM]; exact (makeChildren_fields mg ci lm cb cm ct rm).1
  have hwcnt : M.windows.length = mg.windows.length := by rw [hwM]
  have hwin : ∀ x, winAt M x = winAt mg x := by
    intro x; unfold winAt; rw [hwM]
  have hsp : M.spacing = mg.spacing := by
    rw [hM]; exact (makeChildren_fields mg ci lm cb cm ct rm).2.1
  have himg : M.img_dim = mg.img_dim := by
    rw [hM]; exact (makeChildren_fields mg ci lm cb cm ct rm).2.2.1
  have hctt : M.cells_in_top_tier = mg.cells_in_top_tier := by
    rw [hM]; exact (makeChildren_fields mg ci lm cb cm ct rm).2.2.2.1
  have hncc : M.n_cc = mg.n_cc := by
    unfold MultiGrid.n_cc MultiGrid.nx; rw [himg, hsp]
  have hnrc : M.n_rc = mg.n_rc := by
    unfold MultiGrid.n_rc MultiGrid.ny; rw [himg, hsp]
  have hcieq : cellAt M ci =
      { cellAt mg ci with
          children := some (Children.mk mg.cells.length (mg.cells.length + 1)
              (mg.cells.length + 2) (mg.cells.length + 3)) } := by
    rw [hM]; exact cellAt_makeChildren_ci mg ci lm cb cm ct rm hci
  have hbl0 : cellAt M mg.cells.length =
      { id_bl := (cellAt mg ci).id_bl, id_br := cb, id_tl := lm, id_tr := cm,
        tier := (cellAt mg ci).tier + 1,
        ix := 2 * (cellAt mg ci).ix, iy := 2 * (cellAt mg ci).iy,
        parent := some ci, children := none,
        north := none, east := none, south := none, west := none } := by
    rw [hM]; exact cellAt_makeChildren_bl mg ci lm cb cm ct rm hci
  have hbr0 : cellAt M (mg.cells.length + 1) =
      { id_bl := cb, id_br := (cellAt mg ci).id_br, id_tl := cm, id_tr := rm,
        tier := (cellAt mg ci).tier + 1,
        ix := 2 * (cellAt mg ci).ix + 1, iy := 2 * (cellAt mg ci).iy,
        parent := some ci, children := none,
        north := none, east := none, south := none, west := none } := by
    rw [hM]; exact cellAt_makeChildren_br mg ci lm cb cm ct rm hci
  have htl0 : cellAt M (mg.cells.length + 2) =
      { id_bl := lm, id_br := cm, id_tl := (cellAt mg ci).id_tl, id_tr := ct,
        tier := (cellAt mg ci).tier + 1,
        ix := 2 * (cellAt mg ci).ix, iy := 2 * (cellAt mg ci).iy + 1,
        parent := some ci, children := none,
        north := none, east := none, south := none, west := none } := by
    rw [hM]; exact cellAt_makeChildren_tl mg ci lm cb cm ct rm hci
  have htr0 : cellAt M (mg.cells.length + 3) =
      { id_bl := cm, id_br := rm, id_tl := ct, id_tr := (cellAt mg ci).id_tr,
        tier := (cellAt mg ci).tier + 1,
        ix := 2 * (cellAt mg ci).ix + 1, iy := 2 * (cellAt mg ci).iy + 1,
        parent := some ci, children := none,
        north := none, east := none, south := none, west := none } := by
    rw [hM]; exact cellAt_makeChildren_tr mg ci lm cb cm ct rm hci
  have hold0 : ∀ k, k ≠ ci → k < mg.cells.length →
      cellAt M k = cellAt mg k := by
    intro k e hk
    rw [hM]; exact cellAt_makeChildren_old mg ci lm cb cm ct rm k e hk
  have frange : ∀ k, k < M.cells.length →
      k < mg.cells.length
      ∨ (mg.cells.length ≤ k ∧ k < mg.cells.length + 4) := by
    intro k hk
    rw [hlen] at hk
    omega
  have fstat : ∀ k, k < mg.cells.length →
      (cellAt M k).tier = (cellAt mg k).tier
      ∧ (cellAt M k).ix = (cellAt mg k).ix
      ∧ (cellAt M k).iy = (cellAt mg k).iy
      ∧ (cellAt M k).parent = (cellAt mg k).parent
      ∧ (cellAt M k).id_bl = (cellAt mg k).id_bl
      ∧ (cellAt M k).id_br = (cellAt mg k).id_br
      ∧ (cellAt M k).id_tl = (cellAt mg k).id_tl
      ∧ (cellAt M k).id_tr = (cellAt mg k).id_tr
      ∧ (cellAt M k).north = (cellAt mg k).north
      ∧ (cellAt M k).east = (cellAt mg k).east
      ∧ (cellAt M k).south = (cellAt mg k).south
      ∧ (cellAt M k).west = (cellAt mg k).west := by
    intro k hk
    by_cases e : k = ci
    · subst e
      rw [hcieq]
      exact ⟨rfl, rfl, rfl, rfl, rfl, rfl, rfl, rfl, rfl, rfl, rfl, rfl⟩
    · rw [hold0 k e hk]
      exact ⟨rfl, rfl, rfl, rfl, rfl, rfl, rfl, rfl, rfl, rfl, rfl, rfl⟩
  have fchold : ∀ k, k < mg.cells.length → k ≠ ci →
      (cellAt M k).children = (cellAt mg k).children := by
    intro k hk e
    rw [hold0 k e hk]
  have fchci : (cellAt M ci).children
      = some (Children.mk mg.cells.length (mg.cells.length + 1)
          (mg.cells.length + 2) (mg.cells.length + 3)) := by
    rw [hcieq]
  have posM : ∀ k, mg.cells.length ≤ k → k < mg.cells.length + 4 →
      (cellAt M k).tier = (cellAt mg ci).tier + 1
      ∧ (cellAt M k).ix = 2 * (cellAt mg ci).ix + (k - mg.cells.length) % 2
      ∧ (cellAt M k).iy = 2 * (cellAt mg ci).iy + (k - mg.cells.length) / 2
      ∧ (cellAt M k).parent = some ci
      ∧ (cellAt M k).children = none
      ∧ (cellAt M k).north = none
      ∧ (cellAt M k).east = none
      ∧ (cellAt M k).south = none
      ∧ (cellAt M k).west = none := by
    intro k h1 h2
    have hk4 : k = mg.cells.length ∨ k = mg.cells.length + 1
        ∨ k = mg.cells.length + 2 ∨ k = mg.cells.length + 3 := by omega
    rcases hk4 with e | e | e | e <;>
      refine ⟨?_, ?_, ?_, ?_, ?_, ?_, ?_, ?_, ?_⟩ <;>
      (first
        | (rw [e, hbl0]; try rfl)
        | (rw [e, hbr0]; try rfl)
        | (rw [e, htl0]; try rfl)
        | (rw [e, htr0]; try rfl)) <;>
      simp <;> omega
  refine ⟨?_, ?_, ?_, ?_, ?_, ?_, ?_, ?_, ?_, ?_, ?_, ?_, ?_, ?_, ?_, ?_⟩
  -- link_north
  · intro i hi j hj
    rcases frange i hi with hi' | ⟨ha, hb⟩
    · obtain ⟨t1, x1, y1, _, _, _, _, _, n1, _, _, _⟩ := fstat i hi'
      rw [n1] at hj
      obtain ⟨hjlt, ht, hx, hy⟩ := h.link_north i hi' j hj
      obtain ⟨t2, x2, y2, _⟩ := fstat j hjlt
      exact ⟨by omega, by rw [t2, t1]; exact ht, by rw [x2, x1]; exact hx,
             by rw [y2, y1]; exact hy⟩
    · rw [(posM i ha hb).2.2.2.2.2.1] at hj
      exact Option.noConfusion hj
  -- link_south
  · intro i hi j hj
    rcases frange i hi with hi' | ⟨ha, hb⟩
    · obtain ⟨t1, x1, y1, _, _, _, _, _, _, _, s1, _⟩ := fstat i hi'
      rw [s1] at hj
      obtain ⟨hjlt, ht, hx, hy⟩ := h.link_south i hi' j hj
      obtain ⟨t2, x2, y2, _⟩ := fstat j hjlt
      exact ⟨by omega, by rw [t2, t1]; exact ht, by rw [x2, x1]; exact hx,
             by rw [y1, y2]; exact hy⟩
    · rw [(posM i ha hb).2.2.2.2.2.2.2.1] at hj
      exact Option.noConfusion hj
  -- link_east
  · intro i hi j hj
    rcases frange i hi with hi' | ⟨ha, hb⟩
    · obtain ⟨t1, x1, y1, _, _, _, _, _, _, e1, _, _⟩ := fstat i hi'
      rw [e1] at hj
      obtain ⟨hjlt, ht, hx, hy⟩ := h.link_east i hi' j hj
      obtain ⟨t2, x2, y2, _⟩ := fstat j hjlt
      exact ⟨by omega, by rw [t2, t1]; exact ht, by rw [x2, x1]; exact hx,
             by rw [y2, y1]; exact hy⟩
    · rw [(posM i ha hb).2.2.2.2.2.2.1] at hj
      exact Option.noConfusion hj
  -- link_west
  · intro i hi j hj
    rcases frange i hi with hi' | ⟨ha, hb⟩
    · obtain ⟨t1, x1, y1, _, _, _, _, _, _, _, _, w1⟩ := fstat i hi'
      rw [w1] at hj
      obtain ⟨hjlt, ht, hx, hy⟩ := h.link_west i hi' j hj
      obtain ⟨t2, x2, y2, _⟩ := fstat j hjlt
      exact ⟨by omega, by rw [t2, t1]; exact ht, by rw [x1, x2]; exact hx,
             by rw [y2, y1]; exact hy⟩
    · rw [(posM i ha hb).2.2.2.2.2.2.2.2] at hj
      exact Option.noConfusion hj
  -- sym_north
  · intro i hi j hj
    rcases frange i hi with hi' | ⟨ha, hb⟩
    · obtain ⟨_, _, _, _, _, _, _, _, n1, _, _, _⟩ := fstat i hi'
      rw [n1] at hj
      have hjlt := (h.link_north i hi' j hj).1
      obtain ⟨_, _, _, _, _, _, _, _, _, _, s2, _⟩ := fstat j hjlt
      rw [s2]
      exact h.sym_north i hi' j hj
    · rw [(posM i ha hb).2.2.2.2.2.1] at hj
      exact Option.noConfusion hj
  -- sym_south
  · intro i hi j hj
    rcases frange i hi with hi' | ⟨ha, hb⟩
    · obtain ⟨_, _, _, _, _, _, _, _, _, _, s1, _⟩ := fstat i hi'
      rw [s1] at hj
      have hjlt := (h.link_south i hi' j hj).1
      obtain ⟨_, _, _, _, _, _, _, _, n2, _, _, _⟩ := fstat j hjlt
      rw [n2]
      exact h.sym_south i hi' j hj
    · rw [(posM i ha hb).2.2.2.2.2.2.2.1] at hj
      exact Option.noConfusion hj
  -- sym_east
  · intro i hi j hj
    rcases frange i hi with hi' | ⟨ha, hb⟩
    · obtain ⟨_, _, _, _, _, _, _, _, _, e1, _, _⟩ := fstat i hi'
      rw [e1] at hj
      have hjlt := (h.link_east i hi' j hj).1
      obtain ⟨_, _, _, _, _, _, _, _, _, _, _, w2⟩ := fstat j hjlt
      rw [w2]
      exact h.sym_east i hi' j hj
    · rw [(posM i ha hb).2.2.2.2.2.2.1] at hj
      exact Option.noConfusion hj
  -- sym_west
  · intro i hi j hj
    rcases frange i hi with hi' | ⟨ha, hb⟩
    · obtain ⟨_, _, _, _, _, _, _, _, _, _, _, w1⟩ := fstat i hi'
      rw [w1] at hj
      have hjlt := (h.link_west i hi' j hj).1
      obtain ⟨_, _, _, _, _, _, _, _, _, e2, _, _⟩ := fstat j hjlt
      rw [e2]
      exact h.sym_west i hi' j hj
    · rw [(posM i ha hb).2.2.2.2.2.2.2.2] at hj
      exact Option.noConfusion hj
  -- uniq
  · intro i j hi hj ht hx hy
    rcases frange i hi with hi' | ⟨ha, hb⟩ <;>
      rcases frange j hj with hj' | ⟨ha', hb'⟩
    · obtain ⟨t1, x1, y1, _⟩ := fstat i hi'
      obtain ⟨t2, x2, y2, _⟩ := fstat j hj'
      rw [t1, t2] at ht
      rw [x1, x2] at hx
      rw [y1, y2] at hy
      exact h.uniq i j hi' hj' ht hx hy
    · obtain ⟨t1, x1, y1, _⟩ := fstat i hi'
      obtain ⟨t2, x2, y2, _⟩ := posM j ha' hb'
      rw [t1, t2] at ht
      rw [x1, x2] at hx
      rw [y1, y2] at hy
      exact (no_cell_at_child_pos mg h ci hci hcn i hi' (by omega)
        (by omega) (by omega)).elim
    · obtain ⟨t1, x1, y1, _⟩ := posM i ha hb
      obtain ⟨t2, x2, y2, _⟩ := fstat j hj'
      rw [t1, t2] at ht
      rw [x1, x2] at hx
      rw [y1, y2] at hy
      exact (no_cell_at_child_pos mg h ci hci hcn j hj' (by omega)
        (by omega) (by omega)).elim
    · obtain ⟨t1, x1, y1, _⟩ := posM i ha hb
      obtain ⟨t2, x2, y2, _⟩ := posM j ha' hb'
      rw [t1, t2] at ht
      rw [x1, x2] at hx
      rw [y1, y2] at hy
      omega
  -- parent_of
  · intro i hi hpos
    rcases frange i hi with hi' | ⟨ha, hb⟩
    · obtain ⟨t1, x1, y1, p1, _⟩ := fstat i hi'
      rw [t1] at hpos
      obtain ⟨p, hp1, hp2, hp3, hp4, hp5, q', hq1, hq2⟩ :=
        h.parent_of i hi' hpos
      have hpn : p < mg.cells.length := by omega
      have hpci : p ≠ ci := by
        intro e
        rw [e, hcn] at hq1
        exact Option.noConfusion hq1
      obtain ⟨pt, px, py, _⟩ := fstat p hpn
      refine ⟨p, by rw [p1]; exact hp1, hp2, by rw [pt, t1]; exact hp3,
        by rw [px, x1]; exact hp4, by rw [py, y1]; exact hp5,
        q', by rw [fchold p hpn hpci]; exact hq1, ?_⟩
      rw [x1, y1]
      exact hq2
    · obtain ⟨t1, x1, y1, p1, _⟩ := posM i ha hb
      obtain ⟨ct1, cx1, cy1, _⟩ := fstat ci hci
      refine ⟨ci, p1, by omega, by rw [ct1, t1], by rw [cx1, x1]; omega,
        by rw [cy1, y1]; omega,
        Children.mk mg.cells.length (mg.cells.length + 1)
          (mg.cells.length + 2) (mg.cells.length + 3), fchci, ?_⟩
      have hk4 : i = mg.cells.length ∨ i = mg.cells.length + 1
          ∨ i = mg.cells.length + 2 ∨ i = mg.cells.length + 3 := by omega
      rcases hk4 with e | e | e | e
      · have hdx : (cellAt M i).ix % 2 = 0 := by rw [x1, e]; omega
        have hdy : (cellAt M i).iy % 2 = 0 := by rw [y1, e]; omega
        rw [hdx, hdy, e]
        rfl
      · have hdx : (cellAt M i).ix % 2 = 1 := by rw [x1, e]; omega
        have hdy : (cellAt M i).iy % 2 = 0 := by rw [y1, e]; omega
        rw [hdx, hdy, e]
        rfl
      · have hdx : (cellAt M i).ix % 2 = 0 := by rw [x1, e]; omega
        have hdy : (cellAt M i).iy % 2 = 1 := by rw [y1, e]; omega
        rw [hdx, hdy, e]
        rfl
      · have hdx : (cellAt M i).ix % 2 = 1 := by rw [x1, e]; omega
        have hdy : (cellAt M i).iy % 2 = 1 := by rw [y1, e]; omega
        rw [hdx, hdy, e]
        rfl
  -- children_ok
  · intro i hi q' hq'
    rcases frange i hi with hi' | ⟨ha, hb⟩
    · by_cases e : i = ci
      · subst e
        rw [fchci] at hq'
        injection hq' with hqe
        subst hqe
        obtain ⟨t1, x1, y1, _⟩ := fstat i hci
        have d0 := posM mg.cells.length (by omega) (by omega)
        have d1 := posM (mg.cells.length + 1) (by omega) (by omega)
        have d2 := posM (mg.cells.length + 2) (by omega) (by omega)
        have d3 := posM (mg.cells.length + 3) (by omega) (by omega)
        refine ⟨hci, rfl, rfl, rfl,
          by show mg.cells.length + 3 < M.cells.length; omega, ?_, ?_, ?_, ?_⟩
        · exact ⟨by rw [d0.1, t1], by rw [d0.2.1, x1]; omega,
                 by rw [d0.2.2.1, y1]; omega, d0.2.2.2.1⟩
        · exact ⟨by rw [d1.1, t1], by rw [d1.2.1, x1]; omega,
                 by rw [d1.2.2.1, y1]; omega, d1.2.2.2.1⟩
        · exact ⟨by rw [d2.1, t1], by rw [d2.2.1, x1]; omega,
                 by rw [d2.2.2.1, y1]; omega, d2.2.2.2.1⟩
        · exact ⟨by rw [d3.1, t1], by rw [d3.2.1, x1]; omega,
                 by rw [d3.2.2.1, y1]; omega, d3.2.2.2.1⟩
      · rw [fchold i hi' e] at hq'
        obtain ⟨o1, o2, o3, o4, o5, db, dr, dl, dt⟩ :=
          h.children_ok i hi' q' hq'
        have hbn : q'.bl < mg.cells.length := by omega
        have hrn : q'.br < mg.cells.length := by omega
        have hln : q'.tl < mg.cells.length := by omega
        have htn : q'.tr < mg.cells.length := by omega
        obtain ⟨tb, xb, yb, pb, _⟩ := fstat q'.bl hbn
        obtain ⟨tr', xr, yr, pr, _⟩ := fstat q'.br hrn
        obtain ⟨tl', xl, yl, pl, _⟩ := fstat q'.tl hln
        obtain ⟨tt, xt, yt, pt, _⟩ := fstat q'.tr htn
        obtain ⟨t1, x1, y1, _⟩ := fstat i hi'
        refine ⟨o1, o2, o3, o4, by omega, ?_, ?_, ?_, ?_⟩
        · exact ⟨by rw [tb, t1]; exact db.1, by rw [xb, x1]; exact db.2.1,
                 by rw [yb, y1]; exact db.2.2.1, by rw [pb]; exact db.2.2.2⟩
        · exact ⟨by rw [tr', t1]; exact dr.1, by rw [xr, x1]; exact dr.2.1,
                 by rw [yr, y1]; exact dr.2.2.1, by rw [pr]; exact dr.2.2.2⟩
        · exact ⟨by rw [tl', t1]; exact dl.1, by rw [xl, x1]; exact dl.2.1,
                 by rw [yl, y1]; exact dl.2.2.1, by rw [pl]; exact dl.2.2.2⟩
        · exact ⟨by rw [tt, t1]; exact dt.1, by rw [xt, x1]; exact dt.2.1,
                 by rw [yt, y1]; exact dt.2.2.1, by rw [pt]; exact dt.2.2.2⟩
    · rw [(posM i ha hb).2.2.2.2.1] at hq'
      exact Option.noConfusion hq'
  -- corners
  · intro i hi
    have hoc := h.corners ci hci
    obtain ⟨⟨k1, k2, k3, k4⟩, ⟨a1, a2⟩, ⟨a3, a4⟩, ⟨a5, a6⟩, ⟨a7, a8⟩⟩ := hoc
    have hsucc := hQ_succ mg.spacing (cellAt mg ci).tier
    have hblx : (winAt mg (cellAt mg ci).id_bl).x
        = ((2 * (cellAt mg ci).ix : Nat) : ℚ)
            * hQ mg.spacing ((cellAt mg ci).tier + 1) := by
      rw [a1, hsucc]; push_cast; ring
    have hbly : (winAt mg (cellAt mg ci).id_bl).y
        = ((2 * (cellAt mg ci).iy : Nat) : ℚ)
            * hQ mg.spacing ((cellAt mg ci).tier + 1) := by
      rw [a2, hsucc]; push_cast; ring
    have hbrx : (winAt mg (cellAt mg ci).id_br).x
        = ((2 * (cellAt mg ci).ix + 2 : Nat) : ℚ)
            * hQ mg.spacing ((cellAt mg ci).tier + 1) := by
      rw [a3, hsucc]; push_cast; ring
    have hbry : (winAt mg (cellAt mg ci).id_br).y
        = ((2 * (cellAt mg ci).iy : Nat) : ℚ)
            * hQ mg.spacing ((cellAt mg ci).tier + 1) := by
      rw [a4, hsucc]; push_cast; ring
    have htlx : (winAt mg (cellAt mg ci).id_tl).x
        = ((2 * (cellAt mg ci).ix : Nat) : ℚ)
            * hQ mg.spacing ((cellAt mg ci).tier + 1) := by
      rw [a5, hsucc]; push_cast; ring
    have htly : (winAt mg (cellAt mg ci).id_tl).y
        = ((2 * (cellAt mg ci).iy + 2 : Nat) : ℚ)
            * hQ mg.spacing ((cellAt mg ci).tier + 1) := by
      rw [a6, hsucc]; push_cast; ring
    have htrx : (winAt mg (cellAt mg ci).id_tr).x
        = ((2 * (cellAt mg ci).ix + 2 : Nat) : ℚ)
            * hQ mg.spacing ((cellAt mg ci).tier + 1) := by
      rw [a7, hsucc]; push_cast; ring
    have htry : (winAt mg (cellAt mg ci).id_tr).y
        = ((2 * (cellAt mg ci).iy + 2 : Nat) : ℚ)
            * hQ mg.spacing ((cellAt mg ci).tier + 1) := by
      rw [a8, hsucc]; push_cast; ring
    rcases frange i hi with hi' | ⟨ha, hb⟩
    · obtain ⟨t1, x1, y1, _, b1', b2', b3', b4', _⟩ := fstat i hi'
      simp only [b1', b2', b3', b4', t1, x1, y1, hsp, hwcnt, hwin]
      exact h.corners i hi'
    · have hk4 : i = mg.cells.length ∨ i = mg.cells.length + 1
          ∨ i = mg.cells.length + 2 ∨ i = mg.cells.length + 3 := by omega
      rcases hk4 with e | e | e | e
      · simp only [e, hbl0, hsp, hwcnt, hwin]
        refine ⟨⟨k1, hcb.1, hlm.1, hcm.1⟩, ⟨hblx, ?_⟩, ⟨?_, hcb.2.2⟩,
                ⟨hlm.2.1, ?_⟩, ⟨?_, ?_⟩⟩
        · rw [hbly]
        · rw [hcb.2.1]; push_cast; ring
        · rw [hlm.2.2]; push_cast; ring
        · rw [hcm.2.1]; push_cast; ring
        · rw [hcm.2.2]; push_cast; ring
      · simp only [e, hbr0, hsp, hwcnt, hwin]
        refine ⟨⟨hcb.1, k2, hcm.1, hrm.1⟩, ⟨hcb.2.1, hcb.2.2⟩, ⟨?_, hbry⟩,
                ⟨hcm.2.1, ?_⟩, ⟨?_, ?_⟩⟩
        · rw [hbrx]; push_cast; ring
        · rw [hcm.2.2]; push_cast; ring
        · rw [hrm.2.1]; push_cast; ring
        · rw [hrm.2.2]; push_cast; ring
      · simp only [e, htl0, hsp, hwcnt, hwin]
        refine ⟨⟨hlm.1, hcm.1, k3, hct.1⟩, ⟨hlm.2.1, hlm.2.2⟩,
                ⟨?_, hcm.2.2⟩, ⟨htlx, ?_⟩, ⟨?_, ?_⟩⟩
        · rw [hcm.2.1]; push_cast; ring
        · rw [htly]; push_cast; ring
        · rw [hct.2.1]; push_cast; ring
        · rw [hct.2.2]; push_cast; ring
      · simp only [e, htr0, hsp, hwcnt, hwin]
        refine ⟨⟨hcm.1, hrm.1, hct.1, k4⟩, ⟨hcm.2.1, hcm.2.2⟩,
                ⟨?_, hrm.2.2⟩, ⟨hct.2.1, ?_⟩, ⟨?_, ?_⟩⟩
        · rw [hrm.2.1]; push_cast; ring
        · rw [hct.2.2]; push_cast; ring
        · rw [htrx]; push_cast; ring
        · rw [htry]; push_cast; ring
  -- top_count
  · rw [hctt, hncc, hnrc]
    exact h.top_count
  -- top_le
  · have := h.top_le
    rw [hctt]
    omega
  -- top_cells
  · intro k hk
    rw [hctt] at hk
    have hkn : k < mg.cells.length := by have := h.top_le; omega
    obtain ⟨t1, x1, y1, _⟩ := fstat k hkn
    obtain ⟨u1, u2, u3⟩ := h.top_cells k hk
    rw [t1, x1, y1, hncc]
    exact ⟨u1, u2, u3⟩
  -- tier0_top
  · intro i hi h0
    rw [hctt]
    rcases frange i hi with hi' | ⟨ha, hb⟩
    · obtain ⟨t1, _⟩ := fstat i hi'
      rw [t1] at h0
      exact h.tier0_top i hi' h0
    · rw [(posM i ha hb).1] at h0
      omega

/- ------------------------------------------------------------------
Single mutual-link description: everything except the two written link
fields is untouched.
------------------------------------------------------------------- -/

theorem linkNS_statics (mg : MultiGrid) (i j : Nat) (hne : i ≠ j)
    (hi : i < mg.cells.length) (hj : j < mg.cells.length) :
    (∀ k, staticEq (cellAt (linkNS mg i j) k) (cellAt mg k)
      ∧ (cellAt (linkNS mg i j) k).children = (cellAt mg k).children
      ∧ (cellAt (linkNS mg i j) k).east = (cellAt mg k).east
      ∧ (cellAt (linkNS mg i j) k).west = (cellAt mg k).west
      ∧ (k ≠ i → (cellAt (linkNS mg i j) k).north = (cellAt mg k).north)
      ∧ (k ≠ j → (cellAt (linkNS mg i j) k).south = (cellAt mg k).south))
    ∧ (cellAt (linkNS mg i j) i).north = some j
    ∧ (cellAt (linkNS mg i j) j).south = some i := by
  have D := cellAt_linkNS mg i j hne hi hj
  refine ⟨?_, ?_, ?_⟩
  · intro k
    rw [D k]
    by_cases e1 : k = i
    · subst e1
      rw [if_pos rfl]
      exact ⟨⟨rfl, rfl, rfl, rfl, rfl, rfl, rfl, rfl⟩, rfl, rfl, rfl,
        fun hc => absurd rfl hc, fun _ => rfl⟩
    · by_cases e2 : k = j
      · subst e2
        rw [if_neg e1, if_pos rfl]
        exact ⟨⟨rfl, rfl, rfl, rfl, rfl, rfl, rfl, rfl⟩, rfl, rfl, rfl,
          fun _ => rfl, fun hc => absurd rfl hc⟩
      · rw [if_neg e1, if_neg e2]
        exact ⟨⟨rfl, rfl, rfl, rfl, rfl, rfl, rfl, rfl⟩, rfl, rfl, rfl,
          fun _ => rfl, fun _ => rfl⟩
  · rw [D i, if_pos rfl]
  · rw [D j, if_neg (fun e => hne e.symm), if_pos rfl]

theorem linkEW_statics (mg : MultiGrid) (i j : Nat) (hne : i ≠ j)
    (hi : i < mg.cells.length) (hj : j < mg.cells.length) :
    (∀ k, staticEq (cellAt (linkEW mg i j) k) (cellAt mg k)
      ∧ (cellAt (linkEW mg i j) k).children = (cellAt mg k).children
      ∧ (cellAt (linkEW mg i j) k).north = (cellAt mg k).north
      ∧ (cellAt (linkEW mg i j) k).south = (cellAt mg k).south
      ∧ (k ≠ i → (cellAt (linkEW mg i j) k).east = (cellAt mg k).east)
      ∧ (k ≠ j → (cellAt (linkEW mg i j) k).west = (cellAt mg k).west))
    ∧ (cellAt (linkEW mg i j) i).east = some j
    ∧ (cellAt (linkEW mg i j) j).west = some i := by
  have D := cellAt_linkEW mg i j hne hi hj
  refine ⟨?_, ?_, ?_⟩
  · intro k
    rw [D k]
    by_cases e1 : k = i
    · subst e1
      rw [if_pos rfl]
      exact ⟨⟨rfl, rfl, rfl, rfl, rfl, rfl, rfl, rfl⟩, rfl, rfl, rfl,
        fun hc => absurd rfl hc, fun _ => rfl⟩
    · by_cases e2 : k = j
      · subst e2
        rw [if_neg e1, if_pos rfl]
        exact ⟨⟨rfl, rfl, rfl, rfl, rfl, rfl, rfl, rfl⟩, rfl, rfl, rfl,
          fun _ => rfl, fun hc => absurd rfl hc⟩
      · rw [if_neg e1, if_neg e2]
        exact ⟨⟨rfl, rfl, rfl, rfl, rfl, rfl, rfl, rfl⟩, rfl, rfl, rfl,
          fun _ => rfl, fun _ => rfl⟩
  · rw [D i, if_pos rfl]
  · rw [D j, if_neg (fun e => hne e.symm), if_pos rfl]

theorem staticEq_trans {c d e : GridCell} (h1 : staticEq c d)
    (h2 : staticEq d e) : staticEq c e := by
  obtain ⟨a1, a2, a3, a4, a5, a6, a7, a8⟩ := h1
  obtain ⟨b1, b2, b3, b4, b5, b6, b7, b8⟩ := h2
  exact ⟨a1.trans b1, a2.trans b2, a3.trans b3, a4.trans b4, a5.trans b5,
         a6.trans b6, a7.trans b7, a8.trans b8⟩

/- ------------------------------------------------------------------
The two-pair link blocks used by the sibling-link phase and by each
direction of update_child_neighbours: two parallel north/south (resp.
east/west) mutual links, with full preservation and description.
------------------------------------------------------------------- -/

theorem wf_linkNS2 (mg : MultiGrid) (a a' b b' : Nat) (h : WF mg)
    (ha : a < mg.cells.length) (ha' : a' < mg.cells.length)
    (hb : b < mg.cells.length) (hb' : b' < mg.cells.length)
    (hta : (cellAt mg a').tier = (cellAt mg a).tier)
    (hxa : (cellAt mg a').ix = (cellAt mg a).ix)
    (hya : (cellAt mg a').iy = (cellAt mg a).iy + 1)
    (htb : (cellAt mg b').tier = (cellAt mg b).tier)
    (hxb : (cellAt mg b').ix = (cellAt mg b).ix)
    (hyb : (cellAt mg b').iy = (cellAt mg b).iy + 1)
    (hab : a ≠ b) (habp : a ≠ b') (hapb : a' ≠ b) (hapbp : a' ≠ b')
    (hna : (cellAt mg a).north = none) (hnb : (cellAt mg b).north = none)
    (hsa : (cellAt mg a').south = none) (hsb : (cellAt mg b').south = none) :
    WF (linkNS (linkNS mg a a') b b')
    ∧ (linkNS (linkNS mg a a') b b').cells.length = mg.cells.length
    ∧ (linkNS (linkNS mg a a') b b').windows = mg.windows
    ∧ (linkNS (linkNS mg a a') b b').spacing = mg.spacing
    ∧ (linkNS (linkNS mg a a') b b').img_dim = mg.img_dim
    ∧ (linkNS (linkNS mg a a') b b').cells_in_top_tier = mg.cells_in_top_tier
    ∧ (linkNS (linkNS mg a a') b b').max_tier = mg.max_tier
    ∧ (∀ k, staticEq (cellAt (linkNS (linkNS mg a a') b b') k) (cellAt mg k)
        ∧ (cellAt (linkNS (linkNS mg a a') b b') k).children
            = (cellAt mg k).children
        ∧ (cellAt (linkNS (linkNS mg a a') b b') k).east = (cellAt mg k).east
        ∧ (cellAt (linkNS (linkNS mg a a') b b') k).west = (cellAt mg k).west
        ∧ (k ≠ a → k ≠ b →
            (cellAt (linkNS (linkNS mg a a') b b') k).north
              = (cellAt mg k).north)
        ∧ (k ≠ a' → k ≠ b' →
            (cellAt (linkNS (linkNS mg a a') b b') k).south
              = (cellAt mg k).south))
    ∧ (cellAt (linkNS (linkNS mg a a') b b') a).north = some a'
    ∧ (cellAt (linkNS (linkNS mg a a') b b') b).north = some b'
    ∧ (cellAt (linkNS (linkNS mg a a') b b') a').south = some a
    ∧ (cellAt (linkNS (linkNS mg a a') b b') b').south = some b := by
  have hne1 : a ≠ a' := by
    intro e
    rw [e] at hya
    omega
  have hne2 : b ≠ b' := by
    intro e
    rw [e] at hyb
    omega
  have hv1 := wf_linkNS mg a a' h ha ha' hta hxa hya hna hsa
  obtain ⟨d1, n1a, s1a⟩ := linkNS_statics mg a a' hne1 ha ha'
  have hf1 := linkNS_fields mg a a'
  have hlen1 : (linkNS mg a a').cells.length = mg.cells.length :=
    hf1.2.2.2.2.2.2
  have hb1 : b < (linkNS mg a a').cells.length := by omega
  have hb1' : b' < (linkNS mg a a').cells.length := by omega
  obtain ⟨tb', xb', yb', _⟩ := (d1 b').1
  obtain ⟨tb, xb, yb, _⟩ := (d1 b).1
  have hv2 := wf_linkNS (linkNS mg a a') b b' hv1 hb1 hb1'
    (by rw [tb', tb]; exact htb) (by rw [xb', xb]; exact hxb)
    (by rw [yb', yb]; exact hyb)
    (by rw [(d1 b).2.2.2.2.1 (fun e => hab e.symm)]; exact hnb)
    (by rw [(d1 b').2.2.2.2.2 (fun e => hapbp e.symm)]; exact hsb)
  obtain ⟨d2, n2b, s2b⟩ := linkNS_statics (linkNS mg a a') b b' hne2 hb1 hb1'
  have hf2 := linkNS_fields (linkNS mg a a') b b'
  refine ⟨hv2, by rw [hf2.2.2.2.2.2.2, hlen1], by rw [hf2.1, hf1.1],
    by rw [hf2.2.1, hf1.2.1], by rw [hf2.2.2.1, hf1.2.2.1],
    by rw [hf2.2.2.2.1, hf1.2.2.2.1], by rw [hf2.2.2.2.2.1, hf1.2.2.2.2.1],
    ?_, ?_, n2b, ?_, s2b⟩
  · intro k
    refine ⟨staticEq_trans (d2 k).1 (d1 k).1,
      by rw [(d2 k).2.1, (d1 k).2.1],
      by rw [(d2 k).2.2.1, (d1 k).2.2.1],
      by rw [(d2 k).2.2.2.1, (d1 k).2.2.2.1], ?_, ?_⟩
    · intro e1 e2
      rw [(d2 k).2.2.2.2.1 e2, (d1 k).2.2.2.2.1 e1]
    · intro e1 e2
      rw [(d2 k).2.2.2.2.2 e2, (d1 k).2.2.2.2.2 e1]
  · rw [(d2 a).2.2.2.2.1 hab]
    exact n1a
  · rw [(d2 a').2.2.2.2.2 hapbp]
    exact s1a

theorem wf_linkEW2 (mg : MultiGrid) (a a' b b' : Nat) (h : WF mg)
    (ha : a < mg.cells.length) (ha' : a' < mg.cells.length)
    (hb : b < mg.cells.length) (hb' : b' < mg.cells.length)
    (hta : (cellAt mg a').tier = (cellAt mg a).tier)
    (hxa : (cellAt mg a').ix = (cellAt mg a).ix + 1)
    (hya : (cellAt mg a').iy = (cellAt mg a).iy)
    (htb : (cellAt mg b').tier = (cellAt mg b).tier)
    (hxb : (cellAt mg b').ix = (cellAt mg b).ix + 1)
    (hyb : (cellAt mg b').iy = (cellAt mg b).iy)
    (hab : a ≠ b) (habp : a ≠ b') (hapb : a' ≠ b) (hapbp : a' ≠ b')
    (hna : (cellAt mg a).east = none) (hnb : (cellAt mg b).east = none)
    (hsa : (cellAt mg a').west = none) (hsb : (cellAt mg b').west = none) :
    WF (linkEW (linkEW mg a a') b b')
    ∧ (linkEW (linkEW mg a a') b b').cells.length = mg.cells.length
    ∧ (linkEW (linkEW mg a a') b b').windows = mg.windows
    ∧ (linkEW (linkEW mg a a') b b').spacing = mg.spacing
    ∧ (linkEW (linkEW mg a a') b b').img_dim = mg.img_dim
    ∧ (linkEW (linkEW mg a a') b b').cells_in_top_tier = mg.cells_in_top_tier
    ∧ (linkEW (linkEW mg a a') b b').max_tier = mg.max_tier
    ∧ (∀ k, staticEq (cellAt (linkEW (linkEW mg a a') b b') k) (cellAt mg k)
        ∧ (cellAt (linkEW (linkEW mg a a') b b') k).children
            = (cellAt mg k).children
        ∧ (cellAt (linkEW (linkEW mg a a') b b') k).north
            = (cellAt mg k).north
        ∧ (cellAt (linkEW (linkEW mg a a') b b') k).south
            = (cellAt mg k).south
        ∧ (k ≠ a → k ≠ b →
            (cellAt (linkEW (linkEW mg a a') b b') k).east
              = (cellAt mg k).east)
        ∧ (k ≠ a' → k ≠ b' →
            (cellAt (linkEW (linkEW mg a a') b b') k).west
              = (cellAt mg k).west))
    ∧ (cellAt (linkEW (linkEW mg a a') b b') a).east = some a'
    ∧ (cellAt (linkEW (linkEW mg a a') b b') b).east = some b'
    ∧ (cellAt (linkEW (linkEW mg a a') b b') a').west = some a
    ∧ (cellAt (linkEW (linkEW mg a a') b b') b').west = some b := by
  have hne1 : a ≠ a' := by
    intro e
    rw [e] at hxa
    omega
  have hne2 : b ≠ b' := by
    intro e
    rw [e] at hxb
    omega
  have hv1 := wf_linkEW mg a a' h ha ha' hta hxa hya hna hsa
  obtain ⟨d1, n1a, s1a⟩ := linkEW_statics mg a a' hne1 ha ha'
  have hf1 := linkEW_fields mg a a'
  have hlen1 : (linkEW mg a a').cells.length = mg.cells.length :=
    hf1.2.2.2.2.2.2
  have hb1 : b < (linkEW mg a a').cells.length := by omega
  have hb1' : b' < (linkEW mg a a').cells.length := by omega
  obtain ⟨tb', xb', yb', _⟩ := (d1 b').1
  obtain ⟨tb, xb, yb, _⟩ := (d1 b).1
  have hv2 := wf_linkEW (linkEW mg a a') b b' hv1 hb1 hb1'
    (by rw [tb', tb]; exact htb) (by rw [xb', xb]; exact hxb)
    (by rw [yb', yb]; exact hyb)
    (by rw [(d1 b).2.2.2.2.1 (fun e => hab e.symm)]; exact hnb)
    (by rw [(d1 b').2.2.2.2.2 (fun e => hapbp e.symm)]; exact hsb)
  obtain ⟨d2, n2b, s2b⟩ := linkEW_statics (linkEW mg a a') b b' hne2 hb1 hb1'
  have hf2 := linkEW_fields (linkEW mg a a') b b'
  refine ⟨hv2, by rw [hf2.2.2.2.2.2.2, hlen1], by rw [hf2.1, hf1.1],
    by rw [hf2.2.1, hf1.2.1], by rw [hf2.2.2.1, hf1.2.2.1],
    by rw [hf2.2.2.2.1, hf1.2.2.2.1], by rw [hf2.2.2.2.2.1, hf1.2.2.2.2.1],
    ?_, ?_, n2b, ?_, s2b⟩
  · intro k
    refine ⟨staticEq_trans (d2 k).1 (d1 k).1,
      by rw [(d2 k).2.1, (d1 k).2.1],
      by rw [(d2 k).2.2.1, (d1 k).2.2.1],
      by rw [(d2 k).2.2.2.1, (d1 k).2.2.2.1], ?_, ?_⟩
    · intro e1 e2
      rw [(d2 k).2.2.2.2.1 e2, (d1 k).2.2.2.2.1 e1]
    · intro e1 e2
      rw [(d2 k).2.2.2.2.2 e2, (d1 k).2.2.2.2.2 e1]
  · rw [(d2 a).2.2.2.2.1 hab]
    exact n1a
  · rw [(d2 a').2.2.2.2.2 hapbp]
    exact s1a

/- ------------------------------------------------------------------
The sibling-link phase: given four link-less cells in the 2x2 child
layout, establishes the eight mutual sibling links, preserving WF and
everything else.
------------------------------------------------------------------- -/

theorem siblingLinks_ok (mg : MultiGrid) (q : Children) (h : WF mg)
    (h1 : q.bl < mg.cells.length) (h2 : q.br < mg.cells.length)
    (h3 : q.tl < mg.cells.length) (h4 : q.tr < mg.cells.length)
    (t2 : (cellAt mg q.br).tier = (cellAt mg q.bl).tier)
    (t3 : (cellAt mg q.tl).tier = (cellAt mg q.bl).tier)
    (t4 : (cellAt mg q.tr).tier = (cellAt mg q.bl).tier)
    (x2 : (cellAt mg q.br).ix = (cellAt mg q.bl).ix + 1)
    (y2 : (cellAt mg q.br).iy = (cellAt mg q.bl).iy)
    (x3 : (cellAt mg q.tl).ix = (cellAt mg q.bl).ix)
    (y3 : (cellAt mg q.tl).iy = (cellAt mg q.bl).iy + 1)
    (x4 : (cellAt mg q.tr).ix = (cellAt mg q.bl).ix + 1)
    (y4 : (cellAt mg q.tr).iy = (cellAt mg q.bl).iy + 1)
    (ln1 : (cellAt mg q.bl).north = none)
    (ln2 : (cellAt mg q.br).north = none)
    (ls3 : (cellAt mg q.tl).south = none)
    (ls4 : (cellAt mg q.tr).south = none)
    (le1 : (cellAt mg q.bl).east = none)
    (le3 : (cellAt mg q.tl).east = none)
    (lw2 : (cellAt mg q.br).west = none)
    (lw4 : (cellAt mg q.tr).west = none) :
    WF (siblingLinks mg q)
    ∧ (siblingLinks mg q).cells.length = mg.cells.length
    ∧ (siblingLinks mg q).windows = mg.windows
    ∧ (siblingLinks mg q).spacing = mg.spacing
    ∧ (siblingLinks mg q).img_dim = mg.img_dim
    ∧ (siblingLinks mg q).cells_in_top_tier = mg.cells_in_top_tier
    ∧ (siblingLinks mg q).max_tier = mg.max_tier
    ∧ (∀ k, staticEq (cellAt (siblingLinks mg q) k) (cellAt mg k)
        ∧ (cellAt (siblingLinks mg q) k).children = (cellAt mg k).children)
    ∧ (∀ k, (k ≠ q.bl → k ≠ q.br →
          (cellAt (siblingLinks mg q) k).north = (cellAt mg k).north)
        ∧ (k ≠ q.tl → k ≠ q.tr →
          (cellAt (siblingLinks mg q) k).south = (cellAt mg k).south)
        ∧ (k ≠ q.bl → k ≠ q.tl →
          (cellAt (siblingLinks mg q) k).east = (cellAt mg k).east)
        ∧ (k ≠ q.br → k ≠ q.tr →
          (cellAt (siblingLinks mg q) k).west = (cellAt mg k).west))
    ∧ (cellAt (siblingLinks mg q) q.bl).north = some q.tl
    ∧ (cellAt (siblingLinks mg q) q.br).north = some q.tr
    ∧ (cellAt (siblingLinks mg q) q.tl).south = some q.bl
    ∧ (cellAt (siblingLinks mg q) q.tr).south = some q.br
    ∧ (cellAt (siblingLinks mg q) q.bl).east = some q.br
    ∧ (cellAt (siblingLinks mg q) q.tl).east = some q.tr
    ∧ (cellAt (siblingLinks mg q) q.br).west = some q.bl
    ∧ (cellAt (siblingLinks mg q) q.tr).west = some q.tl := by
  have ne12 : q.bl ≠ q.br := by intro e; rw [e] at x2; omega
  have ne13 : q.bl ≠ q.tl := by intro e; rw [e] at y3; omega
  have ne14 : q.bl ≠ q.tr := by intro e; rw [e] at y4; omega
  have ne23 : q.br ≠ q.tl := by intro e; rw [e] at y2; omega
  have ne24 : q.br ≠ q.tr := by intro e; rw [e] at y2; omega
  have ne34 : q.tl ≠ q.tr := by intro e; rw [e] at x3; omega
  obtain ⟨V1, L1, W1, P1, I1, C1, M1, D1, nbl, nbr, stl, str⟩ :=
    wf_linkNS2 mg q.bl q.tl q.br q.tr h h1 h3 h2 h4
      t3 x3 y3 (by omega) (by rw [x4, x2]) (by rw [y4, y2])
      ne12 ne14 ne23.symm ne34 ln1 ln2 ls3 ls4
  set S1 := linkNS (linkNS mg q.bl q.tl) q.br q.tr with hS1
  obtain ⟨tb2, xb2, yb2, _⟩ := (D1 q.br).1
  obtain ⟨tb1, xb1, yb1, _⟩ := (D1 q.bl).1
  obtain ⟨tb4, xb4, yb4, _⟩ := (D1 q.tr).1
  obtain ⟨tb3, xb3, yb3, _⟩ := (D1 q.tl).1
  obtain ⟨V2, L2, W2, P2, I2, C2, M2, D2, ebl, etl, wbr, wtr⟩ :=
    wf_linkEW2 S1 q.bl q.br q.tl q.tr V1 (by omega) (by omega)
      (by omega) (by omega)
      (by rw [tb2, tb1]; exact t2) (by rw [xb2, xb1]; exact x2)
      (by rw [yb2, yb1]; exact y2)
      (by rw [tb4, tb3, t4, t3]) (by rw [xb4, xb3, x4, x3])
      (by rw [yb4, yb3, y4, y3])
      ne13 ne14 ne23 ne24
      (by rw [(D1 q.bl).2.2.1]; exact le1)
      (by rw [(D1 q.tl).2.2.1]; exact le3)
      (by rw [(D1 q.br).2.2.2.1]; exact lw2)
      (by rw [(D1 q.tr).2.2.2.1]; exact lw4)
  have hSeq : siblingLinks mg q = linkEW (linkEW S1 q.bl q.br) q.tl q.tr := rfl
  rw [hSeq]
  refine ⟨V2, by rw [L2, L1], by rw [W2, W1], by rw [P2, P1],
    by rw [I2, I1], by rw [C2, C1], by rw [M2, M1], ?_, ?_,
    ?_, ?_, ?_, ?_, ebl, etl, wbr, wtr⟩
  · intro k
    exact ⟨staticEq_trans (D2 k).1 (D1 k).1,
      by rw [(D2 k).2.1, (D1 k).2.1]⟩
  · intro k
    refine ⟨?_, ?_, ?_, ?_⟩
    · intro e1 e2
      rw [(D2 k).2.2.1, (D1 k).2.2.2.2.1 e1 e2]
    · intro e1 e2
      rw [(D2 k).2.2.2.1, (D1 k).2.2.2.2.2 e1 e2]
    · intro e1 e2
      rw [(D2 k).2.2.2.2.1 e1 e2, (D1 k).2.2.1]
    · intro e1 e2
      rw [(D2 k).2.2.2.2.2 e1 e2, (D1 k).2.2.2.1]
  · rw [(D2 q.bl).2.2.1]
    exact nbl
  · rw [(D2 q.br).2.2.1]
    exact nbr
  · rw [(D2 q.tl).2.2.2.1]
    exact stl
  · rw [(D2 q.tr).2.2.2.1]
    exact str

theorem pc_refl (mg : MultiGrid) : PreservesCells mg mg :=
  ⟨rfl, rfl, rfl, rfl, rfl, rfl,
   fun _ => ⟨⟨rfl, rfl, rfl, rfl, rfl, rfl, rfl, rfl⟩, rfl⟩⟩

theorem pc_trans {a b c : MultiGrid} (h1 : PreservesCells a b)
    (h2 : PreservesCells b c) : PreservesCells a c := by
  obtain ⟨l1, w1, s1, i1, c1, m1, f1⟩ := h1
  obtain ⟨l2, w2, s2, i2, c2, m2, f2⟩ := h2
  exact ⟨l2.trans l1, w2.trans w1, s2.trans s1, i2.trans i1, c2.trans c1,
    m2.trans m1,
    fun k => ⟨staticEq_trans (f2 k).1 (f1 k).1, ((f2 k).2).trans ((f1 k).2)⟩⟩

theorem ucn_decomp (mg : MultiGrid) (ci : Nat) (q : Children)
    (hq : (cellAt mg ci).children = some q) :
    update_child_neighbours mg ci
      = ucnW (ucnS (ucnE (ucnN mg ci q) ci q) ci q) ci q := by
  unfold update_child_neighbours ucnN ucnE ucnS ucnW
  rw [hq]

theorem ucnN_ok (mg : MultiGrid) (ci : Nat) (h : WF mg)
    (hci : ci < mg.cells.length) (q : Children)
    (hq : (cellAt mg ci).children = some q)
    (ntl : (cellAt mg q.tl).north = none)
    (ntr : (cellAt mg q.tr).north = none) :
    WF (ucnN mg ci q)
    ∧ PreservesCells mg (ucnN mg ci q)
    ∧ (∀ k, (cellAt (ucnN mg ci q) k).east = (cellAt mg k).east)
    ∧ (∀ k, (cellAt (ucnN mg ci q) k).west = (cellAt mg k).west)
    ∧ (∀ k, (cellAt (ucnN mg ci q) k).north ≠ (cellAt mg k).north →
        k = q.tl ∨ k = q.tr)
    ∧ (∀ k, (cellAt (ucnN mg ci q) k).south ≠ (cellAt mg k).south →
        (cellAt mg k).tier = (cellAt mg ci).tier + 1
        ∧ (cellAt mg k).iy = 2 * (cellAt mg ci).iy + 2) := by
  obtain ⟨hlt, eBR, eTL, eTR, hE5, cbl, cbr, ctl, ctr⟩ :=
    h.children_ok ci hci q hq
  have hq3 : q.tl < mg.cells.length := by omega
  have hq4 : q.tr < mg.cells.length := by omega
  cases hN : (cellAt mg ci).north with
  | none =>
    have e : ucnN mg ci q = mg := by unfold ucnN; rw [hN]
    rw [e]
    exact ⟨h, pc_refl mg, fun _ => rfl, fun _ => rfl,
      fun _ hne => absurd rfl hne, fun _ hne => absurd rfl hne⟩
  | some nb =>
    obtain ⟨hnb, htnb, hxnb, hynb⟩ := h.link_north ci hci nb hN
    cases hQn : (cellAt mg nb).children with
    | none =>
      have e : ucnN mg ci q = mg := by simp only [ucnN, hN, hQn]
      rw [e]
      exact ⟨h, pc_refl mg, fun _ => rfl, fun _ => rfl,
        fun _ hne => absurd rfl hne, fun _ hne => absurd rfl hne⟩
    | some qn =>
      have e : ucnN mg ci q
          = linkNS (linkNS mg q.tl qn.bl) q.tr qn.br := by
        simp only [ucnN, hN, hQn]
      obtain ⟨hlt', eQBR, _, _, hQ5, dbl, dbr, _, _⟩ :=
        h.children_ok nb hnb qn hQn
      have hqnb : qn.bl < mg.cells.length := by omega
      have hqnr : qn.br < mg.cells.length := by omega
      have hsn1 : (cellAt mg qn.bl).south = none := by
        cases hs : (cellAt mg qn.bl).south with
        | none => rfl
        | some m =>
          obtain ⟨hm, htm, hxm, hym⟩ := h.link_south qn.bl hqnb m hs
          have hmt : m = q.tl :=
            h.uniq m q.tl hm hq3 (by omega) (by omega) (by omega)
          have hsym := h.sym_south qn.bl hqnb m hs
          rw [hmt, ntl] at hsym
          exact Option.noConfusion hsym
      have hsn2 : (cellAt mg qn.br).south = none := by
        cases hs : (cellAt mg qn.br).south with
        | none => rfl
        | some m =>
          obtain ⟨hm, htm, hxm, hym⟩ := h.link_south qn.br hqnr m hs
          have hmt : m = q.tr :=
            h.uniq m q.tr hm hq4 (by omega) (by omega) (by omega)
          have hsym := h.sym_south qn.br hqnr m hs
          rw [hmt, ntr] at hsym
          exact Option.noConfusion hsym
      have ne1 : q.tl ≠ q.tr := by omega
      have ne2 : q.tl ≠ qn.br := by
        intro e2
        have := ctl.2.2.1
        rw [e2] at this
        omega
      have ne3 : qn.bl ≠ q.tr := by
        intro e2
        have := dbl.2.2.1
        rw [e2] at this
        omega
      have ne4 : qn.bl ≠ qn.br := by omega
      obtain ⟨V, L, W, P, I, C, M, D, _, _, _, _⟩ :=
        wf_linkNS2 mg q.tl qn.bl q.tr qn.br h hq3 hqnb hq4 hqnr
          (by omega) (by omega) (by omega)
          (by omega) (by omega) (by omega)
          ne1 ne2 ne3 ne4 ntl ntr hsn1 hsn2
      rw [e]
      refine ⟨V, ⟨L, W, P, I, C, M, fun k => ⟨(D k).1, (D k).2.1⟩⟩,
        fun k => (D k).2.2.1, fun k => (D k).2.2.2.1, ?_, ?_⟩
      · intro k hne
        by_cases e1 : k = q.tl
        · exact Or.inl e1
        · by_cases e2 : k = q.tr
          · exact Or.inr e2
          · exact absurd ((D k).2.2.2.2.1 e1 e2) hne
      · intro k hne
        by_cases e1 : k = qn.bl
        · subst e1
          exact ⟨by omega, by omega⟩
        · by_cases e2 : k = qn.br
          · subst e2
            exact ⟨by omega, by omega⟩
          · exact absurd ((D k).2.2.2.2.2 e1 e2) hne

theorem ucnE_ok (mg : MultiGrid) (ci : Nat) (h : WF mg)
    (hci : ci < mg.cells.length) (q : Children)
    (hq : (cellAt mg ci).children = some q)
    (ebr : (cellAt mg q.br).east = none)
    (etr : (cellAt mg q.tr).east = none) :
    WF (ucnE mg ci q)
    ∧ PreservesCells mg (ucnE mg ci q)
    ∧ (∀ k, (cellAt (ucnE mg ci q) k).north = (cellAt mg k).north)
    ∧ (∀ k, (cellAt (ucnE mg ci q) k).south = (cellAt mg k).south)
    ∧ (∀ k, (cellAt (ucnE mg ci q) k).east ≠ (cellAt mg k).east →
        k = q.br ∨ k = q.tr)
    ∧ (∀ k, (cellAt (ucnE mg ci q) k).west ≠ (cellAt mg k).west →
        (cellAt mg k).tier = (cellAt mg ci).tier + 1
        ∧ (cellAt mg k).ix = 2 * (cellAt mg ci).ix + 2) := by
  obtain ⟨hlt, eBR, eTL, eTR, hE5, cbl, cbr, ctl, ctr⟩ :=
    h.children_ok ci hci q hq
  have hq2 : q.br < mg.cells.length := by omega
  have hq4 : q.tr < mg.cells.length := by omega
  cases hN : (cellAt mg ci).east with
  | none =>
    have e : ucnE mg ci q = mg := by simp only [ucnE, hN]
    rw [e]
    exact ⟨h, pc_refl mg, fun _ => rfl, fun _ => rfl,
      fun _ hne => absurd rfl hne, fun _ hne => absurd rfl hne⟩
  | some nb =>
    obtain ⟨hnb, htnb, hxnb, hynb⟩ := h.link_east ci hci nb hN
    cases hQn : (cellAt mg nb).children with
    | none =>
      have e : ucnE mg ci q = mg := by simp only [ucnE, hN, hQn]
      rw [e]
      exact ⟨h, pc_refl mg, fun _ => rfl, fun _ => rfl,
        fun _ hne => absurd rfl hne, fun _ hne => absurd rfl hne⟩
    | some qe =>
      have e : ucnE mg ci q
          = linkEW (linkEW mg q.br qe.bl) q.tr qe.tl := by
        simp only [ucnE, hN, hQn]
      obtain ⟨hlt', _, eQTL, _, hQ5, dbl, _, dtl, _⟩ :=
        h.children_ok nb hnb qe hQn
      have hqeb : qe.bl < mg.cells.length := by omega
      have hqet : qe.tl < mg.cells.length := by omega
      have hw1 : (cellAt mg qe.bl).west = none := by
        cases hs : (cellAt mg qe.bl).west with
        | none => rfl
        | some m =>
          obtain ⟨hm, htm, hxm, hym⟩ := h.link_west qe.bl hqeb m hs
          have hmt : m = q.br :=
            h.uniq m q.br hm hq2 (by omega) (by omega) (by omega)
          have hsym := h.sym_west qe.bl hqeb m hs
          rw [hmt, ebr] at hsym
          exact Option.noConfusion hsym
      have hw2 : (cellAt mg qe.tl).west = none := by
        cases hs : (cellAt mg qe.tl).west with
        | none => rfl
        | some m =>
          obtain ⟨hm, htm, hxm, hym⟩ := h.link_west qe.tl hqet m hs
          have hmt : m = q.tr :=
            h.uniq m q.tr hm hq4 (by omega) (by omega) (by omega)
          have hsym := h.sym_west qe.tl hqet m hs
          rw [hmt, etr] at hsym
          exact Option.noConfusion hsym
      have ne1 : q.br ≠ q.tr := by omega
      have ne2 : q.br ≠ qe.tl := by
        intro e2
        have := cbr.2.2.1
        rw [e2] at this
        omega
      have ne3 : qe.bl ≠ q.tr := by
        intro e2
        have := dbl.2.2.1
        rw [e2] at this
        omega
      have ne4 : qe.bl ≠ qe.tl := by omega
      obtain ⟨V, L, W, P, I, C, M, D, _, _, _, _⟩ :=
        wf_linkEW2 mg q.br qe.bl q.tr qe.tl h hq2 hqeb hq4 hqet
          (by omega) (by omega) (by omega)
          (by omega) (by omega) (by omega)
          ne1 ne2 ne3 ne4 ebr etr hw1 hw2
      rw [e]
      refine ⟨V, ⟨L, W, P, I, C, M, fun k => ⟨(D k).1, (D k).2.1⟩⟩,
        fun k => (D k).2.2.1, fun k => (D k).2.2.2.1, ?_, ?_⟩
      · intro k hne
        by_cases e1 : k = q.br
        · exact Or.inl e1
        · by_cases e2 : k = q.tr
          · exact Or.inr e2
          · exact absurd ((D k).2.2.2.2.1 e1 e2) hne
      · intro k hne
        by_cases e1 : k = qe.bl
        · subst e1
          exact ⟨by omega, by omega⟩
        · by_cases e2 : k = qe.tl
          · subst e2
            exact ⟨by omega, by omega⟩
          · exact absurd ((D k).2.2.2.2.2 e1 e2) hne

theorem ucnS_ok (mg : MultiGrid) (ci : Nat) (h : WF mg)
    (hci : ci < mg.cells.length) (q : Children)
    (hq : (cellAt mg ci).children = some q)
    (sbl : (cellAt mg q.bl).south = none)
    (sbr : (cellAt mg q.br).south = none) :
    WF (ucnS mg ci q)
    ∧ PreservesCells mg (ucnS mg ci q)
    ∧ (∀ k, (cellAt (ucnS mg ci q) k).east = (cellAt mg k).east)
    ∧ (∀ k, (cellAt (ucnS mg ci q) k).west = (cellAt mg k).west)
    ∧ (∀ k, (cellAt (ucnS mg ci q) k).south ≠ (cellAt mg k).south →
        k = q.bl ∨ k = q.br)
    ∧ (∀ k, (cellAt (ucnS mg ci q) k).north ≠ (cellAt mg k).north →
        (cellAt mg k).tier = (cellAt mg ci).tier + 1
        ∧ (cellAt mg k).iy + 1 = 2 * (cellAt mg ci).iy) := by
  obtain ⟨hlt, eBR, eTL, eTR, hE5, cbl, cbr, ctl, ctr⟩ :=
    h.children_ok ci hci q hq
  have hq1 : q.bl < mg.cells.length := by omega
  have hq2 : q.br < mg.cells.length := by omega
  cases hN : (cellAt mg ci).south with
  | none =>
    have e : ucnS mg ci q = mg := by simp only [ucnS, hN]
    rw [e]
    exact ⟨h, pc_refl mg, fun _ => rfl, fun _ => rfl,
      fun _ hne => absurd rfl hne, fun _ hne => absurd rfl hne⟩
  | some nb =>
    obtain ⟨hnb, htnb, hxnb, hynb⟩ := h.link_south ci hci nb hN
    cases hQn : (cellAt mg nb).children with
    | none =>
      have e : ucnS mg ci q = mg := by simp only [ucnS, hN, hQn]
      rw [e]
      exact ⟨h, pc_refl mg, fun _ => rfl, fun _ => rfl,
        fun _ hne => absurd rfl hne, fun _ hne => absurd rfl hne⟩
    | some qs =>
      have e : ucnS mg ci q
          = linkNS (linkNS mg qs.tl q.bl) qs.tr q.br := by
        simp only [ucnS, hN, hQn]
      obtain ⟨hlt', _, eQTL, eQTR, hQ5, _, _, dtl, dtr⟩ :=
        h.children_ok nb hnb qs hQn
      have hqst : qs.tl < mg.cells.length := by omega
      have hqsr : qs.tr < mg.cells.length := by omega
      have hn1 : (cellAt mg qs.tl).north = none := by
        cases hs : (cellAt mg qs.tl).north with
        | none => rfl
        | some m =>
          obtain ⟨hm, htm, hxm, hym⟩ := h.link_north qs.tl hqst m hs
          have hmt : m = q.bl :=
            h.uniq m q.bl hm hq1 (by omega) (by omega) (by omega)
          have hsym := h.sym_north qs.tl hqst m hs
          rw [hmt, sbl] at hsym
          exact Option.noConfusion hsym
      have hn2 : (cellAt mg qs.tr).north = none := by
        cases hs : (cellAt mg qs.tr).north with
        | none => rfl
        | some m =>
          obtain ⟨hm, htm, hxm, hym⟩ := h.link_north qs.tr hqsr m hs
          have hmt : m = q.br :=
            h.uniq m q.br hm hq2 (by omega) (by omega) (by omega)
          have hsym := h.sym_north qs.tr hqsr m hs
          rw [hmt, sbr] at hsym
          exact Option.noConfusion hsym
      have ne1 : qs.tl ≠ qs.tr := by omega
      have ne2 : qs.tl ≠ q.br := by
        intro e2
        have := dtl.2.2.1
        rw [e2] at this
        omega
      have ne3 : q.bl ≠ qs.tr := by
        intro e2
        have := cbl.2.2.1
        rw [e2] at this
        omega
      have ne4 : q.bl ≠ q.br := by omega
      obtain ⟨V, L, W, P, I, C, M, D, _, _, _, _⟩ :=
        wf_linkNS2 mg qs.tl q.bl qs.tr q.br h hqst hq1 hqsr hq2
          (by omega) (by omega) (by omega)
          (by omega) (by omega) (by omega)
          ne1 ne2 ne3 ne4 hn1 hn2 sbl sbr
      rw [e]
      refine ⟨V, ⟨L, W, P, I, C, M, fun k => ⟨(D k).1, (D k).2.1⟩⟩,
        fun k => (D k).2.2.1, fun k => (D k).2.2.2.1, ?_, ?_⟩
      · intro k hne
        by_cases e1 : k = q.bl
        · exact Or.inl e1
        · by_cases e2 : k = q.br
          · exact Or.inr e2
          · exact absurd ((D k).2.2.2.2.2 e1 e2) hne
      · intro k hne
        by_cases e1 : k = qs.tl
        · subst e1
          exact ⟨by omega, by omega⟩
        · by_cases e2 : k = qs.tr
          · subst e2
            exact ⟨by omega, by omega⟩
          · exact absurd ((D k).2.2.2.2.1 e1 e2) hne

theorem ucnW_ok (mg : MultiGrid) (ci : Nat) (h : WF mg)
    (hci : ci < mg.cells.length) (q : Children)
    (hq : (cellAt mg ci).children = some q)
    (wbl : (cellAt mg q.bl).west = none)
    (wtl : (cellAt mg q.tl).west = none) :
    WF (ucnW mg ci q)
    ∧ PreservesCells mg (ucnW mg ci q)
    ∧ (∀ k, (cellAt (ucnW mg ci q) k).north = (cellAt mg k).north)
    ∧ (∀ k, (cellAt (ucnW mg ci q) k).south = (cellAt mg k).south)
    ∧ (∀ k, (cellAt (ucnW mg ci q) k).west ≠ (cellAt mg k).west →
        k = q.bl ∨ k = q.tl)
    ∧ (∀ k, (cellAt (ucnW mg ci q) k).east ≠ (cellAt mg k).east →
        (cellAt mg k).tier = (cellAt mg ci).tier + 1
        ∧ (cellAt mg k).ix + 1 = 2 * (cellAt mg ci).ix) := by
  obtain ⟨hlt, eBR, eTL, eTR, hE5, cbl, cbr, ctl, ctr⟩ :=
    h.children_ok ci hci q hq
  have hq1 : q.bl < mg.cells.length := by omega
  have hq3 : q.tl < mg.cells.length := by omega
  cases hN : (cellAt mg ci).west with
  | none =>
    have e : ucnW mg ci q = mg := by simp only [ucnW, hN]
    rw [e]
    exact ⟨h, pc_refl mg, fun _ => rfl, fun _ => rfl,
      fun _ hne => absurd rfl hne, fun _ hne => absurd rfl hne⟩
  | some nb =>
    obtain ⟨hnb, htnb, hxnb, hynb⟩ := h.link_west ci hci nb hN
    cases hQn : (cellAt mg nb).children with
    | none =>
      have e : ucnW mg ci q = mg := by simp only [ucnW, hN, hQn]
      rw [e]
      exact ⟨h, pc_refl mg, fun _ => rfl, fun _ => rfl,
        fun _ hne => absurd rfl hne, fun _ hne => absurd rfl hne⟩
    | some qw =>
      have e : ucnW mg ci q
          = linkEW (linkEW mg qw.br q.bl) qw.tr q.tl := by
        simp only [ucnW, hN, hQn]
      obtain ⟨hlt', eQBR, _, eQTR, hQ5, _, dbr, _, dtr⟩ :=
        h.children_ok nb hnb qw hQn
      have hqwb : qw.br < mg.cells.length := by omega
      have hqwt : qw.tr < mg.cells.length := by omega
      have he1 : (cellAt mg qw.br).east = none := by
        cases hs : (cellAt mg qw.br).east with
        | none => rfl
        | some m =>
          obtain ⟨hm, htm, hxm, hym⟩ := h.link_east qw.br hqwb m hs
          have hmt : m = q.bl :=
            h.uniq m q.bl hm hq1 (by omega) (by omega) (by omega)
          have hsym := h.sym_east qw.br hqwb m hs
          rw [hmt, wbl] at hsym
          exact Option.noConfusion hsym
      have he2 : (cellAt mg qw.tr).east = none := by
        cases hs : (cellAt mg qw.tr).east with
        | none => rfl
        | some m =>
          obtain ⟨hm, htm, hxm, hym⟩ := h.link_east qw.tr hqwt m hs
          have hmt : m = q.tl :=
            h.uniq m q.tl hm hq3 (by omega) (by omega) (by omega)
          have hsym := h.sym_east qw.tr hqwt m hs
          rw [hmt, wtl] at hsym
          exact Option.noConfusion hsym
      have ne1 : qw.br ≠ qw.tr := by omega
      have ne2 : qw.br ≠ q.tl := by
        intro e2
        have := dbr.2.2.1
        rw [e2] at this
        omega
      have ne3 : q.bl ≠ qw.tr := by
        intro e2
        have := cbl.2.2.1
        rw [e2] at this
        omega
      have ne4 : q.bl ≠ q.tl := by omega
      obtain ⟨V, L, W, P, I, C, M, D, _, _, _, _⟩ :=
        wf_linkEW2 mg qw.br q.bl qw.tr q.tl h hqwb hq1 hqwt hq3
          (by omega) (by omega) (by omega)
          (by omega) (by omega) (by omega)
          ne1 ne2 ne3 ne4 he1 he2 wbl wtl
      rw [e]
      refine ⟨V, ⟨L, W, P, I, C, M, fun k => ⟨(D k).1, (D k).2.1⟩⟩,
        fun k => (D k).2.2.1, fun k => (D k).2.2.2.1, ?_, ?_⟩
      · intro k hne
        by_cases e1 : k = q.bl
        · exact Or.inl e1
        · by_cases e2 : k = q.tl
          · exact Or.inr e2
          · exact absurd ((D k).2.2.2.2.2 e1 e2) hne
      · intro k hne
        by_cases e1 : k = qw.br
        · subst e1
          exact ⟨by omega, by omega⟩
        · by_cases e2 : k = qw.tr
          · subst e2
            exact ⟨by omega, by omega⟩
          · exact absurd ((D k).2.2.2.2.1 e1 e2) hne

/- ------------------------------------------------------------------
`update_child_neighbours` preserves WF and the cell data, given the
post-sibling-link layout of the four fresh children.
------------------------------------------------------------------- -/

theorem ucn_ok (mg : MultiGrid) (ci : Nat) (h : WF mg)
    (hci : ci < mg.cells.length) (q : Children)
    (hq : (cellAt mg ci).children = some q)
    (ntl : (cellAt mg q.tl).north = none)
    (ntr : (cellAt mg q.tr).north = none)
    (ebr : (cellAt mg q.br).east = none)
    (etr : (cellAt mg q.tr).east = none)
    (sbl : (cellAt mg q.bl).south = none)
    (sbr : (cellAt mg q.br).south = none)
    (wbl : (cellAt mg q.bl).west = none)
    (wtl : (cellAt mg q.tl).west = none) :
    WF (update_child_neighbours mg ci)
    ∧ PreservesCells mg (update_child_neighbours mg ci) := by
  obtain ⟨hlt, eBR, eTL, eTR, hE5, cbl, cbr, ctl, ctr⟩ :=
    h.children_ok ci hci q hq
  obtain ⟨V1, P1, E1, W1, N1, S1⟩ := ucnN_ok mg ci h hci q hq ntl ntr
  set M1 := ucnN mg ci q with hM1
  have hci1 : ci < M1.cells.length := by rw [P1.1]; exact hci
  have hqc1 : (cellAt M1 ci).children = some q := by
    rw [(P1.2.2.2.2.2.2 ci).2]; exact hq
  have ebr1 : (cellAt M1 q.br).east = none := by rw [E1]; exact ebr
  have etr1 : (cellAt M1 q.tr).east = none := by rw [E1]; exact etr
  obtain ⟨V2, P2, N2, S2, E2, W2⟩ := ucnE_ok M1 ci V1 hci1 q hqc1 ebr1 etr1
  set M2 := ucnE M1 ci q with hM2
  have P12 : PreservesCells mg M2 := pc_trans P1 P2
  have hci2 : ci < M2.cells.length := by rw [P12.1]; exact hci
  have hqc2 : (cellAt M2 ci).children = some q := by
    rw [(P12.2.2.2.2.2.2 ci).2]; exact hq
  have sbl1 : (cellAt M1 q.bl).south = none := by
    by_cases hch : (cellAt M1 q.bl).south = (cellAt mg q.bl).south
    · rw [hch]; exact sbl
    · obtain ⟨hta, hya⟩ := S1 q.bl hch
      exact absurd hya (by omega)
  have sbr1 : (cellAt M1 q.br).south = none := by
    by_cases hch : (cellAt M1 q.br).south = (cellAt mg q.br).south
    · rw [hch]; exact sbr
    · obtain ⟨hta, hya⟩ := S1 q.br hch
      exact absurd hya (by omega)
  have sbl2 : (cellAt M2 q.bl).south = none := by rw [S2]; exact sbl1
  have sbr2 : (cellAt M2 q.br).south = none := by rw [S2]; exact sbr1
  obtain ⟨V3, P3, E3, W3, S3, N3⟩ := ucnS_ok M2 ci V2 hci2 q hqc2 sbl2 sbr2
  set M3 := ucnS M2 ci q with hM3
  have P13 : PreservesCells mg M3 := pc_trans P12 P3
  have hci3 : ci < M3.cells.length := by rw [P13.1]; exact hci
  have hqc3 : (cellAt M3 ci).children = some q := by
    rw [(P13.2.2.2.2.2.2 ci).2]; exact hq
  have wbl1 : (cellAt M1 q.bl).west = none := by rw [W1]; exact wbl
  have wtl1 : (cellAt M1 q.tl).west = none := by rw [W1]; exact wtl
  have wbl2 : (cellAt M2 q.bl).west = none := by
    by_cases hch : (cellAt M2 q.bl).west = (cellAt M1 q.bl).west
    · rw [hch]; exact wbl1
    · obtain ⟨hta, hxa⟩ := W2 q.bl hch
      have e1 := (P1.2.2.2.2.2.2 q.bl).1.2.1
      have e2 := (P1.2.2.2.2.2.2 ci).1.2.1
      rw [e1, e2] at hxa
      exact absurd hxa (by omega)
  have wtl2 : (cellAt M2 q.tl).west = none := by
    by_cases hch : (cellAt M2 q.tl).west = (cellAt M1 q.tl).west
    · rw [hch]; exact wtl1
    · obtain ⟨hta, hxa⟩ := W2 q.tl hch
      have e1 := (P1.2.2.2.2.2.2 q.tl).1.2.1
      have e2 := (P1.2.2.2.2.2.2 ci).1.2.1
      rw [e1, e2] at hxa
      exact absurd hxa (by omega)
  have wbl3 : (cellAt M3 q.bl).west = none := by rw [W3]; exact wbl2
  have wtl3 : (cellAt M3 q.tl).west = none := by rw [W3]; exact wtl2
  obtain ⟨V4, P4, N4, S4, W4, E4⟩ := ucnW_ok M3 ci V3 hci3 q hqc3 wbl3 wtl3
  rw [ucn_decomp mg ci q hq]
  exact ⟨V4, pc_trans P13 P4⟩

/- ------------------------------------------------------------------
The non-recursive tail of `split` satisfies the split contract: WF is
preserved (also when the refinement error aborts after the children
were created), the mesh grows by exactly four cells and one to five
windows, old cells keep their data, and the four fresh children are
link-stitched leaves of the next tier.
------------------------------------------------------------------- -/

theorem cellAt_oob (mg : MultiGrid) (k : Nat) (h : mg.cells.length ≤ k) :
    cellAt mg k = default := by
  unfold cellAt
  exact List.getD_eq_default _ _ h

set_option maxHeartbeats 2000000 in
theorem splitTail_ok (mg : MultiGrid) (ci : Nat) (h : WF mg)
    (hci : ci < mg.cells.length)
    (hcn : (cellAt mg ci).children = none) :
    SplitOK mg (splitTail mg ci).1 (cellAt mg ci).tier
    ∧ (splitTail mg ci).1.cells.length = mg.cells.length + 4
    ∧ (cellAt (splitTail mg ci).1 ci).children
        = some (Children.mk mg.cells.length (mg.cells.length + 1)
            (mg.cells.length + 2) (mg.cells.length + 3))
    ∧ (∀ k, mg.cells.length ≤ k → k < mg.cells.length + 4 →
        (cellAt (splitTail mg ci).1 k).children = none
        ∧ (cellAt (splitTail mg ci).1 k).tier = (cellAt mg ci).tier + 1)
    ∧ mg.windows.length + 1 ≤ (splitTail mg ci).1.windows.length
    ∧ (splitTail mg ci).1.windows.length ≤ mg.windows.length + 5
    ∧ (∀ k, k ≠ ci →
        (cellAt (splitTail mg ci).1 k).children = (cellAt mg k).children)
    ∧ ((cellAt mg ci).tier < mg.max_tier →
        (splitTail mg ci).2 = none
        ∧ (splitTail mg ci).1.max_tier = mg.max_tier)
    ∧ (mg.max_tier ≤ (cellAt mg ci).tier →
        mg.spacing / 2 ^ mg.max_tier % 2 = 0 →
        (splitTail mg ci).2 = none
        ∧ (splitTail mg ci).1.max_tier = mg.max_tier + 1)
    ∧ (splitTail mg ci).1.windows = (create_new_corrWindows mg ci).1.windows
    ∧ (cellAt (splitTail mg ci).1 mg.cells.length).id_tr
        = (create_new_corrWindows mg ci).2.2.2.1 := by
  set r := create_new_corrWindows mg ci with hr
  set mc := makeChildren r.1 ci r.2.1 r.2.2.1 r.2.2.2.1 r.2.2.2.2.1
    r.2.2.2.2.2 with hmc
  have hn' : r.1.cells.length = mg.cells.length := by
    rw [hr, crw_cells]
  have hcA : ∀ k, cellAt r.1 k = cellAt mg k := by
    intro k
    unfold cellAt
    rw [hr, crw_cells]
  have hWFr : WF r.1 := by rw [hr]; exact wf_crw mg ci h
  have hWr1 : mg.windows.length + 1 ≤ r.1.windows.length := by
    rw [hr]; exact (crw_windows_bounds mg ci).1
  have hWr5 : r.1.windows.length ≤ mg.windows.length + 5 := by
    rw [hr]; exact (crw_windows_bounds mg ci).2
  have hwpre : ∀ j, j < mg.windows.length → winAt r.1 j = winAt mg j := by
    intro j hj
    rw [hr]
    exact crw_winAt_prefix mg ci j hj
  have hspr : r.1.spacing = mg.spacing := by
    rw [hr]; exact (crw_fields mg ci).1
  have himgr : r.1.img_dim = mg.img_dim := by
    rw [hr]; exact (crw_fields mg ci).2.1
  have hcttr : r.1.cells_in_top_tier = mg.cells_in_top_tier := by
    rw [hr]; exact (crw_fields mg ci).2.2.1
  have hmtr : r.1.max_tier = mg.max_tier := by
    rw [hr]; exact (crw_fields mg ci).2.2.2.1
  have hcir : ci < r.1.cells.length := by omega
  have hcnr : (cellAt r.1 ci).children = none := by rw [hcA]; exact hcn
  have hspec := crw_spec mg ci h hci
  rw [← hr] at hspec
  obtain ⟨hLM, hCB, hCM, hCT, hRM⟩ := hspec
  have hWFmc : WF mc.1 := by
    rw [hmc]
    exact wf_makeChildren r.1 ci r.2.1 r.2.2.1 r.2.2.2.1 r.2.2.2.2.1
      r.2.2.2.2.2 hWFr hcir hcnr
      ⟨hLM.1, by rw [hcA ci, hspr]; exact hLM.2.1,
       by rw [hcA ci, hspr]; exact hLM.2.2⟩
      ⟨hCB.1, by rw [hcA ci, hspr]; exact hCB.2.1,
       by rw [hcA ci, hspr]; exact hCB.2.2⟩
      ⟨hCM.1, by rw [hcA ci, hspr]; exact hCM.2.1,
       by rw [hcA ci, hspr]; exact hCM.2.2⟩
      ⟨hCT.1, by rw [hcA ci, hspr]; exact hCT.2.1,
       by rw [hcA ci, hspr]; exact hCT.2.2⟩
      ⟨hRM.1, by rw [hcA ci, hspr]; exact hRM.2.1,
       by rw [hcA ci, hspr]; exact hRM.2.2⟩
  have hf := makeChildren_fields r.1 ci r.2.1 r.2.2.1 r.2.2.2.1 r.2.2.2.2.1
    r.2.2.2.2.2
  rw [← hmc] at hf
  have hcellsmc : mc.1.cells.length = mg.cells.length + 4 := by
    rw [hf.2.2.2.2.2.2, hn']
  have hCIeq := cellAt_makeChildren_ci r.1 ci r.2.1 r.2.2.1 r.2.2.2.1
    r.2.2.2.2.1 r.2.2.2.2.2 hcir
  rw [← hmc, hn', hcA ci] at hCIeq
  have hBL := cellAt_makeChildren_bl r.1 ci r.2.1 r.2.2.1 r.2.2.2.1
    r.2.2.2.2.1 r.2.2.2.2.2 hcir
  rw [← hmc, hn', hcA ci] at hBL
  have hBR := cellAt_makeChildren_br r.1 ci r.2.1 r.2.2.1 r.2.2.2.1
    r.2.2.2.2.1 r.2.2.2.2.2 hcir
  rw [← hmc, hn', hcA ci] at hBR
  have hTL := cellAt_makeChildren_tl r.1 ci r.2.1 r.2.2.1 r.2.2.2.1
    r.2.2.2.2.1 r.2.2.2.2.2 hcir
  rw [← hmc, hn', hcA ci] at hTL
  have hTR := cellAt_makeChildren_tr r.1 ci r.2.1 r.2.2.1 r.2.2.2.1
    r.2.2.2.2.1 r.2.2.2.2.2 hcir
  rw [← hmc, hn', hcA ci] at hTR
  have hOLD : ∀ k, k ≠ ci → k < mg.cells.length → cellAt mc.1 k
      = cellAt mg k := by
    intro k hk hklt
    have e := cellAt_makeChildren_old r.1 ci r.2.1 r.2.2.1 r.2.2.2.1
      r.2.2.2.2.1 r.2.2.2.2.2 k hk (by omega)
    rw [← hmc] at e
    rw [e, hcA k]
  have hstat3 : ∀ j, j < mg.cells.length →
      staticEq (cellAt mc.1 j) (cellAt mg j) := by
    intro j hj
    by_cases e : j = ci
    · subst e
      rw [hCIeq]
      exact ⟨rfl, rfl, rfl, rfl, rfl, rfl, rfl, rfl⟩
    · rw [hOLD j e hj]
      exact ⟨rfl, rfl, rfl, rfl, rfl, rfl, rfl, rfl⟩
  have hch3 : ∀ j, j < mg.cells.length → j ≠ ci →
      (cellAt mc.1 j).children = (cellAt mg j).children := by
    intro j hj e
    rw [hOLD j e hj]
  have hchci3 : (cellAt mc.1 ci).children
      = some (Children.mk mg.cells.length (mg.cells.length + 1)
          (mg.cells.length + 2) (mg.cells.length + 3)) := by
    rw [hCIeq]
  have hQ2 : mc.2 = Children.mk mg.cells.length (mg.cells.length + 1)
      (mg.cells.length + 2) (mg.cells.length + 3) := by
    rw [hmc, makeChildren_snd, hn']
  have hred : splitTail mg ci =
      (match (if mc.1.max_tier < (cellAt mc.1 mc.2.bl).tier
              then new_tier mc.1 else (mc.1, none)) with
       | (mg4, some e) => (mg4, some e)
       | (mg4, none) =>
         (update_child_neighbours
           (siblingLinks (registerGrid mg4 ci r.2.1 r.2.2.1 r.2.2.2.1
             r.2.2.2.2.1 r.2.2.2.2.2) mc.2) ci, none)) := by
    rw [hmc, hr]
    rfl
  -- the shared assembly of the final conclusion from a description of
  -- the result state relative to the post-children state mc.1
  have assemble : ∀ (R : MultiGrid) (err : Option Err), WF R →
      R.cells.length = mg.cells.length + 4 →
      R.windows = r.1.windows →
      R.spacing = mg.spacing → R.img_dim = mg.img_dim →
      R.cells_in_top_tier = mg.cells_in_top_tier →
      mg.max_tier ≤ R.max_tier →
      (∀ k, staticEq (cellAt R k) (cellAt mc.1 k)
        ∧ (cellAt R k).children = (cellAt mc.1 k).children) →
      ((cellAt mg ci).tier < mg.max_tier →
        err = none ∧ R.max_tier = mg.max_tier) →
      (mg.max_tier ≤ (cellAt mg ci).tier →
        mg.spacing / 2 ^ mg.max_tier % 2 = 0 →
        err = none ∧ R.max_tier = mg.max_tier + 1) →
      (SplitOK mg R (cellAt mg ci).tier
        ∧ R.cells.length = mg.cells.length + 4
        ∧ (cellAt R ci).children
            = some (Children.mk mg.cells.length (mg.cells.length + 1)
                (mg.cells.length + 2) (mg.cells.length + 3))
        ∧ (∀ k, mg.cells.length ≤ k → k < mg.cells.length + 4 →
            (cellAt R k).children = none
            ∧ (cellAt R k).tier = (cellAt mg ci).tier + 1)
        ∧ mg.windows.length + 1 ≤ R.windows.length
        ∧ R.windows.length ≤ mg.windows.length + 5
        ∧ (∀ k, k ≠ ci →
            (cellAt R k).children = (cellAt mg k).children)
        ∧ ((cellAt mg ci).tier < mg.max_tier →
            err = none ∧ R.max_tier = mg.max_tier)
        ∧ (mg.max_tier ≤ (cellAt mg ci).tier →
            mg.spacing / 2 ^ mg.max_tier % 2 = 0 →
            err = none ∧ R.max_tier = mg.max_tier + 1)
        ∧ R.windows = r.1.windows
        ∧ (cellAt R mg.cells.length).id_tr = r.2.2.2.1) := by
    intro R err hWFR hlenR hwinR hspR himgR hcttR hmtR hcellR hE1 hE2
    have hwlenR : R.windows.length = r.1.windows.length := by rw [hwinR]
    refine ⟨⟨hWFR, by omega, by omega, hspR, himgR, hcttR, hmtR,
      ?_, ?_, ?_, ?_⟩, hlenR, ?_, ?_, by omega, by omega, ?_, hE1, hE2,
      hwinR, ?_⟩
    · intro j hj
      have e : winAt R j = winAt r.1 j := by
        unfold winAt
        rw [hwinR]
      rw [e]
      exact hwpre j hj
    · intro j hj
      exact staticEq_trans (hcellR j).1 (hstat3 j hj)
    · intro j hj q' hq'
      have hne : j ≠ ci := by
        intro e
        rw [e, hcn] at hq'
        exact Option.noConfusion hq'
      rw [(hcellR j).2, hch3 j hj hne]
      exact hq'
    · intro j hj hnone htier
      have hne : j ≠ ci := by
        intro e
        rw [e] at htier
        omega
      rw [(hcellR j).2, hch3 j hj hne]
      exact hnone
    · rw [(hcellR ci).2, hchci3]
    · intro k h1 h2
      have hk4 : k = mg.cells.length ∨ k = mg.cells.length + 1
          ∨ k = mg.cells.length + 2 ∨ k = mg.cells.length + 3 := by omega
      constructor
      · rw [(hcellR k).2]
        rcases hk4 with e | e | e | e
        · rw [e, hBL]
        · rw [e, hBR]
        · rw [e, hTL]
        · rw [e, hTR]
      · rw [(hcellR k).1.1]
        rcases hk4 with e | e | e | e
        · rw [e, hBL]
        · rw [e, hBR]
        · rw [e, hTL]
        · rw [e, hTR]
    · intro k hk
      rw [(hcellR k).2]
      by_cases hklt : k < mg.cells.length
      · exact hch3 k hklt hk
      · by_cases hk4 : k < mg.cells.length + 4
        · have e0 : (cellAt mg k).children = none := by
            rw [cellAt_oob mg k (by omega)]
            rfl
          rw [e0]
          have hk4' : k = mg.cells.length ∨ k = mg.cells.length + 1
              ∨ k = mg.cells.length + 2 ∨ k = mg.cells.length + 3 := by
            omega
          rcases hk4' with e | e | e | e
          · rw [e, hBL]
          · rw [e, hBR]
          · rw [e, hTL]
          · rw [e, hTR]
        · rw [cellAt_oob mc.1 k (by rw [hcellsmc]; omega),
            cellAt_oob mg k (by omega)]
    · rw [(hcellR mg.cells.length).1.2.2.2.2.2.2.2, hBL]
  -- the shared link phase, over any state with the cells of mc.1
  have cont : ∀ mg4 : MultiGrid, mg4.cells = mc.1.cells →
      mg4.windows = mc.1.windows → mg4.spacing = mc.1.spacing →
      mg4.img_dim = mc.1.img_dim →
      mg4.cells_in_top_tier = mc.1.cells_in_top_tier → WF mg4 →
      WF (update_child_neighbours (siblingLinks (registerGrid mg4 ci
          r.2.1 r.2.2.1 r.2.2.2.1 r.2.2.2.2.1 r.2.2.2.2.2)
          (Children.mk mg.cells.length (mg.cells.length + 1)
            (mg.cells.length + 2) (mg.cells.length + 3))) ci)
      ∧ PreservesCells mg4 (update_child_neighbours (siblingLinks
          (registerGrid mg4 ci r.2.1 r.2.2.1 r.2.2.2.1 r.2.2.2.2.1
          r.2.2.2.2.2)
          (Children.mk mg.cells.length (mg.cells.length + 1)
            (mg.cells.length + 2) (mg.cells.length + 3))) ci) := by
    intro mg4 hc4 hw4 hs4 hi4 hctt4 hWF4
    set RG := registerGrid mg4 ci r.2.1 r.2.2.1 r.2.2.2.1 r.2.2.2.2.1
      r.2.2.2.2.2 with hRG
    have hPCrg : PreservesCells mg4 RG :=
      ⟨rfl, rfl, rfl, rfl, rfl, rfl,
       fun _ => ⟨⟨rfl, rfl, rfl, rfl, rfl, rfl, rfl, rfl⟩, rfl⟩⟩
    have hWFrg : WF RG := by
      rw [hRG]
      exact wf_congr mg4 _ rfl rfl rfl rfl rfl hWF4
    have hc5 : ∀ k, cellAt RG k = cellAt mc.1 k := by
      intro k
      show cellAt mg4 k = cellAt mc.1 k
      unfold cellAt
      rw [hc4]
    have hlen4 : mg4.cells.length = mg.cells.length + 4 := by
      rw [hc4]
      exact hcellsmc
    have hlenRG : RG.cells.length = mg.cells.length + 4 := hlen4
    obtain ⟨VS, LS, WS', PS, IS, CS, MS, DS, DL, qnbl, qnbr, qstl, qstr,
        qebl, qetl, qwbr, qwtr⟩ :=
      siblingLinks_ok RG
        (Children.mk mg.cells.length (mg.cells.length + 1)
          (mg.cells.length + 2) (mg.cells.length + 3)) hWFrg
        (show mg.cells.length < RG.cells.length by omega)
        (show mg.cells.length + 1 < RG.cells.length by omega)
        (show mg.cells.length + 2 < RG.cells.length by omega)
        (show mg.cells.length + 3 < RG.cells.length by omega)
        (by show (cellAt RG (mg.cells.length + 1)).tier
              = (cellAt RG mg.cells.length).tier
            rw [hc5, hc5, hBR, hBL])
        (by show (cellAt RG (mg.cells.length + 2)).tier
              = (cellAt RG mg.cells.length).tier
            rw [hc5, hc5, hTL, hBL])
        (by show (cellAt RG (mg.cells.length + 3)).tier
              = (cellAt RG mg.cells.length).tier
            rw [hc5, hc5, hTR, hBL])
        (by show (cellAt RG (mg.cells.length + 1)).ix
              = (cellAt RG mg.cells.length).ix + 1
            rw [hc5, hc5, hBR, hBL])
        (by show (cellAt RG (mg.cells.length + 1)).iy
              = (cellAt RG mg.cells.length).iy
            rw [hc5, hc5, hBR, hBL])
        (by show (cellAt RG (mg.cells.length + 2)).ix
              = (cellAt RG mg.cells.length).ix
            rw [hc5, hc5, hTL, hBL])
        (by show (cellAt RG (mg.cells.length + 2)).iy
              = (cellAt RG mg.cells.length).iy + 1
            rw [hc5, hc5, hTL, hBL])
        (by show (cellAt RG (mg.cells.length + 3)).ix
              = (cellAt RG mg.cells.length).ix + 1
            rw [hc5, hc5, hTR, hBL])
        (by show (cellAt RG (mg.cells.length + 3)).iy
              = (cellAt RG mg.cells.length).iy + 1
            rw [hc5, hc5, hTR, hBL])
        (by show (cellAt RG mg.cells.length).north = none
            rw [hc5, hBL])
        (by show (cellAt RG (mg.cells.length + 1)).north = none
            rw [hc5, hBR])
        (by show (cellAt RG (mg.cells.length + 2)).south = none
            rw [hc5, hTL])
        (by show (cellAt RG (mg.cells.length + 3)).south = none
            rw [hc5, hTR])
        (by show (cellAt RG mg.cells.length).east = none
            rw [hc5, hBL])
        (by show (cellAt RG (mg.cells.length + 2)).east = none
            rw [hc5, hTL])
        (by show (cellAt RG (mg.cells.length + 1)).west = none
            rw [hc5, hBR])
        (by show (cellAt RG (mg.cells.length + 3)).west = none
            rw [hc5, hTR])
    set SL := siblingLinks RG
      (Children.mk mg.cells.length (mg.cells.length + 1)
        (mg.cells.length + 2) (mg.cells.length + 3)) with hSL
    have hPCsl : PreservesCells RG SL := ⟨LS, WS', PS, IS, CS, MS, DS⟩
    have hlenSL : SL.cells.length = mg.cells.length + 4 := by
      rw [LS]
      exact hlenRG
    have hciSL : ci < SL.cells.length := by omega
    have hqSL : (cellAt SL ci).children
        = some (Children.mk mg.cells.length (mg.cells.length + 1)
            (mg.cells.length + 2) (mg.cells.length + 3)) := by
      rw [(DS ci).2, hc5 ci]
      exact hchci3
    obtain ⟨VU, PU⟩ :=
      ucn_ok SL ci VS hciSL
        (Children.mk mg.cells.length (mg.cells.length + 1)
          (mg.cells.length + 2) (mg.cells.length + 3)) hqSL
        (by have e := (DL (mg.cells.length + 2)).1
              (show (mg.cells.length + 2 : Nat) ≠ mg.cells.length by omega)
              (show (mg.cells.length + 2 : Nat) ≠ mg.cells.length + 1
                by omega)
            show (cellAt SL (mg.cells.length + 2)).north = none
            rw [e, hc5, hTL])
        (by have e := (DL (mg.cells.length + 3)).1
              (show (mg.cells.length + 3 : Nat) ≠ mg.cells.length by omega)
              (show (mg.cells.length + 3 : Nat) ≠ mg.cells.length + 1
                by omega)
            show (cellAt SL (mg.cells.length + 3)).north = none
            rw [e, hc5, hTR])
        (by have e := (DL (mg.cells.length + 1)).2.2.1
              (show (mg.cells.length + 1 : Nat) ≠ mg.cells.length by omega)
              (show (mg.cells.length + 1 : Nat) ≠ mg.cells.length + 2
                by omega)
            show (cellAt SL (mg.cells.length + 1)).east = none
            rw [e, hc5, hBR])
        (by have e := (DL (mg.cells.length + 3)).2.2.1
              (show (mg.cells.length + 3 : Nat) ≠ mg.cells.length by omega)
              (show (mg.cells.length + 3 : Nat) ≠ mg.cells.length + 2
                by omega)
            show (cellAt SL (mg.cells.length + 3)).east = none
            rw [e, hc5, hTR])
        (by have e := (DL mg.cells.length).2.1
              (show mg.cells.length ≠ mg.cells.length + 2 by omega)
              (show mg.cells.length ≠ mg.cells.length + 3 by omega)
            show (cellAt SL mg.cells.length).south = none
            rw [e, hc5, hBL])
        (by have e := (DL (mg.cells.length + 1)).2.1
              (show (mg.cells.length + 1 : Nat) ≠ mg.cells.length + 2
                by omega)
              (show (mg.cells.length + 1 : Nat) ≠ mg.cells.length + 3
                by omega)
            show (cellAt SL (mg.cells.length + 1)).south = none
            rw [e, hc5, hBR])
        (by have e := (DL mg.cells.length).2.2.2
              (show mg.cells.length ≠ mg.cells.length + 1 by omega)
              (show mg.cells.length ≠ mg.cells.length + 3 by omega)
            show (cellAt SL mg.cells.length).west = none
            rw [e, hc5, hBL])
        (by have e := (DL (mg.cells.length + 2)).2.2.2
              (show (mg.cells.length + 2 : Nat) ≠ mg.cells.length + 1
                by omega)
              (show (mg.cells.length + 2 : Nat) ≠ mg.cells.length + 3
                by omega)
            show (cellAt SL (mg.cells.length + 2)).west = none
            rw [e, hc5, hTL])
    exact ⟨VU, pc_trans hPCrg (pc_trans hPCsl PU)⟩
  -- now the three paths
  by_cases hnt : mc.1.max_tier < (cellAt mc.1 mc.2.bl).tier
  · rw [if_pos hnt] at hred
    by_cases hcur : mc.1.spacing / 2 ^ mc.1.max_tier % 2 = 0
    · set NT : MultiGrid := { mc.1 with max_tier := mc.1.max_tier + 1, grids := mc.1.grids ++ [mkGrid mc.1.img_dim (mc.1.spacing / 2 ^ mc.1.max_tier / 2)] } with hNTdef
      have hnted : new_tier mc.1 = (NT, none) := by
        simp only [new_tier]
        rw [if_pos hcur, hNTdef]
      rw [hnted] at hred
      have hred2 : splitTail mg ci =
          (update_child_neighbours
            (siblingLinks (registerGrid NT
              ci r.2.1 r.2.2.1 r.2.2.2.1 r.2.2.2.2.1 r.2.2.2.2.2)
              (Children.mk mg.cells.length (mg.cells.length + 1)
                (mg.cells.length + 2) (mg.cells.length + 3))) ci,
           none) := by
        rw [hred, hQ2]
      obtain ⟨VC, PC'⟩ := cont NT rfl rfl rfl rfl rfl
        (wf_congr mc.1 NT rfl rfl rfl rfl rfl hWFmc)
      obtain ⟨pl, pw, ps, pi', pcc, pm, pf⟩ := PC'
      have e1 : mc.1.max_tier = mg.max_tier := hf.2.2.2.2.1.trans hmtr
      have e2 : (cellAt mc.1 mc.2.bl).tier = (cellAt mg ci).tier + 1 := by
        rw [hQ2]
        show (cellAt mc.1 mg.cells.length).tier = _
        rw [hBL]
      rw [hred2]
      refine assemble _ none VC ?_ ?_ ?_ ?_ ?_ ?_ ?_ ?_ ?_
      · rw [pl]
        exact hcellsmc
      · rw [pw]
        exact hf.1
      · rw [ps]
        exact hf.2.1.trans hspr
      · rw [pi']
        exact hf.2.2.1.trans himgr
      · rw [pcc]
        exact hf.2.2.2.1.trans hcttr
      · rw [pm]
        show mg.max_tier ≤ mc.1.max_tier + 1
        omega
      · intro k
        have e : cellAt NT k = cellAt mc.1 k := rfl
        rw [← e]
        exact pf k
      · intro hlt
        exfalso
        rw [e2, e1] at hnt
        omega
      · intro hle hmod
        refine ⟨rfl, ?_⟩
        rw [pm]
        show mc.1.max_tier + 1 = mg.max_tier + 1
        rw [e1]
    · have hnted : new_tier mc.1 = (mc.1, some Err.refinement) := by
        simp only [new_tier]
        rw [if_neg hcur]
      rw [hnted] at hred
      have hred2 : splitTail mg ci = (mc.1, some Err.refinement) := hred
      have e1 : mc.1.max_tier = mg.max_tier := hf.2.2.2.2.1.trans hmtr
      have e2 : (cellAt mc.1 mc.2.bl).tier = (cellAt mg ci).tier + 1 := by
        rw [hQ2]
        show (cellAt mc.1 mg.cells.length).tier = _
        rw [hBL]
      rw [hred2]
      refine assemble mc.1 (some Err.refinement) hWFmc hcellsmc hf.1
        (hf.2.1.trans hspr) (hf.2.2.1.trans himgr)
        (hf.2.2.2.1.trans hcttr) ?_ ?_ ?_ ?_
      · omega
      · intro k
        exact ⟨⟨rfl, rfl, rfl, rfl, rfl, rfl, rfl, rfl⟩, rfl⟩
      · intro hlt
        exfalso
        rw [e2, e1] at hnt
        omega
      · intro hle hmod
        exfalso
        apply hcur
        have e3 : mc.1.spacing = mg.spacing := hf.2.1.trans hspr
        rw [e1, e3]
        exact hmod
  · rw [if_neg hnt] at hred
    have hred2 : splitTail mg ci =
        (update_child_neighbours
          (siblingLinks (registerGrid mc.1
            ci r.2.1 r.2.2.1 r.2.2.2.1 r.2.2.2.2.1 r.2.2.2.2.2)
            (Children.mk mg.cells.length (mg.cells.length + 1)
              (mg.cells.length + 2) (mg.cells.length + 3))) ci,
         none) := by
      rw [hred, hQ2]
    obtain ⟨VC, PC'⟩ := cont mc.1 rfl rfl rfl rfl rfl hWFmc
    obtain ⟨pl, pw, ps, pi', pcc, pm, pf⟩ := PC'
    have e1 : mc.1.max_tier = mg.max_tier := hf.2.2.2.2.1.trans hmtr
    have e2 : (cellAt mc.1 mc.2.bl).tier = (cellAt mg ci).tier + 1 := by
      rw [hQ2]
      show (cellAt mc.1 mg.cells.length).tier = _
      rw [hBL]
    rw [hred2]
    refine assemble _ none VC ?_ ?_ ?_ ?_ ?_ ?_ ?_ ?_ ?_
    · rw [pl]
      exact hcellsmc
    · rw [pw]
      exact hf.1
    · rw [ps]
      exact hf.2.1.trans hspr
    · rw [pi']
      exact hf.2.2.1.trans himgr
    · rw [pcc]
      exact hf.2.2.2.1.trans hcttr
    · rw [pm]
      exact le_of_eq e1.symm
    · intro k
      exact pf k
    · intro hlt
      refine ⟨rfl, ?_⟩
      rw [pm]
      exact e1
    · intro hle hmod
      exfalso
      apply hnt
      rw [e2, e1]
      omega

theorem splitOK_refl (mg : MultiGrid) (h : WF mg) (t : Nat) :
    SplitOK mg mg t :=
  ⟨h, le_refl _, le_refl _, rfl, rfl, rfl, le_refl _, fun _ _ => rfl,
   fun _ _ => ⟨rfl, rfl, rfl, rfl, rfl, rfl, rfl, rfl⟩,
   fun _ _ _ hq => hq, fun _ _ hn _ => hn⟩

theorem splitOK_trans {a b c : MultiGrid} {t t' : Nat}
    (h1 : SplitOK a b t) (h2 : SplitOK b c t') (hle : t' ≤ t) :
    SplitOK a c t := by
  obtain ⟨w1, l1, n1, s1, i1, c1, m1, p1, st1, ch1, cn1⟩ := h1
  obtain ⟨w2, l2, n2, s2, i2, c2, m2, p2, st2, ch2, cn2⟩ := h2
  refine ⟨w2, le_trans l1 l2, le_trans n1 n2, s2.trans s1, i2.trans i1,
    c2.trans c1, le_trans m1 m2, ?_, ?_, ?_, ?_⟩
  · intro j hj
    rw [p2 j (lt_of_lt_of_le hj n1), p1 j hj]
  · intro j hj
    exact staticEq_trans (st2 j (lt_of_lt_of_le hj l1)) (st1 j hj)
  · intro j hj q hq
    exact ch2 j (lt_of_lt_of_le hj l1) q (ch1 j hj q hq)
  · intro j hj hn ht
    have hb := cn1 j hj hn ht
    have htb : (cellAt b j).tier = (cellAt a j).tier := (st1 j hj).1
    exact cn2 j (lt_of_lt_of_le hj l1) hb (by omega)

/- ------------------------------------------------------------------
The main invariance theorem: a split call with any fuel - including
every cascading neighbour split and every partially-mutated state an
error leaves behind - satisfies the split contract.
------------------------------------------------------------------- -/

theorem splitFuel_ok (fuel : Nat) : ∀ mg ci, WF mg →
    SplitOK mg (splitFuel fuel mg ci).1 (cellAt mg ci).tier := by
  induction fuel with
  | zero =>
    intro mg ci h
    exact splitOK_refl mg h _
  | succ fuel ih =>
    intro mg ci h
    show SplitOK mg (splitBody (splitFuel fuel) mg ci).1 _
    by_cases hci : ci < mg.cells.length
    · by_cases hch : (cellAt mg ci).children.isSome = true
      · have ebody : splitBody (splitFuel fuel) mg ci
            = (mg, some Err.alreadySplit) := by
          simp only [splitBody]
          rw [if_pos hci, if_pos hch]
        rw [ebody]
        exact splitOK_refl mg h _
      · have hchn0 : (cellAt mg ci).children = none :=
          Option.not_isSome_iff_eq_none.1 hch
        by_cases htier : 0 < (cellAt mg ci).tier
        · -- cascading case
          have dir : ∀ (getDir : GridCell → Option Nat),
              (∀ S, WF S → ∀ i, i < S.cells.length → ∀ j,
                getDir (cellAt S i) = some j →
                j < S.cells.length
                ∧ (cellAt S j).tier = (cellAt S i).tier) →
              ∀ mgX, SplitOK mg mgX (cellAt mg ci).tier →
              (cellAt mgX ci).children = none →
              SplitOK mg
                (splitNeighbDir (splitFuel fuel) mgX ci getDir).1
                (cellAt mg ci).tier
              ∧ (cellAt (splitNeighbDir (splitFuel fuel) mgX ci
                  getDir).1 ci).children = none := by
            intro getDir hdir mgX hOK hchn
            have hWX : WF mgX := hOK.1
            have hciX : ci < mgX.cells.length :=
              lt_of_lt_of_le hci hOK.2.1
            have htciX : (cellAt mgX ci).tier = (cellAt mg ci).tier :=
              (hOK.2.2.2.2.2.2.2.2.1 ci hci).1
            cases hd : getDir (cellAt mgX ci) with
            | some w =>
              have ed : splitNeighbDir (splitFuel fuel) mgX ci getDir
                  = (mgX, none) := by
                unfold splitNeighbDir
                rw [hd]
              rw [ed]
              exact ⟨hOK, hchn⟩
            | none =>
              cases hp : (cellAt mgX ci).parent with
              | none =>
                have ed : splitNeighbDir (splitFuel fuel) mgX ci getDir
                    = (mgX, some Err.noParent) := by
                  unfold splitNeighbDir
                  rw [hd, hp]
                rw [ed]
                exact ⟨hOK, hchn⟩
              | some p =>
                cases hpd : getDir (cellAt mgX p) with
                | none =>
                  have ed : splitNeighbDir (splitFuel fuel) mgX ci getDir
                      = (mgX, none) := by
                    unfold splitNeighbDir
                    rw [hd, hp]
                    show (match getDir (cellAt mgX p) with
                          | none => (mgX, none)
                          | some pn => splitFuel fuel mgX pn)
                        = (mgX, none)
                    rw [hpd]
                  rw [ed]
                  exact ⟨hOK, hchn⟩
                | some pn =>
                  have ed : splitNeighbDir (splitFuel fuel) mgX ci getDir
                      = splitFuel fuel mgX pn := by
                    unfold splitNeighbDir
                    rw [hd, hp]
                    show (match getDir (cellAt mgX p) with
                          | none => (mgX, none)
                          | some pn => splitFuel fuel mgX pn)
                        = splitFuel fuel mgX pn
                    rw [hpd]
                  rw [ed]
                  have h0 : 0 < (cellAt mgX ci).tier := by omega
                  obtain ⟨pp, hpp, hplt, hpt, _⟩ :=
                    hWX.parent_of ci hciX h0
                  rw [hp] at hpp
                  injection hpp with hpe
                  subst hpe
                  have hplen : p < mgX.cells.length := by omega
                  obtain ⟨hpn, htpn⟩ := hdir mgX hWX p hplen pn hpd
                  have ihOK := ih mgX pn hWX
                  refine ⟨splitOK_trans hOK ihOK (by omega), ?_⟩
                  exact ihOK.2.2.2.2.2.2.2.2.2.2 ci hciX hchn (by omega)
          have hypN : ∀ S, WF S → ∀ i, i < S.cells.length → ∀ j,
              (fun c => c.north) (cellAt S i) = some j →
              j < S.cells.length
              ∧ (cellAt S j).tier = (cellAt S i).tier := by
            intro S hS i hi j hj
            exact ⟨(hS.link_north i hi j hj).1,
                   (hS.link_north i hi j hj).2.1⟩
          have hypE : ∀ S, WF S → ∀ i, i < S.cells.length → ∀ j,
              (fun c => c.east) (cellAt S i) = some j →
              j < S.cells.length
              ∧ (cellAt S j).tier = (cellAt S i).tier := by
            intro S hS i hi j hj
            exact ⟨(hS.link_east i hi j hj).1,
                   (hS.link_east i hi j hj).2.1⟩
          have hypS : ∀ S, WF S → ∀ i, i < S.cells.length → ∀ j,
              (fun c => c.south) (cellAt S i) = some j →
              j < S.cells.length
              ∧ (cellAt S j).tier = (cellAt S i).tier := by
            intro S hS i hi j hj
            exact ⟨(hS.link_south i hi j hj).1,
                   (hS.link_south i hi j hj).2.1⟩
          have hypW : ∀ S, WF S → ∀ i, i < S.cells.length → ∀ j,
              (fun c => c.west) (cellAt S i) = some j →
              j < S.cells.length
              ∧ (cellAt S j).tier = (cellAt S i).tier := by
            intro S hS i hi j hj
            exact ⟨(hS.link_west i hi j hj).1,
                   (hS.link_west i hi j hj).2.1⟩
          have dN := dir (fun c => c.north) hypN mg
            (splitOK_refl mg h _) hchn0
          rcases h1 : splitNeighbDir (splitFuel fuel) mg ci
            (fun c => c.north) with ⟨mgN, oe1⟩
          rw [h1] at dN
          have casc : SplitOK mg
              (split_neighbs_if_needed (splitFuel fuel) mg ci).1
              (cellAt mg ci).tier
              ∧ (cellAt (split_neighbs_if_needed (splitFuel fuel)
                  mg ci).1 ci).children = none := by
            cases oe1 with
            | some e1 =>
              have eq1 : split_neighbs_if_needed (splitFuel fuel) mg ci
                  = (mgN, some e1) := by
                unfold split_neighbs_if_needed
                rw [h1]
              rw [eq1]
              exact dN
            | none =>
              have dE := dir (fun c => c.east) hypE mgN dN.1 dN.2
              rcases h2 : splitNeighbDir (splitFuel fuel) mgN ci
                (fun c => c.east) with ⟨mgE, oe2⟩
              rw [h2] at dE
              cases oe2 with
              | some e2 =>
                have eq2 : split_neighbs_if_needed (splitFuel fuel)
                    mg ci = (mgE, some e2) := by
                  unfold split_neighbs_if_needed
                  rw [h1]
                  show (match splitNeighbDir (splitFuel fuel) mgN ci
                          (fun c => c.east) with
                        | (mgE, some e) => (mgE, some e)
                        | (mgE, none) =>
                          match splitNeighbDir (splitFuel fuel) mgE ci
                            (fun c => c.south) with
                          | (mgS, some e) => (mgS, some e)
                          | (mgS, none) =>
                            splitNeighbDir (splitFuel fuel) mgS ci
                              (fun c => c.west))
                      = (mgE, some e2)
                  rw [h2]
                rw [eq2]
                exact dE
              | none =>
                have dS := dir (fun c => c.south) hypS mgE dE.1 dE.2
                rcases h3 : splitNeighbDir (splitFuel fuel) mgE ci
                  (fun c => c.south) with ⟨mgS, oe3⟩
                rw [h3] at dS
                have eqpre : split_neighbs_if_needed (splitFuel fuel)
                    mg ci =
                    (match splitNeighbDir (splitFuel fuel) mgE ci
                        (fun c => c.south) with
                      | (mgS, some e) => (mgS, some e)
                      | (mgS, none) =>
                        splitNeighbDir (splitFuel fuel) mgS ci
                          (fun c => c.west)) := by
                  unfold split_neighbs_if_needed
                  rw [h1]
                  show (match splitNeighbDir (splitFuel fuel) mgN ci
                          (fun c => c.east) with
                        | (mgE, some e) => (mgE, some e)
                        | (mgE, none) =>
                          match splitNeighbDir (splitFuel fuel) mgE ci
                            (fun c => c.south) with
                          | (mgS, some e) => (mgS, some e)
                          | (mgS, none) =>
                            splitNeighbDir (splitFuel fuel) mgS ci
                              (fun c => c.west))
                      = _
                  rw [h2]
                cases oe3 with
                | some e3 =>
                  have eq3 : split_neighbs_if_needed (splitFuel fuel)
                      mg ci = (mgS, some e3) := by
                    rw [eqpre, h3]
                  rw [eq3]
                  exact dS
                | none =>
                  have dW := dir (fun c => c.west) hypW mgS dS.1 dS.2
                  have eq4 : split_neighbs_if_needed (splitFuel fuel)
                      mg ci = splitNeighbDir (splitFuel fuel) mgS ci
                        (fun c => c.west) := by
                    rw [eqpre, h3]
                  rw [eq4]
                  exact dW
          rcases hsn : split_neighbs_if_needed (splitFuel fuel) mg ci
            with ⟨mg1, oc⟩
          rw [hsn] at casc
          have ebody : splitBody (splitFuel fuel) mg ci
              = (match (mg1, oc) with
                 | (mg1, some e) => (mg1, some e)
                 | (mg1, none) => splitTail mg1 ci) := by
            simp only [splitBody]
            rw [if_pos hci,
              if_neg (by rw [hchn0]; simp : ¬ ((cellAt mg ci).children.isSome = true)),
              if_pos htier, hsn]
          rw [ebody]
          cases oc with
          | some e =>
            exact casc.1
          | none =>
            have hci1 : ci < mg1.cells.length :=
              lt_of_lt_of_le hci casc.1.2.1
            have hst := splitTail_ok mg1 ci casc.1.1 hci1 casc.2
            have htt : (cellAt mg1 ci).tier = (cellAt mg ci).tier :=
              (casc.1.2.2.2.2.2.2.2.2.1 ci hci).1
            show SplitOK mg (splitTail mg1 ci).1 (cellAt mg ci).tier
            exact splitOK_trans casc.1 hst.1 (by omega)
        · -- no cascade: tier-0 cell
          have ebody : splitBody (splitFuel fuel) mg ci
              = splitTail mg ci := by
            simp only [splitBody]
            rw [if_pos hci,
              if_neg (by rw [hchn0]; simp : ¬ ((cellAt mg ci).children.isSome = true)),
              if_neg htier]
          rw [ebody]
          exact (splitTail_ok mg ci h hci hchn0).1
    · have ebody : splitBody (splitFuel fuel) mg ci
          = (mg, some Err.badIndex) := by
        simp only [splitBody]
        rw [if_neg hci]
      rw [ebody]
      exact splitOK_refl mg h _

/- ------------------------------------------------------------------
Row/column index arithmetic for the constructed mesh.
------------------------------------------------------------------- -/

theorem rcBound (a b A B : Nat) (ha : a < A) (hb : b < B) :
    a * B + b < A * B := by
  calc a * B + b < a * B + B := by omega
    _ = (a + 1) * B := by ring
    _ ≤ A * B := Nat.mul_le_mul_right B ha

theorem rcDiv (r c n : Nat) (h : c < n) : (r * n + c) / n = r := by
  rw [Nat.add_comm, Nat.add_mul_div_right c r (by omega : 0 < n),
      Nat.div_eq_of_lt h]
  omega

theorem rcMod (r c n : Nat) (h : c < n) : (r * n + c) % n = c := by
  rw [Nat.add_comm, Nat.add_mul_mod_self_right]
  exact Nat.mod_eq_of_lt h

theorem cellAt_construct (img_dim : Nat × Nat) (s : Nat) (WS : ℚ) (k : Nat)
    (hk : k < (numPts img_dim.1 s - 1) * (numPts img_dim.2 s - 1)) :
    cellAt (construct img_dim s WS) k
      = topCell (numPts img_dim.2 s) (numPts img_dim.2 s - 1)
          (numPts img_dim.1 s - 1) (k / (numPts img_dim.2 s - 1))
          (k % (numPts img_dim.2 s - 1)) := by
  show ((List.range ((numPts img_dim.1 s - 1) * (numPts img_dim.2 s - 1))).map
      (fun k => topCell (numPts img_dim.2 s) (numPts img_dim.2 s - 1)
        (numPts img_dim.1 s - 1) (k / (numPts img_dim.2 s - 1))
        (k % (numPts img_dim.2 s - 1)))).getD k default = _
  exact gdMapRange _ _ k hk

theorem winAt_construct (img_dim : Nat × Nat) (s : Nat) (WS : ℚ) (j : Nat)
    (hj : j < numPts img_dim.1 s * numPts img_dim.2 s) :
    winAt (construct img_dim s WS) j
      = ⟨((j % numPts img_dim.2 s) * s : Nat),
         ((j / numPts img_dim.2 s) * s : Nat), WS⟩ := by
  show ((List.range (numPts img_dim.1 s * numPts img_dim.2 s)).map
      (fun k => (⟨((k % numPts img_dim.2 s) * s : Nat),
        ((k / numPts img_dim.2 s) * s : Nat), WS⟩ : CorrWindow))).getD
      j default = _
  exact gdMapRange _ _ j hj

theorem construct_cells_length (img_dim : Nat × Nat) (s : Nat) (WS : ℚ) :
    (construct img_dim s WS).cells.length
      = (numPts img_dim.1 s - 1) * (numPts img_dim.2 s - 1) := by
  show ((List.range _).map _).length = _
  rw [List.length_map, List.length_range]

theorem construct_windows_length (img_dim : Nat × Nat) (s : Nat) (WS : ℚ) :
    (construct img_dim s WS).windows.length
      = numPts img_dim.1 s * numPts img_dim.2 s := by
  show ((List.range _).map _).length = _
  rw [List.length_map, List.length_range]

/- ------------------------------------------------------------------
The constructed mesh is well-formed.
------------------------------------------------------------------- -/

set_option maxHeartbeats 2000000 in
theorem wf_construct (img_dim : Nat × Nat) (s : Nat) (WS : ℚ) :
    WF (construct img_dim s WS) := by
  set M := construct img_dim s WS with hM
  set NX := numPts img_dim.2 s with hNX
  set NY := numPts img_dim.1 s with hNY
  set NC := NX - 1 with hNCdef
  set NR := NY - 1 with hNRdef
  have hlen : M.cells.length = NR * NC := by
    rw [hM, hNCdef, hNRdef, hNX, hNY]
    exact construct_cells_length img_dim s WS
  have hwlen : M.windows.length = NY * NX := by
    rw [hM, hNX, hNY]
    exact construct_windows_length img_dim s WS
  have hC : ∀ k, k < NR * NC →
      cellAt M k = topCell NX NC NR (k / NC) (k % NC) := by
    intro k hk
    rw [hNCdef, hNRdef, hNX, hNY] at hk
    rw [hM, hNCdef, hNRdef, hNX, hNY]
    exact cellAt_construct img_dim s WS k hk
  have hW : ∀ j, j < NY * NX → winAt M j
      = ⟨((j % NX) * s : Nat), ((j / NX) * s : Nat), WS⟩ := by
    intro j hj
    rw [hNX, hNY] at hj
    rw [hM, hNX]
    exact winAt_construct img_dim s WS j hj
  have hsp : M.spacing = s := by rw [hM]; rfl
  have hctt : M.cells_in_top_tier = NR * NC := by
    rw [hM, hNCdef, hNRdef, hNX, hNY]; rfl
  have hncc : M.n_cc = NC := by rw [hM, hNCdef, hNX]; rfl
  have hnrc : M.n_rc = NR := by rw [hM, hNRdef, hNY]; rfl
  have pos2 : ∀ i, i < NR * NC →
      0 < NC ∧ 0 < NR ∧ i / NC < NR ∧ i % NC < NC := by
    intro i hi
    have hc : 0 < NC := by
      rcases Nat.eq_zero_or_pos NC with h0 | h0
      · rw [h0, Nat.mul_zero] at hi
        omega
      · exact h0
    have hr : 0 < NR := by
      rcases Nat.eq_zero_or_pos NR with h0 | h0
      · rw [h0, Nat.zero_mul] at hi
        omega
      · exact h0
    exact ⟨hc, hr, (Nat.div_lt_iff_lt_mul hc).2 hi, Nat.mod_lt _ hc⟩
  have hdm : ∀ i : Nat, i / NC * NC + i % NC = i := by
    intro i
    have e := Nat.div_add_mod i NC
    rw [Nat.mul_comm NC (i / NC)] at e
    exact e
  have hq0 : hQ s 0 = (s : ℚ) := by
    unfold hQ
    norm_num
  refine ⟨?_, ?_, ?_, ?_, ?_, ?_, ?_, ?_, ?_, ?_, ?_, ?_, ?_, ?_, ?_, ?_⟩
  -- link_north
  · intro i hi j hj
    rw [hlen] at hi
    obtain ⟨hNCp, hNRp, hrr, hcc⟩ := pos2 i hi
    rw [hC i hi] at hj
    simp only [topCell] at hj
    by_cases hed : i / NC = NR - 1
    · rw [if_pos hed] at hj
      exact Option.noConfusion hj
    · rw [if_neg hed] at hj
      injection hj with hjv
      have hj' : j = (i / NC + 1) * NC + i % NC := by
        rw [Nat.succ_mul]
        omega
      have hjlt : j < NR * NC := by
        rw [hj']
        exact rcBound _ _ _ _ (by omega) hcc
      have hjd : j / NC = i / NC + 1 := by
        rw [hj']
        exact rcDiv _ _ _ hcc
      have hjm : j % NC = i % NC := by
        rw [hj']
        exact rcMod _ _ _ hcc
      refine ⟨by rw [hlen]; exact hjlt, ?_, ?_, ?_⟩
      · rw [hC j hjlt, hC i hi]
        rfl
      · rw [hC j hjlt, hC i hi]
        show j % NC = i % NC
        exact hjm
      · rw [hC j hjlt, hC i hi]
        show j / NC = i / NC + 1
        exact hjd
  -- link_south
  · intro i hi j hj
    rw [hlen] at hi
    obtain ⟨hNCp, hNRp, hrr, hcc⟩ := pos2 i hi
    rw [hC i hi] at hj
    simp only [topCell] at hj
    by_cases hed : i / NC = 0
    · rw [if_pos hed] at hj
      exact Option.noConfusion hj
    · rw [if_neg hed] at hj
      injection hj with hjv
      have hdp : 0 < i / NC := Nat.pos_of_ne_zero hed
      have hsm : (i / NC - 1) * NC + NC = i / NC * NC := by
        have h1 : i / NC - 1 + 1 = i / NC := by omega
        calc (i / NC - 1) * NC + NC = (i / NC - 1 + 1) * NC := by
              rw [Nat.succ_mul]
          _ = i / NC * NC := by rw [h1]
      have hdmi := hdm i
      have hj' : j = (i / NC - 1) * NC + i % NC := by omega
      have hjlt : j < NR * NC := by
        rw [hj']
        exact rcBound _ _ _ _ (by omega) hcc
      have hjd : j / NC = i / NC - 1 := by
        rw [hj']
        exact rcDiv _ _ _ hcc
      have hjm : j % NC = i % NC := by
        rw [hj']
        exact rcMod _ _ _ hcc
      refine ⟨by rw [hlen]; exact hjlt, ?_, ?_, ?_⟩
      · rw [hC j hjlt, hC i hi]
        rfl
      · rw [hC j hjlt, hC i hi]
        show j % NC = i % NC
        exact hjm
      · rw [hC j hjlt, hC i hi]
        show i / NC = j / NC + 1
        omega
  -- link_east
  · intro i hi j hj
    rw [hlen] at hi
    obtain ⟨hNCp, hNRp, hrr, hcc⟩ := pos2 i hi
    rw [hC i hi] at hj
    simp only [topCell] at hj
    by_cases hed : i % NC = NC - 1
    · rw [if_pos hed] at hj
      exact Option.noConfusion hj
    · rw [if_neg hed] at hj
      injection hj with hjv
      have hj' : j = i / NC * NC + (i % NC + 1) := by omega
      have hjlt : j < NR * NC := by
        rw [hj']
        exact rcBound _ _ _ _ hrr (by omega)
      have hjd : j / NC = i / NC := by
        rw [hj']
        exact rcDiv _ _ _ (by omega)
      have hjm : j % NC = i % NC + 1 := by
        rw [hj']
        exact rcMod _ _ _ (by omega)
      refine ⟨by rw [hlen]; exact hjlt, ?_, ?_, ?_⟩
      · rw [hC j hjlt, hC i hi]
        rfl
      · rw [hC j hjlt, hC i hi]
        show j % NC = i % NC + 1
        exact hjm
      · rw [hC j hjlt, hC i hi]
        show j / NC = i / NC
        exact hjd
  -- link_west
  · intro i hi j hj
    rw [hlen] at hi
    obtain ⟨hNCp, hNRp, hrr, hcc⟩ := pos2 i hi
    rw [hC i hi] at hj
    simp only [topCell] at hj
    by_cases hed : i % NC = 0
    · rw [if_pos hed] at hj
      exact Option.noConfusion hj
    · rw [if_neg hed] at hj
      injection hj with hjv
      have hmp : 0 < i % NC := Nat.pos_of_ne_zero hed
      have hj' : j = i / NC * NC + (i % NC - 1) := by omega
      have hjlt : j < NR * NC := by
        rw [hj']
        exact rcBound _ _ _ _ hrr (by omega)
      have hjd : j / NC = i / NC := by
        rw [hj']
        exact rcDiv _ _ _ (by omega)
      have hjm : j % NC = i % NC - 1 := by
        rw [hj']
        exact rcMod _ _ _ (by omega)
      refine ⟨by rw [hlen]; exact hjlt, ?_, ?_, ?_⟩
      · rw [hC j hjlt, hC i hi]
        rfl
      · rw [hC j hjlt, hC i hi]
        show i % NC = j % NC + 1
        omega
      · rw [hC j hjlt, hC i hi]
        show j / NC = i / NC
        exact hjd
  -- sym_north
  · intro i hi j hj
    rw [hlen] at hi
    obtain ⟨hNCp, hNRp, hrr, hcc⟩ := pos2 i hi
    rw [hC i hi] at hj
    simp only [topCell] at hj
    by_cases hed : i / NC = NR - 1
    · rw [if_pos hed] at hj
      exact Option.noConfusion hj
    · rw [if_neg hed] at hj
      injection hj with hjv
      have hj' : j = (i / NC + 1) * NC + i % NC := by
        rw [Nat.succ_mul]
        omega
      have hjlt : j < NR * NC := by
        rw [hj']
        exact rcBound _ _ _ _ (by omega) hcc
      have hjd : j / NC = i / NC + 1 := by
        rw [hj']
        exact rcDiv _ _ _ hcc
      have hjm : j % NC = i % NC := by
        rw [hj']
        exact rcMod _ _ _ hcc
      rw [hC j hjlt]
      show (if j / NC = 0 then none
            else some (j / NC * NC + j % NC - NC)) = some i
      rw [hjd, hjm, if_neg (Nat.succ_ne_zero (i / NC))]
      have hdmi := hdm i
      have hvv : (i / NC + 1) * NC + i % NC - NC = i := by
        rw [Nat.succ_mul]
        omega
      rw [hvv]
  -- sym_south
  · intro i hi j hj
    rw [hlen] at hi
    obtain ⟨hNCp, hNRp, hrr, hcc⟩ := pos2 i hi
    rw [hC i hi] at hj
    simp only [topCell] at hj
    by_cases hed : i / NC = 0
    · rw [if_pos hed] at hj
      exact Option.noConfusion hj
    · rw [if_neg hed] at hj
      injection hj with hjv
      have hdp : 0 < i / NC := Nat.pos_of_ne_zero hed
      have hsm : (i / NC - 1) * NC + NC = i / NC * NC := by
        have h1 : i / NC - 1 + 1 = i / NC := by omega
        calc (i / NC - 1) * NC + NC = (i / NC - 1 + 1) * NC := by
              rw [Nat.succ_mul]
          _ = i / NC * NC := by rw [h1]
      have hdmi := hdm i
      have hj' : j = (i / NC - 1) * NC + i % NC := by omega
      have hjlt : j < NR * NC := by
        rw [hj']
        exact rcBound _ _ _ _ (by omega) hcc
      have hjd : j / NC = i / NC - 1 := by
        rw [hj']
        exact rcDiv _ _ _ hcc
      have hjm : j % NC = i % NC := by
        rw [hj']
        exact rcMod _ _ _ hcc
      rw [hC j hjlt]
      show (if j / NC = NR - 1 then none
            else some (j / NC * NC + j % NC + NC)) = some i
      rw [hjd, hjm, if_neg (by omega)]
      have hvv : (i / NC - 1) * NC + i % NC + NC = i := by
        have h2 : (i / NC - 1) * NC + i % NC + NC
            = (i / NC - 1) * NC + NC + i % NC := by omega
        rw [h2, hsm]
        exact hdmi
      rw [hvv]
  -- sym_east
  · intro i hi j hj
    rw [hlen] at hi
    obtain ⟨hNCp, hNRp, hrr, hcc⟩ := pos2 i hi
    rw [hC i hi] at hj
    simp only [topCell] at hj
    by_cases hed : i % NC = NC - 1
    · rw [if_pos hed] at hj
      exact Option.noConfusion hj
    · rw [if_neg hed] at hj
      injection hj with hjv
      have hj' : j = i / NC * NC + (i % NC + 1) := by omega
      have hjlt : j < NR * NC := by
        rw [hj']
        exact rcBound _ _ _ _ hrr (by omega)
      have hjd : j / NC = i / NC := by
        rw [hj']
        exact rcDiv _ _ _ (by omega)
      have hjm : j % NC = i % NC + 1 := by
        rw [hj']
        exact rcMod _ _ _ (by omega)
      rw [hC j hjlt]
      show (if j % NC = 0 then none
            else some (j / NC * NC + j % NC - 1)) = some i
      rw [hjd, hjm, if_neg (by omega)]
      have hdmi := hdm i
      have hvv : i / NC * NC + (i % NC + 1) - 1 = i := by omega
      rw [hvv]
  -- sym_west
  · intro i hi j hj
    rw [hlen] at hi
    obtain ⟨hNCp, hNRp, hrr, hcc⟩ := pos2 i hi
    rw [hC i hi] at hj
    simp only [topCell] at hj
    by_cases hed : i % NC = 0
    · rw [if_pos hed] at hj
      exact Option.noConfusion hj
    · rw [if_neg hed] at hj
      injection hj with hjv
      have hmp : 0 < i % NC := Nat.pos_of_ne_zero hed
      have hj' : j = i / NC * NC + (i % NC - 1) := by omega
      have hjlt : j < NR * NC := by
        rw [hj']
        exact rcBound _ _ _ _ hrr (by omega)
      have hjd : j / NC = i / NC := by
        rw [hj']
        exact rcDiv _ _ _ (by omega)
      have hjm : j % NC = i % NC - 1 := by
        rw [hj']
        exact rcMod _ _ _ (by omega)
      rw [hC j hjlt]
      show (if j % NC = NC - 1 then none
            else some (j / NC * NC + j % NC + 1)) = some i
      rw [hjd, hjm, if_neg (by omega)]
      have hdmi := hdm i
      have hvv : i / NC * NC + (i % NC - 1) + 1 = i := by omega
      rw [hvv]
  -- uniq
  · intro i j hi hj ht hx hy
    rw [hlen] at hi hj
    rw [hC i hi, hC j hj] at hx hy
    simp only [topCell] at hx hy
    have d1 := hdm i
    have d2 := hdm j
    rw [hx, hy] at d1
    omega
  -- parent_of
  · intro i hi hpos
    rw [hlen] at hi
    rw [hC i hi] at hpos
    simp only [topCell] at hpos
    exact absurd hpos (lt_irrefl 0)
  -- children_ok
  · intro i hi q' hq'
    rw [hlen] at hi
    rw [hC i hi] at hq'
    simp only [topCell] at hq'
    exact Option.noConfusion hq'
  -- corners
  · intro i hi
    rw [hlen] at hi
    obtain ⟨hNCp, hNRp, hrr, hcc⟩ := pos2 i hi
    rw [hC i hi]
    simp only [topCell]
    have hsm1 := Nat.succ_mul (i / NC) NX
    have e1 : i / NC * NX + i % NC < NY * NX :=
      rcBound _ _ _ _ (by omega) (by omega)
    have eb : i / NC * NX + i % NC + 1 = i / NC * NX + (i % NC + 1) := by
      omega
    have e2 : i / NC * NX + (i % NC + 1) < NY * NX :=
      rcBound _ _ _ _ (by omega) (by omega)
    have et : i / NC * NX + i % NC + NX = (i / NC + 1) * NX + i % NC := by
      rw [Nat.succ_mul]
      omega
    have e3 : (i / NC + 1) * NX + i % NC < NY * NX :=
      rcBound _ _ _ _ (by omega) (by omega)
    have etr : i / NC * NX + i % NC + NX + 1
        = (i / NC + 1) * NX + (i % NC + 1) := by
      rw [Nat.succ_mul]
      omega
    have e4 : (i / NC + 1) * NX + (i % NC + 1) < NY * NX :=
      rcBound _ _ _ _ (by omega) (by omega)
    refine ⟨⟨by rw [hwlen]; omega, by rw [hwlen]; omega,
             by rw [hwlen]; omega, by rw [hwlen]; omega⟩,
            ⟨?_, ?_⟩, ⟨?_, ?_⟩, ⟨?_, ?_⟩, ⟨?_, ?_⟩⟩
    · rw [hW _ e1, rcMod _ _ _ (by omega)]
      show ((i % NC * s : Nat) : ℚ) = ((i % NC : Nat) : ℚ) * hQ M.spacing 0
      rw [hsp, hq0]
      push_cast
      ring
    · rw [hW _ e1, rcDiv _ _ _ (by omega)]
      show ((i / NC * s : Nat) : ℚ) = ((i / NC : Nat) : ℚ) * hQ M.spacing 0
      rw [hsp, hq0]
      push_cast
      ring
    · rw [eb, hW _ e2, rcMod _ _ _ (by omega)]
      show (((i % NC + 1) * s : Nat) : ℚ)
          = (((i % NC : Nat) : ℚ) + 1) * hQ M.spacing 0
      rw [hsp, hq0]
      push_cast
      ring
    · rw [eb, hW _ e2, rcDiv _ _ _ (by omega)]
      show ((i / NC * s : Nat) : ℚ) = ((i / NC : Nat) : ℚ) * hQ M.spacing 0
      rw [hsp, hq0]
      push_cast
      ring
    · rw [et, hW _ e3, rcMod _ _ _ (by omega)]
      show ((i % NC * s : Nat) : ℚ) = ((i % NC : Nat) : ℚ) * hQ M.spacing 0
      rw [hsp, hq0]
      push_cast
      ring
    · rw [et, hW _ e3, rcDiv _ _ _ (by omega)]
      show (((i / NC + 1) * s : Nat) : ℚ)
          = (((i / NC : Nat) : ℚ) + 1) * hQ M.spacing 0
      rw [hsp, hq0]
      push_cast
      ring
    · rw [etr, hW _ e4, rcMod _ _ _ (by omega)]
      show (((i % NC + 1) * s : Nat) : ℚ)
          = (((i % NC : Nat) : ℚ) + 1) * hQ M.spacing 0
      rw [hsp, hq0]
      push_cast
      ring
    · rw [etr, hW _ e4, rcDiv _ _ _ (by omega)]
      show (((i / NC + 1) * s : Nat) : ℚ)
          = (((i / NC : Nat) : ℚ) + 1) * hQ M.spacing 0
      rw [hsp, hq0]
      push_cast
      ring
  -- top_count
  · rw [hctt, hnrc, hncc]
  -- top_le
  · rw [hctt, hlen]
  -- top_cells
  · intro k hk
    rw [hctt] at hk
    rw [hC k hk, hncc]
    exact ⟨rfl, rfl, rfl⟩
  -- tier0_top
  · intro i hi _
    rw [hctt]
    rw [hlen] at hi
    exact hi

theorem wf_new_tier (mg : MultiGrid) (h : WF mg) : WF (new_tier mg).1 := by
  have hf := new_tier_fields mg
  exact wf_congr mg _ hf.1 hf.2.1 hf.2.2.1 hf.2.2.2.1 hf.2.2.2.2.1 h

/-- Every mesh reachable from construction by splits and tier additions
is well-formed. -/
theorem wf_reachable (mg : MultiGrid) (h : Reachable mg) : WF mg := by
  induction h with
  | base img s WS => exact wf_construct img s WS
  | step_split mg fuel ci _ ih => exact (splitFuel_ok fuel mg ci ih).1
  | step_new_tier mg _ ih => exact wf_new_tier mg ih

/-- C1: neighbour symmetry is an invariant.  On every mesh reachable
from construction by any sequence of splits (with or without swallowed
errors) and tier additions, for every pair of cells `i`, `j`:
`i.north = j ↔ j.south = i` and `i.east = j ↔ j.west = i`. -/
theorem c1_neighbour_symmetry (mg : MultiGrid) (h : Reachable mg)
    (i j : Nat) (hi : i < mg.cells.length) (hj : j < mg.cells.length) :
    ((cellAt mg i).north = some j ↔ (cellAt mg j).south = some i)
    ∧ ((cellAt mg i).east = some j ↔ (cellAt mg j).west = some i) := by
  have hw := wf_reachable mg h
  exact ⟨⟨hw.sym_north i hi j, fun hs => hw.sym_south j hj i hs⟩,
         ⟨hw.sym_east i hi j, fun hs => hw.sym_west j hj i hs⟩⟩

theorem c1_neighbour_symmetry_witness :
    ((cellAt mesh44s 1).north = some 3 ↔ (cellAt mesh44s 3).south = some 1)
    ∧ ((cellAt mesh44s 1).east = some 2 ↔ (cellAt mesh44s 2).west = some 1) :=
  ⟨(c1_neighbour_symmetry mesh44s
      (Reachable.step_split mesh44 (mesh44.cells.length + 1) 0
        (Reachable.base (4, 4) 2 5))
      1 3 (by decide) (by decide)).1,
   (c1_neighbour_symmetry mesh44s
      (Reachable.step_split mesh44 (mesh44.cells.length + 1) 0
        (Reachable.base (4, 4) 2 5))
      1 2 (by decide) (by decide)).2⟩

/-- C9: every cell of positive tier on a reachable mesh carries a
non-null in-range parent reference, so the unguarded `self.parent`
dereference in `split_neighbs_if_needed` cannot fail. -/
theorem c9_parent_nonnull (mg : MultiGrid) (h : Reachable mg) (i : Nat)
    (hi : i < mg.cells.length) (ht : 0 < (cellAt mg i).tier) :
    ∃ p, (cellAt mg i).parent = some p ∧ p < mg.cells.length := by
  have hw := wf_reachable mg h
  obtain ⟨p, hp, hlt, _⟩ := hw.parent_of i hi ht
  exact ⟨p, hp, by omega⟩

theorem c9_parent_nonnull_witness :
    ∃ p, (cellAt mesh44s 1).parent = some p
      ∧ p < mesh44s.cells.length :=
  c9_parent_nonnull mesh44s
    (Reachable.step_split mesh44 (mesh44.cells.length + 1) 0
      (Reachable.base (4, 4) 2 5))
    1 (by decide) (by decide)

/- ------------------------------------------------------------------
List counting helpers for the leaf traversal.
------------------------------------------------------------------- -/

theorem cpFlatMap {α β : Type} (l : List α) (f : α → List β) (p : β → Bool) :
    (l.flatMap f).countP p = (l.map (fun a => (f a).countP p)).sum := by
  induction l with
  | nil => rfl
  | cons a t ih =>
    simp only [List.flatMap_cons, List.countP_append, List.map_cons,
      List.sum_cons, ih]

theorem lenFlatMap {α β : Type} (l : List α) (f : α → List β) :
    (l.flatMap f).length = (l.map (fun a => (f a).length)).sum := by
  induction l with
  | nil => rfl
  | cons a t ih =>
    simp only [List.flatMap_cons, List.length_append, List.map_cons,
      List.sum_cons, ih]

theorem sumZero (n : Nat) (g : Nat → Nat) (h0 : ∀ k, k < n → g k = 0) :
    ((List.range n).map g).sum = 0 := by
  induction n with
  | zero => rfl
  | succ n ih =>
    rw [List.range_succ, List.map_append, List.sum_append]
    rw [ih (fun k hk => h0 k (by omega))]
    simp [h0 n (by omega)]

theorem sumIndOne (g : Nat → Nat) : ∀ n k0, k0 < n → g k0 = 1 →
    (∀ k, k < n → k ≠ k0 → g k = 0) →
    ((List.range n).map g).sum = 1 := by
  intro n
  induction n with
  | zero =>
    intro k0 hk _ _
    omega
  | succ n ih =>
    intro k0 hk h1 h0
    rw [List.range_succ, List.map_append, List.sum_append]
    by_cases he : k0 = n
    · rw [sumZero n g (fun k hk2 => h0 k (by omega) (by omega))]
      have hgn : g n = 1 := by rw [← he]; exact h1
      simp only [List.map_cons, List.map_nil, List.sum_cons, List.sum_nil]
      omega
    · rw [ih k0 (by omega) h1 (fun k hk2 hne => h0 k (by omega) hne)]
      have hgn : g n = 0 := h0 n (by omega) (fun e => he e.symm)
      simp only [List.map_cons, List.map_nil, List.sum_cons, List.sum_nil]
      omega

theorem sumRangeCongr (f g : Nat → Nat) : ∀ n, (∀ k, k < n → f k = g k) →
    ((List.range n).map f).sum = ((List.range n).map g).sum := by
  intro n
  induction n with
  | zero => intro _; rfl
  | succ n ih =>
    intro h
    rw [List.range_succ, List.map_append, List.map_append,
      List.sum_append, List.sum_append, ih (fun k hk => h k (by omega))]
    simp [h n (by omega)]

theorem sumRangeAdd (f g : Nat → Nat) : ∀ n,
    ((List.range n).map (fun k => f k + g k)).sum
      = ((List.range n).map f).sum + ((List.range n).map g).sum := by
  intro n
  induction n with
  | zero => rfl
  | succ n ih =>
    rw [List.range_succ]
    simp only [List.map_append, List.sum_append, ih,
      List.map_cons, List.map_nil, List.sum_cons, List.sum_nil]
    omega

theorem sumRangeMul (c : Nat) (f : Nat → Nat) : ∀ n,
    ((List.range n).map (fun k => c * f k)).sum
      = c * ((List.range n).map f).sum := by
  intro n
  induction n with
  | zero => simp
  | succ n ih =>
    rw [List.range_succ]
    simp only [List.map_append, List.sum_append, ih, List.map_cons,
      List.map_nil, List.sum_cons, List.sum_nil]
    ring

theorem sumRangeConst (c : Nat) : ∀ n,
    ((List.range n).map (fun _ => c)).sum = n * c := by
  intro n
  induction n with
  | zero => simp
  | succ n ih =>
    rw [List.range_succ]
    simp only [List.map_append, List.sum_append, ih, List.map_cons,
      List.map_nil, List.sum_cons, List.sum_nil]
    ring

theorem bool_not_true {p : Bool} (h : p = true → False) : p = false := by
  cases p
  · rfl
  · exact (h rfl).elim

/- ------------------------------------------------------------------
The subtree relation descB: unfolding, monotonicity, positions.
------------------------------------------------------------------- -/

theorem descB_zero (cs : List GridCell) (k j : Nat) :
    descB cs 0 k j = false := rfl

theorem descB_succ (cs : List GridCell) (fuel k j : Nat) :
    descB cs (fuel + 1) k j
      = ((j == k) ||
          match (cs.getD k default).children with
          | none => false
          | some q =>
            descB cs fuel q.bl j || descB cs fuel q.br j
              || descB cs fuel q.tl j || descB cs fuel q.tr j) := rfl

theorem descB_self (cs : List GridCell) (fuel k : Nat) :
    descB cs (fuel + 1) k k = true := by
  rw [descB_succ]
  simp

theorem descB_mono (cs : List GridCell) : ∀ fuel fuel' k j, fuel ≤ fuel' →
    descB cs fuel k j = true → descB cs fuel' k j = true := by
  intro fuel
  induction fuel with
  | zero =>
    intro fuel' k j _ hd
    rw [descB_zero] at hd
    exact absurd hd (by simp)
  | succ fuel ih =>
    intro fuel' k j hle hd
    obtain ⟨f', rfl⟩ : ∃ f', fuel' = f' + 1 := ⟨fuel' - 1, by omega⟩
    rw [descB_succ] at hd ⊢
    cases hq : (cs.getD k default).children with
    | none =>
      rw [hq] at hd
      simp only [Bool.or_eq_true] at hd ⊢
      rcases hd with he | hm
      · exact Or.inl he
      · simp at hm
    | some q =>
      rw [hq] at hd
      simp only [Bool.or_eq_true] at hd ⊢
      rcases hd with he | hm
      · exact Or.inl he
      · refine Or.inr ?_
        rcases hm with ((h1 | h2) | h3) | h4
        · exact Or.inl (Or.inl (Or.inl (ih f' q.bl j (by omega) h1)))
        · exact Or.inl (Or.inl (Or.inr (ih f' q.br j (by omega) h2)))
        · exact Or.inl (Or.inr (ih f' q.tl j (by omega) h3))
        · exact Or.inr (ih f' q.tr j (by omega) h4)

theorem descB_pos (mg : MultiGrid) (h : WF mg) : ∀ fuel k j,
    k < mg.cells.length → descB mg.cells fuel k j = true →
    j < mg.cells.length
    ∧ (cellAt mg k).tier ≤ (cellAt mg j).tier
    ∧ (cellAt mg j).ix / 2 ^ ((cellAt mg j).tier - (cellAt mg k).tier)
        = (cellAt mg k).ix
    ∧ (cellAt mg j).iy / 2 ^ ((cellAt mg j).tier - (cellAt mg k).tier)
        = (cellAt mg k).iy := by
  intro fuel
  induction fuel with
  | zero =>
    intro k j _ hd
    rw [descB_zero] at hd
    exact absurd hd (by simp)
  | succ fuel ih =>
    intro k j hk hd
    rw [descB_succ] at hd
    cases hq : (mg.cells.getD k default).children with
    | none =>
      rw [hq] at hd
      simp only [Bool.or_eq_true] at hd
      rcases hd with he | hm
      · have hjk : j = k := eq_of_beq he
        subst hjk
        refine ⟨hk, le_refl _, ?_, ?_⟩
        · rw [Nat.sub_self, pow_zero, Nat.div_one]
        · rw [Nat.sub_self, pow_zero, Nat.div_one]
      · simp at hm
    | some q =>
      rw [hq] at hd
      simp only [Bool.or_eq_true] at hd
      rcases hd with he | hm
      · have hjk : j = k := eq_of_beq he
        subst hjk
        refine ⟨hk, le_refl _, ?_, ?_⟩
        · rw [Nat.sub_self, pow_zero, Nat.div_one]
        · rw [Nat.sub_self, pow_zero, Nat.div_one]
      · obtain ⟨hlt, eBR, eTL, eTR, hE5, cbl, cbr, ctl, ctr⟩ :=
          h.children_ok k hk q (show (cellAt mg k).children = some q from hq)
        have step : ∀ (c dx dy : Nat), c < mg.cells.length →
            (cellAt mg c).tier = (cellAt mg k).tier + 1 →
            (cellAt mg c).ix = 2 * (cellAt mg k).ix + dx → dx < 2 →
            (cellAt mg c).iy = 2 * (cellAt mg k).iy + dy → dy < 2 →
            descB mg.cells fuel c j = true →
            j < mg.cells.length
            ∧ (cellAt mg k).tier ≤ (cellAt mg j).tier
            ∧ (cellAt mg j).ix / 2 ^ ((cellAt mg j).tier - (cellAt mg k).tier)
                = (cellAt mg k).ix
            ∧ (cellAt mg j).iy / 2 ^ ((cellAt mg j).tier - (cellAt mg k).tier)
                = (cellAt mg k).iy := by
          intro c dx dy hc htc hxc hdx hyc hdy hdc
          obtain ⟨j1, j2, j3, j4⟩ := ih c j hc hdc
          rw [htc] at j2 j3 j4
          refine ⟨j1, by omega, ?_, ?_⟩
          · have hex : (cellAt mg j).tier - (cellAt mg k).tier
                = ((cellAt mg j).tier - ((cellAt mg k).tier + 1)) + 1 := by
              omega
            rw [hex, pow_succ, ← Nat.div_div_eq_div_mul, j3, hxc]
            omega
          · have hex : (cellAt mg j).tier - (cellAt mg k).tier
                = ((cellAt mg j).tier - ((cellAt mg k).tier + 1)) + 1 := by
              omega
            rw [hex, pow_succ, ← Nat.div_div_eq_div_mul, j4, hyc]
            omega
        rcases hm with ((h1 | h2) | h3) | h4
        · exact step q.bl 0 0 (by omega) cbl.1 (by rw [cbl.2.1]; omega) (by omega)
            (by rw [cbl.2.2.1]; omega) (by omega) h1
        · exact step q.br 1 0 (by omega) cbr.1 (by rw [cbr.2.1]) (by omega)
            (by rw [cbr.2.2.1]; omega) (by omega) h2
        · exact step q.tl 0 1 (by omega) ctl.1 (by rw [ctl.2.1]; omega) (by omega)
            (by rw [ctl.2.2.1]) (by omega) h3
        · exact step q.tr 1 1 (by omega) ctr.1 (by rw [ctr.2.1]) (by omega)
            (by rw [ctr.2.2.1]) (by omega) h4

theorem descB_step (cs : List GridCell) : ∀ fuel k p,
    descB cs fuel k p = true →
    ∀ q, (cs.getD p default).children = some q →
    ∀ c, c = q.bl ∨ c = q.br ∨ c = q.tl ∨ c = q.tr →
    descB cs (fuel + 1) k c = true := by
  intro fuel
  induction fuel with
  | zero =>
    intro k p hd
    rw [descB_zero] at hd
    exact absurd hd (by simp)
  | succ fuel ih =>
    intro k p hd q hq c hc
    rw [descB_succ] at hd
    rw [descB_succ]
    cases hgk : (cs.getD k default).children with
    | none =>
      rw [hgk] at hd
      simp only [Bool.or_eq_true] at hd
      rcases hd with he | hm
      · have hpk : p = k := eq_of_beq he
        rw [hpk] at hq
        exact Option.noConfusion (hgk.symm.trans hq)
      · simp at hm
    | some qk =>
      rw [hgk] at hd
      simp only [Bool.or_eq_true] at hd ⊢
      rcases hd with he | hm
      · have hpk : p = k := eq_of_beq he
        subst hpk
        have hqq : qk = q := by
          injection hgk.symm.trans hq
        subst hqq
        refine Or.inr ?_
        rcases hc with e | e | e | e
        · exact Or.inl (Or.inl (Or.inl
            (by rw [e]; exact descB_self cs fuel _)))
        · exact Or.inl (Or.inl (Or.inr
            (by rw [e]; exact descB_self cs fuel _)))
        · exact Or.inl (Or.inr (by rw [e]; exact descB_self cs fuel _))
        · exact Or.inr (by rw [e]; exact descB_self cs fuel _)
      · refine Or.inr ?_
        rcases hm with ((h1 | h2) | h3) | h4
        · exact Or.inl (Or.inl (Or.inl (ih qk.bl p h1 q hq c hc)))
        · exact Or.inl (Or.inl (Or.inr (ih qk.br p h2 q hq c hc)))
        · exact Or.inl (Or.inr (ih qk.tl p h3 q hq c hc))
        · exact Or.inr (ih qk.tr p h4 q hq c hc)

theorem tier_le_index (mg : MultiGrid) (h : WF mg) : ∀ i,
    i < mg.cells.length → (cellAt mg i).tier ≤ i := by
  intro i
  induction i using Nat.strong_induction_on with
  | _ i ih =>
    intro hi
    by_cases ht : 0 < (cellAt mg i).tier
    · obtain ⟨p, hp, hpi, hpt, _⟩ := h.parent_of i hi ht
      have := ih p hpi (by omega)
      omega
    · omega

theorem descB_root_exists (mg : MultiGrid) (h : WF mg) : ∀ t i,
    i < mg.cells.length → (cellAt mg i).tier = t →
    ∃ k, k < mg.cells_in_top_tier
      ∧ descB mg.cells (t + 1) k i = true := by
  intro t
  induction t with
  | zero =>
    intro i hi ht
    exact ⟨i, h.tier0_top i hi ht, descB_self mg.cells 0 i⟩
  | succ t ih =>
    intro i hi ht
    obtain ⟨p, hp, hpi, hpt, hpx, hpy, q, hq, hslot⟩ :=
      h.parent_of i hi (by omega)
    have hplt : p < mg.cells.length := by omega
    have hptt : (cellAt mg p).tier = t := by omega
    obtain ⟨k, hk, hd⟩ := ih p hplt hptt
    refine ⟨k, hk, ?_⟩
    refine descB_step mg.cells (t + 1) k p hd q hq i ?_
    unfold childSlot at hslot
    by_cases hy : (cellAt mg i).iy % 2 = 0
    · by_cases hx : (cellAt mg i).ix % 2 = 0
      · rw [if_pos hy, if_pos hx] at hslot
        exact Or.inl hslot.symm
      · rw [if_pos hy, if_neg hx] at hslot
        exact Or.inr (Or.inl hslot.symm)
    · by_cases hx : (cellAt mg i).ix % 2 = 0
      · rw [if_neg hy, if_pos hx] at hslot
        exact Or.inr (Or.inr (Or.inl hslot.symm))
      · rw [if_neg hy, if_neg hx] at hslot
        exact Or.inr (Or.inr (Or.inr hslot.symm))

theorem descB_root_unique (mg : MultiGrid) (h : WF mg)
    (i k1 k2 f1 f2 : Nat)
    (hk1 : k1 < mg.cells_in_top_tier) (hk2 : k2 < mg.cells_in_top_tier)
    (d1 : descB mg.cells f1 k1 i = true)
    (d2 : descB mg.cells f2 k2 i = true) : k1 = k2 := by
  have hl1 : k1 < mg.cells.length := lt_of_lt_of_le hk1 h.top_le
  have hl2 : k2 < mg.cells.length := lt_of_lt_of_le hk2 h.top_le
  obtain ⟨t1, x1, y1⟩ := h.top_cells k1 hk1
  obtain ⟨t2, x2, y2⟩ := h.top_cells k2 hk2
  obtain ⟨_, _, px1, py1⟩ := descB_pos mg h f1 k1 i hl1 d1
  obtain ⟨_, _, px2, py2⟩ := descB_pos mg h f2 k2 i hl2 d2
  rw [t1, x1] at px1
  rw [t1, y1] at py1
  rw [t2, x2] at px2
  rw [t2, y2] at py2
  have ex : k1 % mg.n_cc = k2 % mg.n_cc := by rw [← px1, ← px2]
  have ey : k1 / mg.n_cc = k2 / mg.n_cc := by rw [← py1, ← py2]
  have e1 := Nat.div_add_mod k1 mg.n_cc
  have e2 := Nat.div_add_mod k2 mg.n_cc
  rw [ey, ex, e2] at e1
  exact e1.symm

theorem descB_disjoint (mg : MultiGrid) (h : WF mg) (a b j f1 f2 : Nat)
    (ha : a < mg.cells.length) (hb : b < mg.cells.length)
    (ht : (cellAt mg a).tier = (cellAt mg b).tier)
    (hne : ¬((cellAt mg a).ix = (cellAt mg b).ix
        ∧ (cellAt mg a).iy = (cellAt mg b).iy))
    (d1 : descB mg.cells f1 a j = true)
    (d2 : descB mg.cells f2 b j = true) : False := by
  obtain ⟨_, _, pxa, pya⟩ := descB_pos mg h f1 a j ha d1
  obtain ⟨_, _, pxb, pyb⟩ := descB_pos mg h f2 b j hb d2
  rw [ht] at pxa pya
  exact hne ⟨by rw [← pxa, ← pxb], by rw [← pya, ← pyb]⟩

/- ------------------------------------------------------------------
Unfolding equations for the leaf traversal and the split-all loop.
------------------------------------------------------------------- -/

theorem leafDescD_succ (cs : List GridCell) (fuel i : Nat) :
    leafDescD cs (fuel + 1) i
      = (match (cs.getD i default).children with
         | none => [i]
         | some q =>
           leafDescD cs fuel q.bl ++ leafDescD cs fuel q.br ++
           leafDescD cs fuel q.tl ++ leafDescD cs fuel q.tr) := rfl

theorem splitAllAux_cons (i : Nat) (rest : List Nat) (mg : MultiGrid) :
    splitAllAux (i :: rest) mg
      = (match split mg i with
         | (mg1, some e) => (mg1, some e)
         | (mg1, none) => splitAllAux rest mg1) := rfl

/-- a split that triggers no cascading neighbour splits is exactly the
tail phase of `split` (window creation, children, linking). -/
theorem split_noCascadeEq (mg : MultiGrid) (ci : Nat)
    (hci : ci < mg.cells.length) (hcn : (cellAt mg ci).children = none)
    (hnc : noCascadeB mg ci = true) :
    split mg ci = splitTail mg ci := by
  show splitBody (splitFuel mg.cells.length) mg ci = splitTail mg ci
  simp only [splitBody]
  rw [if_pos hci,
    if_neg (by rw [hcn]; simp :
      ¬ ((cellAt mg ci).children.isSome = true))]
  by_cases ht : 0 < (cellAt mg ci).tier
  · rw [if_pos ht]
    have e0 : ((cellAt mg ci).tier == 0) = false :=
      beq_eq_false_iff_ne.2 (by omega)
    unfold noCascadeB at hnc
    rw [e0, Bool.false_or] at hnc
    simp only [Bool.and_eq_true] at hnc
    have dire : ∀ gd : GridCell → Option Nat, dirClearB mg ci gd = true →
        splitNeighbDir (splitFuel mg.cells.length) mg ci gd
          = (mg, none) := by
      intro gd hd
      unfold splitNeighbDir
      cases hg : gd (cellAt mg ci) with
      | some v => rfl
      | none =>
        have hd2 : (match (cellAt mg ci).parent with
            | none => false
            | some p => (gd (cellAt mg p)).isNone) = true := by
          unfold dirClearB at hd
          rw [hg] at hd
          exact hd
        cases hp : (cellAt mg ci).parent with
        | none =>
          rw [hp] at hd2
          simp at hd2
        | some p =>
          rw [hp] at hd2
          have hd3 : (gd (cellAt mg p)).isNone = true := hd2
          show (match gd (cellAt mg p) with
                | none => (mg, none)
                | some pn => splitFuel mg.cells.length mg pn)
              = (mg, none)
          rw [Option.isNone_iff_eq_none.1 hd3]
    have hsn : split_neighbs_if_needed (splitFuel mg.cells.length) mg ci
        = (mg, none) := by
      simp only [split_neighbs_if_needed, dire _ hnc.1.1.1,
        dire _ hnc.1.1.2, dire _ hnc.1.2, dire _ hnc.2]
    rw [hsn]
  · rw [if_neg ht]

/- ------------------------------------------------------------------
Leaf-count delta of one tail-phase split.
------------------------------------------------------------------- -/

theorem leaf_delta (mg : MultiGrid) (ci : Nat) (h : WF mg)
    (hci : ci < mg.cells.length) (hcn : (cellAt mg ci).children = none)
    (R : MultiGrid)
    (hRci : (cellAt R ci).children
      = some (Children.mk mg.cells.length (mg.cells.length + 1)
          (mg.cells.length + 2) (mg.cells.length + 3)))
    (hRne : ∀ k, k ≠ ci →
      (cellAt R k).children = (cellAt mg k).children) :
    ∀ fuel k, k < mg.cells.length → mg.cells.length - k ≤ fuel →
    ∀ fuel', mg.cells.length + 4 - k ≤ fuel' →
    (leafDescD R.cells fuel' k).length
      = (leafDescD mg.cells fuel k).length
        + 3 * (if descB mg.cells fuel k ci = true then 1 else 0) := by
  intro fuel
  induction fuel with
  | zero =>
    intro k hk hf
    exact absurd hf (by omega)
  | succ fuel ih =>
    intro k hk hf fuel' hf'
    obtain ⟨f', rfl⟩ : ∃ f', fuel' = f' + 1 := ⟨fuel' - 1, by omega⟩
    by_cases hkc : k = ci
    · subst hkc
      have em : leafDescD mg.cells (fuel + 1) k = [k] := by
        rw [leafDescD_succ,
          show (mg.cells.getD k default).children = none from hcn]
      have hR4 : leafDescD R.cells (f' + 1) k
          = leafDescD R.cells f' mg.cells.length
            ++ leafDescD R.cells f' (mg.cells.length + 1)
            ++ leafDescD R.cells f' (mg.cells.length + 2)
            ++ leafDescD R.cells f' (mg.cells.length + 3) := by
        rw [leafDescD_succ,
          show (R.cells.getD k default).children
            = some (Children.mk mg.cells.length (mg.cells.length + 1)
                (mg.cells.length + 2) (mg.cells.length + 3)) from hRci]
      have hleaf : ∀ m, mg.cells.length ≤ m → m < mg.cells.length + 4 →
          leafDescD R.cells f' m = [m] := by
        intro m hm1 hm2
        obtain ⟨f2, rfl⟩ : ∃ f2, f' = f2 + 1 := ⟨f' - 1, by omega⟩
        have hch : (cellAt R m).children = none := by
          rw [hRne m (by omega), cellAt_oob mg m hm1]
          rfl
        rw [leafDescD_succ,
          show (R.cells.getD m default).children = none from hch]
      rw [em, hR4, hleaf mg.cells.length (by omega) (by omega),
        hleaf (mg.cells.length + 1) (by omega) (by omega),
        hleaf (mg.cells.length + 2) (by omega) (by omega),
        hleaf (mg.cells.length + 3) (by omega) (by omega),
        if_pos (descB_self mg.cells fuel k)]
      simp
    · have hRk : (cellAt R k).children = (cellAt mg k).children :=
        hRne k hkc
      cases hq : (cellAt mg k).children with
      | none =>
        have em : leafDescD mg.cells (fuel + 1) k = [k] := by
          rw [leafDescD_succ,
            show (mg.cells.getD k default).children = none from hq]
        have eR : leafDescD R.cells (f' + 1) k = [k] := by
          rw [leafDescD_succ,
            show (R.cells.getD k default).children = none
              from hRk.trans hq]
        have hnd : descB mg.cells (fuel + 1) k ci = false := by
          rw [descB_succ,
            show (mg.cells.getD k default).children = none from hq,
            show (ci == k) = false from
              beq_eq_false_iff_ne.2 (fun e => hkc e.symm)]
          rfl
        rw [em, eR, hnd]
        simp
      | some q =>
        obtain ⟨hlt, eBR, eTL, eTR, hE5, cbl, cbr, ctl, ctr⟩ :=
          h.children_ok k hk q hq
        have em : leafDescD mg.cells (fuel + 1) k
            = leafDescD mg.cells fuel q.bl
              ++ leafDescD mg.cells fuel q.br
              ++ leafDescD mg.cells fuel q.tl
              ++ leafDescD mg.cells fuel q.tr := by
          rw [leafDescD_succ,
            show (mg.cells.getD k default).children = some q from hq]
        have eR : leafDescD R.cells (f' + 1) k
            = leafDescD R.cells f' q.bl ++ leafDescD R.cells f' q.br
              ++ leafDescD R.cells f' q.tl ++ leafDescD R.cells f' q.tr := by
          rw [leafDescD_succ,
            show (R.cells.getD k default).children = some q
              from hRk.trans hq]
        have i1 := ih q.bl (by omega) (by omega) f' (by omega)
        have i2 := ih q.br (by omega) (by omega) f' (by omega)
        have i3 := ih q.tl (by omega) (by omega) f' (by omega)
        have i4 := ih q.tr (by omega) (by omega) f' (by omega)
        have hd : descB mg.cells (fuel + 1) k ci
            = (descB mg.cells fuel q.bl ci
               || descB mg.cells fuel q.br ci
               || descB mg.cells fuel q.tl ci
               || descB mg.cells fuel q.tr ci) := by
          rw [descB_succ,
            show (mg.cells.getD k default).children = some q from hq,
            show (ci == k) = false from
              beq_eq_false_iff_ne.2 (fun e => hkc e.symm),
            Bool.false_or]
        have pos1 : q.bl < mg.cells.length := by omega
        have pos2 : q.br < mg.cells.length := by omega
        have pos3 : q.tl < mg.cells.length := by omega
        have pos4 : q.tr < mg.cells.length := by omega
        have D12 : descB mg.cells fuel q.bl ci = true →
            descB mg.cells fuel q.br ci = true → False := fun u v =>
          descB_disjoint mg h q.bl q.br ci fuel fuel pos1 pos2
            (by rw [cbl.1, cbr.1])
            (by rw [cbl.2.1, cbr.2.1]; intro hc; omega) u v
        have D13 : descB mg.cells fuel q.bl ci = true →
            descB mg.cells fuel q.tl ci = true → False := fun u v =>
          descB_disjoint mg h q.bl q.tl ci fuel fuel pos1 pos3
            (by rw [cbl.1, ctl.1])
            (by rw [cbl.2.2.1, ctl.2.2.1]; intro hc; omega) u v
        have D14 : descB mg.cells fuel q.bl ci = true →
            descB mg.cells fuel q.tr ci = true → False := fun u v =>
          descB_disjoint mg h q.bl q.tr ci fuel fuel pos1 pos4
            (by rw [cbl.1, ctr.1])
            (by rw [cbl.2.1, ctr.2.1]; intro hc; omega) u v
        have D23 : descB mg.cells fuel q.br ci = true →
            descB mg.cells fuel q.tl ci = true → False := fun u v =>
          descB_disjoint mg h q.br q.tl ci fuel fuel pos2 pos3
            (by rw [cbr.1, ctl.1])
            (by rw [cbr.2.1, ctl.2.1]; intro hc; omega) u v
        have D24 : descB mg.cells fuel q.br ci = true →
            descB mg.cells fuel q.tr ci = true → False := fun u v =>
          descB_disjoint mg h q.br q.tr ci fuel fuel pos2 pos4
            (by rw [cbr.1, ctr.1])
            (by rw [cbr.2.2.1, ctr.2.2.1]; intro hc; omega) u v
        have D34 : descB mg.cells fuel q.tl ci = true →
            descB mg.cells fuel q.tr ci = true → False := fun u v =>
          descB_disjoint mg h q.tl q.tr ci fuel fuel pos3 pos4
            (by rw [ctl.1, ctr.1])
            (by rw [ctl.2.1, ctr.2.1]; intro hc; omega) u v
        have hsum : (if descB mg.cells fuel q.bl ci = true then 1 else 0)
            + (if descB mg.cells fuel q.br ci = true then 1 else 0)
            + (if descB mg.cells fuel q.tl ci = true then 1 else 0)
            + (if descB mg.cells fuel q.tr ci = true then 1 else 0)
            = (if descB mg.cells (fuel + 1) k ci = true then (1 : Nat)
               else 0) := by
          rw [hd]
          by_cases c1 : descB mg.cells fuel q.bl ci = true
          · have c2 := bool_not_true (fun v => D12 c1 v)
            have c3 := bool_not_true (fun v => D13 c1 v)
            have c4 := bool_not_true (fun v => D14 c1 v)
            rw [c1, c2, c3, c4]
            simp
          · have c1f := bool_not_true c1
            by_cases c2 : descB mg.cells fuel q.br ci = true
            · have c3 := bool_not_true (fun v => D23 c2 v)
              have c4 := bool_not_true (fun v => D24 c2 v)
              rw [c1f, c2, c3, c4]
              simp
            · have c2f := bool_not_true c2
              by_cases c3 : descB mg.cells fuel q.tl ci = true
              · have c4 := bool_not_true (fun v => D34 c3 v)
                rw [c1f, c2f, c3, c4]
                simp
              · have c3f := bool_not_true c3
                by_cases c4 : descB mg.cells fuel q.tr ci = true
                · rw [c1f, c2f, c3f, c4]
                  simp
                · have c4f := bool_not_true c4
                  rw [c1f, c2f, c3f, c4f]
                  simp
        rw [em, eR]
        simp only [List.length_append]
        rw [i1, i2, i3, i4, ← hsum]
        omega

/-- C4 (amended): a split that triggers no cascading neighbour splits
(in particular every split of a tier-0 cell, and every split whose four
directions are clear) increases the leaf-cell count of the mesh by
exactly 3 and the point count by between 1 and 5, and the centre point
of the split cell is always freshly allocated: the `id_tr` of the new
bottom-left child is a window id beyond every pre-existing window. -/
theorem c4_growth_law_amended (mg : MultiGrid) (ci : Nat)
    (h : Reachable mg) (hci : ci < mg.cells.length)
    (hcn : (cellAt mg ci).children = none)
    (hnc : noCascadeB mg ci = true) :
    (get_all_leaf_cells (split mg ci).1).length
        = (get_all_leaf_cells mg).length + 3
    ∧ mg.windows.length + 1 ≤ (split mg ci).1.windows.length
    ∧ (split mg ci).1.windows.length ≤ mg.windows.length + 5
    ∧ ∃ q, (cellAt (split mg ci).1 ci).children = some q
        ∧ mg.windows.length ≤ (cellAt (split mg ci).1 q.bl).id_tr
        ∧ (cellAt (split mg ci).1 q.bl).id_tr
            < (split mg ci).1.windows.length := by
  have hWF := wf_reachable mg h
  have hsp := split_noCascadeEq mg ci hci hcn hnc
  obtain ⟨hok, hlen4, hchci, hfresh, hw1, hw5, hchne, hE1, hE2, hwin,
    hctr⟩ := splitTail_ok mg ci hWF hci hcn
  rw [hsp]
  refine ⟨?_, hw1, hw5,
    ⟨Children.mk mg.cells.length (mg.cells.length + 1)
      (mg.cells.length + 2) (mg.cells.length + 3), hchci, ?_, ?_⟩⟩
  · have hctt : (splitTail mg ci).1.cells_in_top_tier
        = mg.cells_in_top_tier := hok.2.2.2.2.2.1
    show ((List.range (splitTail mg ci).1.cells_in_top_tier).flatMap
        (leafDescD (splitTail mg ci).1.cells
          (splitTail mg ci).1.cells.length)).length
      = ((List.range mg.cells_in_top_tier).flatMap
          (leafDescD mg.cells mg.cells.length)).length + 3
    rw [hctt, hlen4, lenFlatMap, lenFlatMap]
    have hdelta : ∀ k, k < mg.cells_in_top_tier →
        (leafDescD (splitTail mg ci).1.cells
            (mg.cells.length + 4) k).length
          = (leafDescD mg.cells mg.cells.length k).length
            + 3 * (if descB mg.cells mg.cells.length k ci = true
                   then 1 else 0) := by
      intro k hk
      exact leaf_delta mg ci hWF hci hcn (splitTail mg ci).1 hchci hchne
        mg.cells.length k (lt_of_lt_of_le hk hWF.top_le) (by omega)
        (mg.cells.length + 4) (by omega)
    rw [sumRangeCongr
      (fun a => (leafDescD (splitTail mg ci).1.cells
        (mg.cells.length + 4) a).length)
      (fun k => (leafDescD mg.cells mg.cells.length k).length
        + 3 * (if descB mg.cells mg.cells.length k ci = true
               then 1 else 0))
      mg.cells_in_top_tier hdelta]
    rw [sumRangeAdd
      (fun k => (leafDescD mg.cells mg.cells.length k).length)
      (fun k => 3 * (if descB mg.cells mg.cells.length k ci = true
                     then 1 else 0))
      mg.cells_in_top_tier]
    rw [sumRangeMul 3
      (fun k => if descB mg.cells mg.cells.length k ci = true
                then 1 else 0)
      mg.cells_in_top_tier]
    have hone : ((List.range mg.cells_in_top_tier).map
        (fun k => if descB mg.cells mg.cells.length k ci = true
                  then 1 else 0)).sum = 1 := by
      obtain ⟨k0, hk0, hd0⟩ := descB_root_exists mg hWF
        (cellAt mg ci).tier ci hci rfl
      have htle : (cellAt mg ci).tier + 1 ≤ mg.cells.length := by
        have := tier_le_index mg hWF ci hci
        omega
      have hd0m : descB mg.cells mg.cells.length k0 ci = true :=
        descB_mono mg.cells ((cellAt mg ci).tier + 1) mg.cells.length
          k0 ci htle hd0
      exact sumIndOne _ mg.cells_in_top_tier k0 hk0
        (by rw [if_pos hd0m])
        (fun k hk hne => by
          have hf : descB mg.cells mg.cells.length k ci = false :=
            bool_not_true (fun hdk =>
              hne (descB_root_unique mg hWF ci k k0 mg.cells.length
                mg.cells.length hk hk0 hdk hd0m))
          simp [hf])
    rw [hone]
  · show mg.windows.length
        ≤ (cellAt (splitTail mg ci).1 mg.cells.length).id_tr
    rw [hctr]
    exact crw_cm_fresh mg ci
  · show (cellAt (splitTail mg ci).1 mg.cells.length).id_tr
        < (splitTail mg ci).1.windows.length
    have e : (splitTail mg ci).1.windows.length
        = (create_new_corrWindows mg ci).1.windows.length := by
      rw [hwin]
    rw [hctr, e]
    exact (crw_spec mg ci hWF hci).2.2.1.1

theorem c4_growth_law_amended_witness :
    (0 < mesh44.cells.length ∧ (cellAt mesh44 0).children = none
      ∧ noCascadeB mesh44 0 = true)
    ∧ (get_all_leaf_cells (split mesh44 0).1).length
        = (get_all_leaf_cells mesh44).length + 3 :=
  ⟨⟨by decide, by decide, by decide⟩,
   (c4_growth_law_amended mesh44 0 (Reachable.base (4, 4) 2 5)
     (by decide) (by decide) (by decide)).1⟩

/-- The loop invariant of `split_all_cells` on a freshly constructed
mesh with even spacing: processing cells `j, j+1, ..., j+m-1` of the
original `n` tier-0 cells succeeds, each split appending its four
children at the block `n + 4k .. n + 4k + 3`. -/
theorem splitAllAux_inv (n s : Nat) (hs2 : s % 2 = 0) :
    ∀ m j mg, m = n - j → j ≤ n → WF mg →
    mg.cells.length = n + 4 * j →
    mg.cells_in_top_tier = n →
    mg.spacing = s →
    (∀ k, k < n → (cellAt mg k).tier = 0) →
    (∀ k, j ≤ k → k < n → (cellAt mg k).children = none) →
    (∀ k, k < j → (cellAt mg k).children
        = some (Children.mk (n + 4 * k) (n + 4 * k + 1)
            (n + 4 * k + 2) (n + 4 * k + 3))) →
    (∀ k, n ≤ k → (cellAt mg k).children = none) →
    ((j = 0 ∧ mg.max_tier = 0) ∨ (0 < j ∧ mg.max_tier = 1)) →
    (splitAllAux (List.range' j m) mg).2 = none
    ∧ (splitAllAux (List.range' j m) mg).1.cells.length = n + 4 * n
    ∧ (splitAllAux (List.range' j m) mg).1.cells_in_top_tier = n
    ∧ (∀ k, k < n →
        (cellAt (splitAllAux (List.range' j m) mg).1 k).children
          = some (Children.mk (n + 4 * k) (n + 4 * k + 1)
              (n + 4 * k + 2) (n + 4 * k + 3)))
    ∧ (∀ k, n ≤ k →
        (cellAt (splitAllAux (List.range' j m) mg).1 k).children
          = none) := by
  intro m
  induction m with
  | zero =>
    intro j mg hm hj hWF hlen hctt hsp htier hnone hsome happ hmax
    have hjn : j = n := by omega
    refine ⟨rfl, ?_, ?_, ?_, ?_⟩
    · show mg.cells.length = n + 4 * n
      omega
    · show mg.cells_in_top_tier = n
      exact hctt
    · intro k hk
      show (cellAt mg k).children = _
      exact hsome k (by omega)
    · intro k hk
      show (cellAt mg k).children = none
      exact happ k hk
  | succ m ih =>
    intro j mg hm hj hWF hlen hctt hsp htier hnone hsome happ hmax
    have hjlt : j < n := by omega
    rw [show List.range' j (m + 1) = j :: List.range' (j + 1) m from rfl,
      splitAllAux_cons]
    have hcij : j < mg.cells.length := by omega
    have htj : (cellAt mg j).tier = 0 := htier j hjlt
    have hchj : (cellAt mg j).children = none := hnone j (le_refl j) hjlt
    have hncj : noCascadeB mg j = true := by
      unfold noCascadeB
      rw [htj]
      rfl
    have hspj := split_noCascadeEq mg j hcij hchj hncj
    obtain ⟨hok, hlen4, hchci, hfresh2, hw1, hw5, hchne, hEa, hEb, hwinj,
      hctrj⟩ := splitTail_ok mg j hWF hcij hchj
    have herr : (splitTail mg j).2 = none
        ∧ (splitTail mg j).1.max_tier = 1 := by
      rcases hmax with ⟨hj0, hmt⟩ | ⟨hjpos, hmt⟩
      · have hres := hEb (by omega)
          (by rw [hmt, pow_zero, Nat.div_one, hsp]; exact hs2)
        exact ⟨hres.1, by rw [hres.2, hmt]⟩
      · have hres := hEa (by omega)
        exact ⟨hres.1, by rw [hres.2, hmt]⟩
    have hpair : split mg j = ((splitTail mg j).1, none) := by
      rw [hspj, ← herr.1]
    rw [hpair]
    set R := (splitTail mg j).1 with hR
    have hstat : ∀ k, k < mg.cells.length →
        staticEq (cellAt R k) (cellAt mg k) := hok.2.2.2.2.2.2.2.2.1
    have hWF2 : WF R := hok.1
    have hlen2 : R.cells.length = n + 4 * (j + 1) := by omega
    have hctt2 : R.cells_in_top_tier = n := by
      rw [hok.2.2.2.2.2.1]
      exact hctt
    have hsp2 : R.spacing = s := by
      rw [hok.2.2.2.1]
      exact hsp
    have htier2 : ∀ k, k < n → (cellAt R k).tier = 0 := by
      intro k hk
      rw [(hstat k (by omega)).1]
      exact htier k hk
    have hnone2 : ∀ k, j + 1 ≤ k → k < n → (cellAt R k).children = none := by
      intro k h1 h2
      rw [hchne k (by omega)]
      exact hnone k (by omega) h2
    have hsome2 : ∀ k, k < j + 1 → (cellAt R k).children
        = some (Children.mk (n + 4 * k) (n + 4 * k + 1)
            (n + 4 * k + 2) (n + 4 * k + 3)) := by
      intro k hk
      by_cases hkj : k = j
      · subst hkj
        rw [hchci]
        have e : mg.cells.length = n + 4 * k := by omega
        rw [e]
      · rw [hchne k hkj]
        exact hsome k (by omega)
    have happ2 : ∀ k, n ≤ k → (cellAt R k).children = none := by
      intro k hk
      by_cases hkm : k < mg.cells.length
      · rw [hchne k (by omega)]
        exact happ k hk
      · by_cases hkm4 : k < mg.cells.length + 4
        · exact (hfresh2 k (by omega) (by omega)).1
        · rw [cellAt_oob R k (by omega)]
          rfl
    have hmax2 : (j + 1 = 0 ∧ R.max_tier = 0)
        ∨ (0 < j + 1 ∧ R.max_tier = 1) :=
      Or.inr ⟨by omega, herr.2⟩
    exact ih (j + 1) R (by omega) (by omega) hWF2 hlen2 hctt2 hsp2
      htier2 hnone2 hsome2 happ2 hmax2

/-- C5 (amended): on a freshly constructed mesh with even spacing,
`split_all_cells` succeeds, splits every current (tier-0) leaf exactly
once - the cell count grows from `n` to `5n`, every original cell gains
children - and the leaf enumeration afterwards holds exactly `4n`
leaves, the four children of each original cell. -/
theorem c5_split_all_amended (H W s : Nat) (WS : ℚ) (hs : s % 2 = 0) :
    (split_all_cells (construct (H, W) s WS)).2 = none
    ∧ (split_all_cells (construct (H, W) s WS)).1.cells.length
        = 5 * (construct (H, W) s WS).cells.length
    ∧ (∀ k, k < (construct (H, W) s WS).cells.length →
        ((cellAt (split_all_cells (construct (H, W) s WS)).1 k).children
          ).isSome = true)
    ∧ (get_all_leaf_cells
        (split_all_cells (construct (H, W) s WS)).1).length
        = 4 * (construct (H, W) s WS).cells.length := by
  set M0 := construct (H, W) s WS with hM0
  set n := M0.cells.length with hn
  have hWF0 : WF M0 := wf_construct (H, W) s WS
  have hclen : n = (numPts (H, W).1 s - 1) * (numPts (H, W).2 s - 1) := by
    rw [hn, hM0]
    exact construct_cells_length (H, W) s WS
  have hctt0 : M0.cells_in_top_tier = n := by
    rw [hclen, hM0]
    rfl
  have htier0 : ∀ k, k < n → (cellAt M0 k).tier = 0 := by
    intro k hk
    rw [hM0, cellAt_construct (H, W) s WS k (by omega)]
    rfl
  have hnone0 : ∀ k, 0 ≤ k → k < n → (cellAt M0 k).children = none := by
    intro k _ hk
    rw [hM0, cellAt_construct (H, W) s WS k (by omega)]
    rfl
  have happ0 : ∀ k, n ≤ k → (cellAt M0 k).children = none := by
    intro k hk
    rw [cellAt_oob M0 k (by omega)]
    rfl
  have inv := splitAllAux_inv n s hs n 0 M0 (by omega) (by omega) hWF0
    (by omega) hctt0 rfl htier0 hnone0
    (fun k hk => absurd hk (by omega)) happ0 (Or.inl ⟨rfl, rfl⟩)
  have hsac : split_all_cells M0 = splitAllAux (List.range' 0 n) M0 := by
    show splitAllAux (List.range M0.cells.length) M0 = _
    rw [← hn, List.range_eq_range']
  rw [hsac]
  obtain ⟨e1, e2, e3, e4, e5⟩ := inv
  refine ⟨e1, by rw [e2]; ring, ?_, ?_⟩
  · intro k hk
    rw [e4 k hk]
    rfl
  · set F := (splitAllAux (List.range' 0 n) M0).1 with hF
    show ((List.range F.cells_in_top_tier).flatMap
        (leafDescD F.cells F.cells.length)).length = 4 * n
    rw [e3, e2, lenFlatMap]
    by_cases hn0 : n = 0
    · rw [hn0]
      simp
    · have hleafk : ∀ k, k < n →
          (leafDescD F.cells (n + 4 * n) k).length = 4 := by
        intro k hk
        obtain ⟨f1, hf1⟩ : ∃ f1, n + 4 * n = f1 + 1 + 1 :=
          ⟨n + 4 * n - 2, by omega⟩
        rw [hf1, leafDescD_succ,
          show (F.cells.getD k default).children
            = some (Children.mk (n + 4 * k) (n + 4 * k + 1)
                (n + 4 * k + 2) (n + 4 * k + 3)) from e4 k hk]
        have hc1 : leafDescD F.cells (f1 + 1) (n + 4 * k)
            = [n + 4 * k] := by
          rw [leafDescD_succ,
            show (F.cells.getD (n + 4 * k) default).children = none
              from e5 (n + 4 * k) (by omega)]
        have hc2 : leafDescD F.cells (f1 + 1) (n + 4 * k + 1)
            = [n + 4 * k + 1] := by
          rw [leafDescD_succ,
            show (F.cells.getD (n + 4 * k + 1) default).children = none
              from e5 (n + 4 * k + 1) (by omega)]
        have hc3 : leafDescD F.cells (f1 + 1) (n + 4 * k + 2)
            = [n + 4 * k + 2] := by
          rw [leafDescD_succ,
            show (F.cells.getD (n + 4 * k + 2) default).children = none
              from e5 (n + 4 * k + 2) (by omega)]
        have hc4 : leafDescD F.cells (f1 + 1) (n + 4 * k + 3)
            = [n + 4 * k + 3] := by
          rw [leafDescD_succ,
            show (F.cells.getD (n + 4 * k + 3) default).children = none
              from e5 (n + 4 * k + 3) (by omega)]
        show (leafDescD F.cells (f1 + 1) (n + 4 * k)
            ++ leafDescD F.cells (f1 + 1) (n + 4 * k + 1)
            ++ leafDescD F.cells (f1 + 1) (n + 4 * k + 2)
            ++ leafDescD F.cells (f1 + 1) (n + 4 * k + 3)).length = 4
        rw [hc1, hc2, hc3, hc4]
        rfl
      rw [sumRangeCongr
        (fun a => (leafDescD F.cells (n + 4 * n) a).length)
        (fun _ => 4) n hleafk, sumRangeConst 4 n]
      ring

theorem c5_split_all_amended_witness :
    2 % 2 = 0
    ∧ (split_all_cells (construct (4, 4) 2 5)).2 = none
    ∧ (split_all_cells (construct (4, 4) 2 5)).1.cells.length
        = 5 * (construct (4, 4) 2 5).cells.length
    ∧ (get_all_leaf_cells (split_all_cells (construct (4, 4) 2 5)).1).length
        = 4 * (construct (4, 4) 2 5).cells.length :=
  ⟨by decide, (c5_split_all_amended 4 4 2 5 (by decide)).1,
   (c5_split_all_amended 4 4 2 5 (by decide)).2.1,
   (c5_split_all_amended 4 4 2 5 (by decide)).2.2.2⟩

/- ------------------------------------------------------------------
Rational interval helpers for the tiling argument.
------------------------------------------------------------------- -/

theorem hQ_nonneg (s t : Nat) : 0 ≤ hQ s t := by
  unfold hQ
  positivity

theorem hQ_zero (s : Nat) : hQ s 0 = (s : ℚ) := by
  unfold hQ
  simp

/-- splitting a half-open rectangle indicator at interior mid-lines
into the four quadrant indicators. -/
theorem ind_quad (ax mx bx ay my bY x y : ℚ)
    (h1 : ax ≤ mx) (h2 : mx ≤ bx) (h3 : ay ≤ my) (h4 : my ≤ bY) :
    (if ax ≤ x ∧ x < bx ∧ ay ≤ y ∧ y < bY then (1 : Nat) else 0)
      = (if ax ≤ x ∧ x < mx ∧ ay ≤ y ∧ y < my then 1 else 0)
        + (if mx ≤ x ∧ x < bx ∧ ay ≤ y ∧ y < my then 1 else 0)
        + (if ax ≤ x ∧ x < mx ∧ my ≤ y ∧ y < bY then 1 else 0)
        + (if mx ≤ x ∧ x < bx ∧ my ≤ y ∧ y < bY then 1 else 0) := by
  by_cases hx : x < mx
  · by_cases hy : y < my
    · have n2 : ¬(mx ≤ x ∧ x < bx ∧ ay ≤ y ∧ y < my) :=
        fun hc => absurd hc.1 (not_le.2 hx)
      have n3 : ¬(ax ≤ x ∧ x < mx ∧ my ≤ y ∧ y < bY) :=
        fun hc => absurd hc.2.2.1 (not_le.2 hy)
      have n4 : ¬(mx ≤ x ∧ x < bx ∧ my ≤ y ∧ y < bY) :=
        fun hc => absurd hc.1 (not_le.2 hx)
      rw [if_neg n2, if_neg n3, if_neg n4]
      by_cases hin : ax ≤ x ∧ x < mx ∧ ay ≤ y ∧ y < my
      · rw [if_pos hin,
          if_pos (show ax ≤ x ∧ x < bx ∧ ay ≤ y ∧ y < bY from
            ⟨hin.1, lt_of_lt_of_le hin.2.1 h2, hin.2.2.1,
              lt_of_lt_of_le hin.2.2.2 h4⟩)]
      · have np : ¬(ax ≤ x ∧ x < bx ∧ ay ≤ y ∧ y < bY) :=
          fun hc => hin ⟨hc.1, hx, hc.2.2.1, hy⟩
        rw [if_neg hin, if_neg np]
    · have hy2 : my ≤ y := le_of_not_lt hy
      have n1 : ¬(ax ≤ x ∧ x < mx ∧ ay ≤ y ∧ y < my) :=
        fun hc => hy hc.2.2.2
      have n2 : ¬(mx ≤ x ∧ x < bx ∧ ay ≤ y ∧ y < my) :=
        fun hc => absurd hc.1 (not_le.2 hx)
      have n4 : ¬(mx ≤ x ∧ x < bx ∧ my ≤ y ∧ y < bY) :=
        fun hc => absurd hc.1 (not_le.2 hx)
      rw [if_neg n1, if_neg n2, if_neg n4]
      by_cases hin : ax ≤ x ∧ x < mx ∧ my ≤ y ∧ y < bY
      · rw [if_pos hin,
          if_pos (show ax ≤ x ∧ x < bx ∧ ay ≤ y ∧ y < bY from
            ⟨hin.1, lt_of_lt_of_le hin.2.1 h2,
              le_trans h3 hin.2.2.1, hin.2.2.2⟩)]
      · have np : ¬(ax ≤ x ∧ x < bx ∧ ay ≤ y ∧ y < bY) :=
          fun hc => hin ⟨hc.1, hx, hy2, hc.2.2.2⟩
        rw [if_neg hin, if_neg np]
  · have hx2 : mx ≤ x := le_of_not_lt hx
    by_cases hy : y < my
    · have n1 : ¬(ax ≤ x ∧ x < mx ∧ ay ≤ y ∧ y < my) :=
        fun hc => hx hc.2.1
      have n3 : ¬(ax ≤ x ∧ x < mx ∧ my ≤ y ∧ y < bY) :=
        fun hc => hx hc.2.1
      have n4 : ¬(mx ≤ x ∧ x < bx ∧ my ≤ y ∧ y < bY) :=
        fun hc => absurd hc.2.2.1 (not_le.2 hy)
      rw [if_neg n1, if_neg n3, if_neg n4]
      by_cases hin : mx ≤ x ∧ x < bx ∧ ay ≤ y ∧ y < my
      · rw [if_pos hin,
          if_pos (show ax ≤ x ∧ x < bx ∧ ay ≤ y ∧ y < bY from
            ⟨le_trans h1 hin.1, hin.2.1, hin.2.2.1,
              lt_of_lt_of_le hin.2.2.2 h4⟩)]
      · have np : ¬(ax ≤ x ∧ x < bx ∧ ay ≤ y ∧ y < bY) :=
          fun hc => hin ⟨hx2, hc.2.1, hc.2.2.1, hy⟩
        rw [if_neg hin, if_neg np]
    · have hy2 : my ≤ y := le_of_not_lt hy
      have n1 : ¬(ax ≤ x ∧ x < mx ∧ ay ≤ y ∧ y < my) :=
        fun hc => hx hc.2.1
      have n2 : ¬(mx ≤ x ∧ x < bx ∧ ay ≤ y ∧ y < my) :=
        fun hc => hy hc.2.2.2
      have n3 : ¬(ax ≤ x ∧ x < mx ∧ my ≤ y ∧ y < bY) :=
        fun hc => hx hc.2.1
      rw [if_neg n1, if_neg n2, if_neg n3]
      by_cases hin : mx ≤ x ∧ x < bx ∧ my ≤ y ∧ y < bY
      · rw [if_pos hin,
          if_pos (show ax ≤ x ∧ x < bx ∧ ay ≤ y ∧ y < bY from
            ⟨le_trans h1 hin.1, hin.2.1, le_trans h3 hin.2.2.1,
              hin.2.2.2⟩)]
      · have np : ¬(ax ≤ x ∧ x < bx ∧ ay ≤ y ∧ y < bY) :=
          fun hc => hin ⟨hx2, hc.2.1, hy2, hc.2.2.2⟩
        rw [if_neg hin, if_neg np]

/-- a cell's corner rectangle is exactly the grid-position rectangle at
the tier spacing. -/
theorem cellRect_char (mg : MultiGrid) (h : WF mg) (px py : ℚ) (i : Nat)
    (hi : i < mg.cells.length) :
    cellRectContains mg i px py ↔
      (((cellAt mg i).ix : ℚ) * hQ mg.spacing (cellAt mg i).tier ≤ px
       ∧ px < (((cellAt mg i).ix : ℚ) + 1)
           * hQ mg.spacing (cellAt mg i).tier
       ∧ ((cellAt mg i).iy : ℚ) * hQ mg.spacing (cellAt mg i).tier ≤ py
       ∧ py < (((cellAt mg i).iy : ℚ) + 1)
           * hQ mg.spacing (cellAt mg i).tier) := by
  obtain ⟨bnds, ⟨xbl, ybl⟩, hbr, htl, ⟨xtr, ytr⟩⟩ := h.corners i hi
  unfold cellRectContains
  rw [xbl, ybl, xtr, ytr]

/-- the leaf cells below cell `i` contain a point exactly once iff the
cell's own rectangle contains it: the four children of a split cell
partition its half-open rectangle. -/
theorem leaf_rect_count (mg : MultiGrid) (h : WF mg) (px py : ℚ) :
    ∀ fuel i, i < mg.cells.length → mg.cells.length - i ≤ fuel →
    (leafDescD mg.cells fuel i).countP
        (fun l => decide (cellRectContains mg l px py))
      = if cellRectContains mg i px py then 1 else 0 := by
  intro fuel
  induction fuel with
  | zero =>
    intro i hi hf
    exact absurd hf (by omega)
  | succ fuel ih =>
    intro i hi hf
    cases hq : (cellAt mg i).children with
    | none =>
      have em : leafDescD mg.cells (fuel + 1) i = [i] := by
        rw [leafDescD_succ,
          show (mg.cells.getD i default).children = none from hq]
      rw [em]
      by_cases hc : cellRectContains mg i px py
      · simp [List.countP_cons, List.countP_nil, hc]
      · simp [List.countP_cons, List.countP_nil, hc]
    | some q =>
      obtain ⟨hlt, eBR, eTL, eTR, hE5, cbl, cbr, ctl, ctr⟩ :=
        h.children_ok i hi q hq
      have em : leafDescD mg.cells (fuel + 1) i
          = leafDescD mg.cells fuel q.bl ++ leafDescD mg.cells fuel q.br
            ++ leafDescD mg.cells fuel q.tl
            ++ leafDescD mg.cells fuel q.tr := by
        rw [leafDescD_succ,
          show (mg.cells.getD i default).children = some q from hq]
      rw [em, List.countP_append, List.countP_append, List.countP_append,
        ih q.bl (by omega) (by omega), ih q.br (by omega) (by omega),
        ih q.tl (by omega) (by omega), ih q.tr (by omega) (by omega)]
      have hs2 := hQ_succ mg.spacing (cellAt mg i).tier
      set t := (cellAt mg i).tier with htdef
      set hh := hQ mg.spacing (t + 1) with hhdef
      set X := (cellAt mg i).ix with hXdef
      set Y := (cellAt mg i).iy with hYdef
      have hh0 : 0 ≤ hh := by
        rw [hhdef]
        exact hQ_nonneg _ _
      have ex0 : ((2 * X : ℕ) : ℚ) * hh = 2 * (X : ℚ) * hh := by
        push_cast
        ring
      have ex1 : (((2 * X : ℕ) : ℚ) + 1) * hh
          = (2 * (X : ℚ) + 1) * hh := by
        push_cast
        ring
      have ex1b : ((2 * X + 1 : ℕ) : ℚ) * hh
          = (2 * (X : ℚ) + 1) * hh := by
        push_cast
        ring
      have ex2 : (((2 * X + 1 : ℕ) : ℚ) + 1) * hh
          = (2 * (X : ℚ) + 2) * hh := by
        push_cast
        ring
      have ey0 : ((2 * Y : ℕ) : ℚ) * hh = 2 * (Y : ℚ) * hh := by
        push_cast
        ring
      have ey1 : (((2 * Y : ℕ) : ℚ) + 1) * hh
          = (2 * (Y : ℚ) + 1) * hh := by
        push_cast
        ring
      have ey1b : ((2 * Y + 1 : ℕ) : ℚ) * hh
          = (2 * (Y : ℚ) + 1) * hh := by
        push_cast
        ring
      have ey2 : (((2 * Y + 1 : ℕ) : ℚ) + 1) * hh
          = (2 * (Y : ℚ) + 2) * hh := by
        push_cast
        ring
      have epx0 : (X : ℚ) * hQ mg.spacing t = 2 * (X : ℚ) * hh := by
        rw [hs2]
        ring
      have epx1 : ((X : ℚ) + 1) * hQ mg.spacing t
          = (2 * (X : ℚ) + 2) * hh := by
        rw [hs2]
        ring
      have epy0 : (Y : ℚ) * hQ mg.spacing t = 2 * (Y : ℚ) * hh := by
        rw [hs2]
        ring
      have epy1 : ((Y : ℚ) + 1) * hQ mg.spacing t
          = (2 * (Y : ℚ) + 2) * hh := by
        rw [hs2]
        ring
      have cpar : cellRectContains mg i px py ↔
          (2 * (X : ℚ) * hh ≤ px ∧ px < (2 * (X : ℚ) + 2) * hh
           ∧ 2 * (Y : ℚ) * hh ≤ py ∧ py < (2 * (Y : ℚ) + 2) * hh) := by
        rw [cellRect_char mg h px py i hi, ← htdef, ← hXdef, ← hYdef,
          epx0, epx1, epy0, epy1]
      have cblq : cellRectContains mg q.bl px py ↔
          (2 * (X : ℚ) * hh ≤ px ∧ px < (2 * (X : ℚ) + 1) * hh
           ∧ 2 * (Y : ℚ) * hh ≤ py ∧ py < (2 * (Y : ℚ) + 1) * hh) := by
        rw [cellRect_char mg h px py q.bl (by omega), cbl.1, cbl.2.1,
          cbl.2.2.1, ← hhdef, ex0, ex1, ey0, ey1]
      have cbrq : cellRectContains mg q.br px py ↔
          ((2 * (X : ℚ) + 1) * hh ≤ px ∧ px < (2 * (X : ℚ) + 2) * hh
           ∧ 2 * (Y : ℚ) * hh ≤ py ∧ py < (2 * (Y : ℚ) + 1) * hh) := by
        rw [cellRect_char mg h px py q.br (by omega), cbr.1, cbr.2.1,
          cbr.2.2.1, ← hhdef, ex1b, ex2, ey0, ey1]
      have ctlq : cellRectContains mg q.tl px py ↔
          (2 * (X : ℚ) * hh ≤ px ∧ px < (2 * (X : ℚ) + 1) * hh
           ∧ (2 * (Y : ℚ) + 1) * hh ≤ py ∧ py < (2 * (Y : ℚ) + 2) * hh) := by
        rw [cellRect_char mg h px py q.tl (by omega), ctl.1, ctl.2.1,
          ctl.2.2.1, ← hhdef, ex0, ex1, ey1b, ey2]
      have ctrq : cellRectContains mg q.tr px py ↔
          ((2 * (X : ℚ) + 1) * hh ≤ px ∧ px < (2 * (X : ℚ) + 2) * hh
           ∧ (2 * (Y : ℚ) + 1) * hh ≤ py ∧ py < (2 * (Y : ℚ) + 2) * hh) := by
        rw [cellRect_char mg h px py q.tr (by omega), ctr.1, ctr.2.1,
          ctr.2.2.1, ← hhdef, ex1b, ex2, ey1b, ey2]
      rw [if_congr cblq rfl rfl, if_congr cbrq rfl rfl,
        if_congr ctlq rfl rfl, if_congr ctrq rfl rfl,
        if_congr cpar rfl rfl]
      refine (ind_quad (2 * (X : ℚ) * hh) ((2 * (X : ℚ) + 1) * hh)
        ((2 * (X : ℚ) + 2) * hh) (2 * (Y : ℚ) * hh)
        ((2 * (Y : ℚ) + 1) * hh) ((2 * (Y : ℚ) + 2) * hh) px py
        ?_ ?_ ?_ ?_).symm
      · exact mul_le_mul_of_nonneg_right (by linarith) hh0
      · exact mul_le_mul_of_nonneg_right (by linarith) hh0
      · exact mul_le_mul_of_nonneg_right (by linarith) hh0
      · exact mul_le_mul_of_nonneg_right (by linarith) hh0

/-- C3 (amended): on every reachable mesh, the leaf cells exactly tile
the tier-0 grid extent `[0, n_cc*spacing) x [0, n_rc*spacing)` (the
rectangle spanned by the tier-0 sample points): every point of the
half-open extent lies in the corner rectangle of exactly one leaf cell
of the traversal - no gaps, no overlaps. -/
theorem c3_tiling_amended (mg : MultiGrid) (h : Reachable mg) (px py : ℚ)
    (hx0 : 0 ≤ px) (hx1 : px < (mg.n_cc : ℚ) * mg.spacing)
    (hy0 : 0 ≤ py) (hy1 : py < (mg.n_rc : ℚ) * mg.spacing) :
    (get_all_leaf_cells mg).countP
      (fun l => decide (cellRectContains mg l px py)) = 1 := by
  have hWF := wf_reachable mg h
  have hsp : (0 : ℚ) < (mg.spacing : ℚ) := by
    by_contra hns
    push_neg at hns
    have h0 : (0 : ℚ) ≤ (mg.n_cc : ℚ) := Nat.cast_nonneg _
    nlinarith
  set c0 : Nat := (Int.floor (px / (mg.spacing : ℚ))).toNat with hc0def
  set r0 : Nat := (Int.floor (py / (mg.spacing : ℚ))).toNat with hr0def
  have hflx0 : (0 : ℤ) ≤ Int.floor (px / (mg.spacing : ℚ)) :=
    Int.floor_nonneg.2 (div_nonneg hx0 (le_of_lt hsp))
  have hfly0 : (0 : ℤ) ≤ Int.floor (py / (mg.spacing : ℚ)) :=
    Int.floor_nonneg.2 (div_nonneg hy0 (le_of_lt hsp))
  have hc0c : ((c0 : ℕ) : ℚ)
      = ((Int.floor (px / (mg.spacing : ℚ)) : ℤ) : ℚ) := by
    rw [hc0def]
    exact_mod_cast congrArg (fun z : ℤ => (z : ℚ))
      (Int.toNat_of_nonneg hflx0)
  have hr0c : ((r0 : ℕ) : ℚ)
      = ((Int.floor (py / (mg.spacing : ℚ)) : ℤ) : ℚ) := by
    rw [hr0def]
    exact_mod_cast congrArg (fun z : ℤ => (z : ℚ))
      (Int.toNat_of_nonneg hfly0)
  have hxlow : ((c0 : ℕ) : ℚ) * mg.spacing ≤ px := by
    rw [hc0c]
    calc ((Int.floor (px / (mg.spacing : ℚ)) : ℤ) : ℚ) * mg.spacing
        ≤ (px / (mg.spacing : ℚ)) * mg.spacing :=
          mul_le_mul_of_nonneg_right
            (Int.floor_le (px / (mg.spacing : ℚ))) (le_of_lt hsp)
      _ = px := div_mul_cancel₀ px (ne_of_gt hsp)
  have hylow : ((r0 : ℕ) : ℚ) * mg.spacing ≤ py := by
    rw [hr0c]
    calc ((Int.floor (py / (mg.spacing : ℚ)) : ℤ) : ℚ) * mg.spacing
        ≤ (py / (mg.spacing : ℚ)) * mg.spacing :=
          mul_le_mul_of_nonneg_right
            (Int.floor_le (py / (mg.spacing : ℚ))) (le_of_lt hsp)
      _ = py := div_mul_cancel₀ py (ne_of_gt hsp)
  have hxhigh : px < (((c0 : ℕ) : ℚ) + 1) * mg.spacing := by
    have h2 : px / (mg.spacing : ℚ) < ((c0 : ℕ) : ℚ) + 1 := by
      rw [hc0c]
      exact_mod_cast Int.lt_floor_add_one (px / (mg.spacing : ℚ))
    calc px = (px / (mg.spacing : ℚ)) * mg.spacing :=
          (div_mul_cancel₀ px (ne_of_gt hsp)).symm
      _ < (((c0 : ℕ) : ℚ) + 1) * mg.spacing :=
          mul_lt_mul_of_pos_right h2 hsp
  have hyhigh : py < (((r0 : ℕ) : ℚ) + 1) * mg.spacing := by
    have h2 : py / (mg.spacing : ℚ) < ((r0 : ℕ) : ℚ) + 1 := by
      rw [hr0c]
      exact_mod_cast Int.lt_floor_add_one (py / (mg.spacing : ℚ))
    calc py = (py / (mg.spacing : ℚ)) * mg.spacing :=
          (div_mul_cancel₀ py (ne_of_gt hsp)).symm
      _ < (((r0 : ℕ) : ℚ) + 1) * mg.spacing :=
          mul_lt_mul_of_pos_right h2 hsp
  have hc0lt : c0 < mg.n_cc := by
    have hq : px / (mg.spacing : ℚ) < ((mg.n_cc : ℤ) : ℚ) := by
      rw [div_lt_iff hsp]
      push_cast
      exact hx1
    have hfl : Int.floor (px / (mg.spacing : ℚ)) < (mg.n_cc : ℤ) :=
      Int.floor_lt.2 hq
    omega
  have hr0lt : r0 < mg.n_rc := by
    have hq : py / (mg.spacing : ℚ) < ((mg.n_rc : ℤ) : ℚ) := by
      rw [div_lt_iff hsp]
      push_cast
      exact hy1
    have hfl : Int.floor (py / (mg.spacing : ℚ)) < (mg.n_rc : ℤ) :=
      Int.floor_lt.2 hq
    omega
  set k0 : Nat := r0 * mg.n_cc + c0 with hk0def
  have hk0lt : k0 < mg.cells_in_top_tier := by
    rw [hWF.top_count, hk0def]
    exact rcBound r0 c0 mg.n_rc mg.n_cc hr0lt hc0lt
  have topchar : ∀ k, k < mg.cells_in_top_tier →
      (cellRectContains mg k px py ↔
        (((k % mg.n_cc : ℕ) : ℚ) * mg.spacing ≤ px
         ∧ px < (((k % mg.n_cc : ℕ) : ℚ) + 1) * mg.spacing
         ∧ ((k / mg.n_cc : ℕ) : ℚ) * mg.spacing ≤ py
         ∧ py < (((k / mg.n_cc : ℕ) : ℚ) + 1) * mg.spacing)) := by
    intro k hk
    obtain ⟨tk, xk, yk⟩ := hWF.top_cells k hk
    rw [cellRect_char mg hWF px py k (lt_of_lt_of_le hk hWF.top_le),
      tk, xk, yk, hQ_zero]
  show ((List.range mg.cells_in_top_tier).flatMap
      (leafDescD mg.cells mg.cells.length)).countP
      (fun l => decide (cellRectContains mg l px py)) = 1
  rw [cpFlatMap]
  rw [sumRangeCongr
    (fun a => (leafDescD mg.cells mg.cells.length a).countP
      (fun l => decide (cellRectContains mg l px py)))
    (fun k => if cellRectContains mg k px py then 1 else 0)
    mg.cells_in_top_tier
    (fun k hk => leaf_rect_count mg hWF px py mg.cells.length k
      (lt_of_lt_of_le hk hWF.top_le) (by omega))]
  refine sumIndOne _ mg.cells_in_top_tier k0 hk0lt ?_ ?_
  · have hink0 : cellRectContains mg k0 px py := by
      rw [topchar k0 hk0lt]
      have e1 : k0 % mg.n_cc = c0 := by
        rw [hk0def]
        exact rcMod r0 c0 mg.n_cc hc0lt
      have e2 : k0 / mg.n_cc = r0 := by
        rw [hk0def]
        exact rcDiv r0 c0 mg.n_cc hc0lt
      rw [e1, e2]
      exact ⟨hxlow, hxhigh, hylow, hyhigh⟩
    rw [if_pos hink0]
  · intro k hk hne
    have hnc : ¬ cellRectContains mg k px py := by
      intro hc
      rw [topchar k hk] at hc
      obtain ⟨ha, hb, hcc, hd⟩ := hc
      have ecol : k % mg.n_cc = c0 := by
        have l1 : ((k % mg.n_cc : ℕ) : ℚ) < ((c0 : ℕ) : ℚ) + 1 := by
          by_contra hge
          push_neg at hge
          have hm := mul_le_mul_of_nonneg_right hge (le_of_lt hsp)
          linarith
        have l2 : ((c0 : ℕ) : ℚ) < ((k % mg.n_cc : ℕ) : ℚ) + 1 := by
          by_contra hge
          push_neg at hge
          have hm := mul_le_mul_of_nonneg_right hge (le_of_lt hsp)
          linarith
        have l1n : k % mg.n_cc < c0 + 1 := by exact_mod_cast l1
        have l2n : c0 < k % mg.n_cc + 1 := by exact_mod_cast l2
        omega
      have erow : k / mg.n_cc = r0 := by
        have l1 : ((k / mg.n_cc : ℕ) : ℚ) < ((r0 : ℕ) : ℚ) + 1 := by
          by_contra hge
          push_neg at hge
          have hm := mul_le_mul_of_nonneg_right hge (le_of_lt hsp)
          linarith
        have l2 : ((r0 : ℕ) : ℚ) < ((k / mg.n_cc : ℕ) : ℚ) + 1 := by
          by_contra hge
          push_neg at hge
          have hm := mul_le_mul_of_nonneg_right hge (le_of_lt hsp)
          linarith
        have l1n : k / mg.n_cc < r0 + 1 := by exact_mod_cast l1
        have l2n : r0 < k / mg.n_cc + 1 := by exact_mod_cast l2
        omega
      apply hne
      rw [hk0def, ← ecol, ← erow]
      exact (Nat.div_add_mod' k mg.n_cc).symm
    simp [hnc]

theorem c3_tiling_amended_witness :
    ((0 : ℚ) ≤ mkRat 1 2
      ∧ mkRat 1 2 < (mesh44s.n_cc : ℚ) * mesh44s.spacing
      ∧ mkRat 1 2 < (mesh44s.n_rc : ℚ) * mesh44s.spacing)
    ∧ (get_all_leaf_cells mesh44s).countP
        (fun l => decide (cellRectContains mesh44s l (mkRat 1 2)
          (mkRat 1 2))) = 1 := by
  have e1 : (mesh44s.n_cc : ℚ) * (mesh44s.spacing : ℚ)
      = ((1 : ℕ) : ℚ) * ((2 : ℕ) : ℚ) := by
    have hc : mesh44s.n_cc = 1 := by decide
    have hs : mesh44s.spacing = 2 := by decide
    rw [hc, hs]
  have e2 : (mesh44s.n_rc : ℚ) * (mesh44s.spacing : ℚ)
      = ((1 : ℕ) : ℚ) * ((2 : ℕ) : ℚ) := by
    have hc : mesh44s.n_rc = 1 := by decide
    have hs : mesh44s.spacing = 2 := by decide
    rw [hc, hs]
  have hb1 : mkRat 1 2 < (mesh44s.n_cc : ℚ) * mesh44s.spacing := by
    rw [e1]
    norm_num
  have hb2 : mkRat 1 2 < (mesh44s.n_rc : ℚ) * mesh44s.spacing := by
    rw [e2]
    norm_num
  have h0 : (0 : ℚ) ≤ mkRat 1 2 := by
    rw [Rat.mkRat_eq_div]
    norm_num
  exact ⟨⟨h0, hb1, hb2⟩,
    c3_tiling_amended mesh44s
      (Reachable.step_split mesh44 (mesh44.cells.length + 1) 0
        (Reachable.base (4, 4) 2 5))
      (mkRat 1 2) (mkRat 1 2) h0 hb1 h0 hb2⟩
